import Mathlib

/-!
Verification of the libvncserver WebSocket transport (`websockets.c`,
`ws_decode.c`) against its specification.

The decoder of `ws_decode.c` is embedded shallowly: the scratch buffer
`codeBufDecode` and the carry buffer `carryBuf` are modelled as total
functions from byte offsets to stored bytes, the raw socket is modelled
as the list of byte chunks that successive `read` calls will deliver,
and the C functions `returnData`, `readHeader`, `readAndDecode` and
`_webSocketsDecode` are translated one by one.  Machine integers are
modelled as `Nat`/`Int`; the only place where fixed-width arithmetic is
semantically relevant is the `uint64_t` subtraction inside `remaining`,
which is modelled with an explicit `% 2 ^ 64`.
-/

/-- Bytes of the modelled machine (the C code's `unsigned char` values). -/
abbrev Byte := Nat

/-- A C byte buffer, modelled as a total function from offset to byte. -/
abbrev Buf := Nat → Byte

/-- Write the bytes `bs` into `buf` starting at offset `pos`
(the model of `memcpy(buf + pos, bs, |bs|)`). -/
def bufWrite (buf : Buf) (pos : Nat) (bs : List Byte) : Buf :=
  fun i => if pos ≤ i ∧ i < pos + bs.length then bs.getD (i - pos) 0 else buf i

/-- Read `n` bytes from `buf` starting at offset `pos`. -/
def bufRead (buf : Buf) (pos n : Nat) : List Byte :=
  (List.range n).map (fun i => buf (pos + i))

/-- Mask byte used for offset `j`: `mask.c[j % 4]` in the C code. -/
def maskAt (mask : List Byte) (j : Nat) : Byte :=
  mask.getD (j % 4) 0

/-- XOR the bytes at offsets `base + lo .. base + hi - 1` of `buf` with
`mask[i % 4]`, where `i` is the offset relative to `base`.  This models both
XOR loops of `readAndDecode`: the word loop `data32[i] ^= mask.u` XORs each
byte of the buffer word with the mask byte at the same position within the
word (the mask word was loaded from the same four mask bytes, so the word
XOR is byte-wise and endian-neutral), i.e. `lo = 0`, `hi = 4*(toDecode>>2)`;
and the tail loop `data[i] ^= mask.c[i % 4]` with `lo = 4*(toDecode>>2)`,
`hi = toDecode`. -/
def xorRegionIdx (buf : Buf) (base lo hi : Nat) (mask : List Byte) : Buf :=
  fun j => if base + lo ≤ j ∧ j < base + hi then buf j ^^^ maskAt mask (j - base) else buf j

/-- `WSHLENMAX` of `websockets.h`: maximal WebSocket header size (14,
the long masked header; the spec's `header_len ∈ {6, 8, 14}`). -/
def WSHLENMAX : Nat := 14

/-- Modelled from the spec: size of the decode scratch buffer
`codeBufDecode` (`websockets.h` is not part of the sources; spec §3
requires a single scratch buffer of at least 16 KiB plus one
maximum-length header). -/
def codeBufSize : Nat := 16384 + WSHLENMAX

/-- Modelled from the spec: `ARRAYSIZE(carryBuf)`; spec §3: `carry_buf[3]`. -/
def carryBufSize : Nat := 3

/-- Header length of a short masked frame (2 header bytes + 4 mask bytes). -/
def WS_HYBI_HEADER_LEN_SHORT_MASKED : Nat := 6

/-- Header length of an extended (16-bit length) masked frame. -/
def WS_HYBI_HEADER_LEN_EXTENDED_MASKED : Nat := 8

/-- Header length of a long (64-bit length) masked frame. -/
def WS_HYBI_HEADER_LEN_LONG_MASKED : Nat := 14

/-- RFC 6455 opcode 0x0: continuation frame. -/
def WS_OPCODE_CONTINUATION : Nat := 0

/-- RFC 6455 opcode 0x1: text frame. -/
def WS_OPCODE_TEXT_FRAME : Nat := 1

/-- RFC 6455 opcode 0x2: binary frame. -/
def WS_OPCODE_BINARY_FRAME : Nat := 2

/-- RFC 6455 opcode 0x8: connection close. -/
def WS_OPCODE_CLOSE : Nat := 8

/-- RFC 6455 opcode 0x9: ping. -/
def WS_OPCODE_PING : Nat := 9

/-- RFC 6455 opcode 0xA: pong. -/
def WS_OPCODE_PONG : Nat := 10

/-- Sentinel opcode value `WS_OPCODE_INVALID` (outside the 4-bit opcode
range; used for "no remembered continuation opcode"). -/
def WS_OPCODE_INVALID : Nat := 255

/-- Decoder states (`WS_STATE_*` of `websockets.h`, spec §3 DecoderState). -/
inductive DState
  | headerPending
  | dataAvailable
  | dataNeeded
  | frameComplete
  | closeReasonPending
  | err
deriving DecidableEq, Repr

/-- POSIX errno values the decoder signals (plus `enone` for "errno not
set by this call"). -/
inductive Errno
  | enone
  | eagain
  | eproto
  | econnreset
  | eio
deriving DecidableEq, Repr

/-- Decoded frame header (`ws_header_data_t`).  `mask` is the list of the
four mask bytes in wire order; `fin` is the numeric value
`(b0 & 0x80) >> 7` exactly as stored by the C code. -/
structure WsHeader where
  opcode : Nat
  fin : Nat
  payloadLen : Nat
  mask : List Byte
  headerLen : Nat
  nDone : Nat

/-- Decoder context (`ws_decoding_ctx_t`).  Buffer pointers of the C code
(`writePos`, `readPos`) are byte offsets into `codeBuf`; the C `NULL`
resets are modelled as offset `0` (the pointers are never dereferenced in
those states). `readlen` is a C `int` and can become `-1` (failed Base64
decode), hence `Int`. -/
structure DecCtx where
  header : WsHeader
  nReadPayload : Nat
  carrylen : Nat
  carryBuf : Buf
  codeBuf : Buf
  readPos : Nat
  readlen : Int
  writePos : Nat
  state : DState
  continuation_opcode : Nat

/-- Session context (`ws_ctx_t`): decoder state plus the negotiated
`base64` flag (set by `webSocketsHandshake`; note that the decoding path
never consults it). -/
structure WsCtx where
  dec : DecCtx
  base64 : Bool

/-- The raw socket, modelled as the byte chunks that successive `read`
calls will deliver.  `sockRead s n` models `read(fd, buf, n)`: it returns
up to `n` bytes of the first pending chunk (`none` models `-1` with
`errno = EAGAIN`: no data available on a non-blocking socket). -/
abbrev Sock := List (List Byte)

/-- One raw `read` of at most `n` bytes; returns the bytes delivered and
the remaining socket contents. -/
def sockRead (s : Sock) (n : Nat) : Option (List Byte) × Sock :=
  match s with
  | [] => (none, [])
  | c :: rest =>
    let k := min n c.length
    (some (c.take k), if k < c.length then c.drop k :: rest else rest)

/-- Model of `wsHeaderCleanup`: resets everything except `fin` (which the
C function does not touch). -/
def wsHeaderCleanup (h : WsHeader) : WsHeader :=
  { h with
    opcode := WS_OPCODE_INVALID, payloadLen := 0, mask := [0, 0, 0, 0],
    headerLen := 0, nDone := 0 }

/-- Model of `wsDecodeCleanupBasics`. -/
def wsDecodeCleanupBasics (c : DecCtx) : DecCtx :=
  { c with
    header := wsHeaderCleanup c.header, nReadPayload := 0, carrylen := 0,
    readPos := 0, readlen := 0, state := .headerPending, writePos := 0 }

/-- Model of `wsDecodeCleanupForContinuation` (keeps `continuation_opcode`). -/
def wsDecodeCleanupForContinuation (c : DecCtx) : DecCtx :=
  wsDecodeCleanupBasics c

/-- Model of `wsDecodeCleanupComplete`. -/
def wsDecodeCleanupComplete (c : DecCtx) : DecCtx :=
  { wsDecodeCleanupBasics c with continuation_opcode := WS_OPCODE_INVALID }

/-- Model of `remaining`: `header.payloadLen - nReadPayload` computed in
`uint64_t` arithmetic (the subtraction wraps modulo `2 ^ 64`; this wrap is
semantically reachable, see the pipelined-frames counterexample). -/
def remaining (c : DecCtx) : Nat :=
  (c.header.payloadLen % 2 ^ 64 + 2 ^ 64 - c.nReadPayload % 2 ^ 64) % 2 ^ 64

/-- Model of `isControlFrame`: `0 != (opcode & 0x08)`. -/
def isControlFrame (h : WsHeader) : Bool :=
  Nat.land h.opcode 8 != 0

/-- Result of `returnData`: next decoding state, the emulated `recv`
return value, the errno it set (`enone` when untouched), the bytes it
copied to the caller's `dst`, and the updated context. -/
structure RdOut where
  next : DState
  ret : Int
  err : Errno
  out : List Byte
  ctx : DecCtx

/-- Model of `returnData`: hand decoded bytes to the caller. -/
def returnData (len : Nat) (c : DecCtx) : RdOut :=
  if 0 < c.readlen then
    if (len : Int) < c.readlen then
      { next := .dataAvailable, ret := (len : Int), err := .enone,
        out := bufRead c.codeBuf c.readPos len,
        ctx := { c with
          readlen := c.readlen - (len : Int), readPos := c.readPos + len } }
    else
      { next := if remaining c = 0 then .frameComplete else .dataNeeded,
        ret := c.readlen, err := .enone,
        out := bufRead c.codeBuf c.readPos c.readlen.toNat,
        ctx := { c with readlen := 0, readPos := 0 } }
  else
    { next := c.state, ret := -1, err := .eagain, out := [], ctx := c }

/-- Result of `readHeader`: either the header is complete (`ok`, with the
number of payload bytes that were read together with the header), or still
pending (`EAGAIN`), or the call failed (`fail` carries the emulated return
value and errno; the context was cleaned up by `err_cleanup_state`). -/
inductive HdrOut
  | ok (nInBuf : Nat) (c : DecCtx) (s : Sock)
  | pending (c : DecCtx) (s : Sock)
  | fail (ret : Int) (e : Errno) (c : DecCtx) (s : Sock)

/-- Big-endian value of a byte list (`WS_NTOH64` applied to the stored
length field). -/
def ntoh64 (bs : List Byte) : Nat :=
  bs.foldl (fun a b => a * 256 + b) 0

/-- Tail of header parsing: length-field decoding, mask extraction and the
minimality check (`readHeader` from the `payloadLen` assignment on).
`c` already holds the updated `codeBuf`, `nDone`, `opcode`, `fin` and
`continuation_opcode`. -/
def parseHeaderLen (c : DecCtx) (s' : Sock) : HdrOut :=
  let buf := c.codeBuf
  let nDone := c.header.nDone
  let c1 := { c with header := { c.header with payloadLen := Nat.land (buf 1) 0x7f } }
  if Nat.land (buf 1) 0x80 = 0 then
    .fail (-1) .eproto (wsDecodeCleanupComplete c1) s'
  else if c1.header.payloadLen < 126 ∧ 6 ≤ nDone then
    parseHeaderFinish
      { c1 with
        header := { c1.header with
          headerLen := WS_HYBI_HEADER_LEN_SHORT_MASKED,
          mask := bufRead buf 2 4 } } s'
  else if c1.header.payloadLen = 126 ∧ 8 ≤ nDone then
    parseHeaderFinish
      { c1 with
        header := { c1.header with
          headerLen := WS_HYBI_HEADER_LEN_EXTENDED_MASKED,
          payloadLen := buf 2 * 256 + buf 3,
          mask := bufRead buf 4 4 } } s'
  else if c1.header.payloadLen = 127 ∧ 14 ≤ nDone then
    parseHeaderFinish
      { c1 with
        header := { c1.header with
          headerLen := WS_HYBI_HEADER_LEN_LONG_MASKED,
          payloadLen := ntoh64 (bufRead buf 2 8),
          mask := bufRead buf 10 4 } } s'
  else
    .pending c1 s'
where
  /-- Minimality check and the final context updates of `readHeader`. -/
  parseHeaderFinish (c : DecCtx) (s' : Sock) : HdrOut :=
    if (WS_HYBI_HEADER_LEN_SHORT_MASKED < c.header.headerLen ∧ c.header.payloadLen < 126)
        ∨ (WS_HYBI_HEADER_LEN_EXTENDED_MASKED < c.header.headerLen
            ∧ c.header.payloadLen < 65536) then
      .fail (-1) .eproto (wsDecodeCleanupComplete c) s'
    else
      .ok (c.header.nDone - c.header.headerLen)
        { c with
          writePos := c.header.nDone,
          readPos := c.header.headerLen,
          nReadPayload := c.header.nDone - c.header.headerLen } s'

/-- First-bytes part of header parsing (opcode/fin extraction, control
frame check, continuation handling); `c` already holds the updated
`codeBuf` and `nDone ≥ 2`. -/
def parseHeader (c : DecCtx) (s' : Sock) : HdrOut :=
  let opcode := Nat.land (c.codeBuf 0) 0x0f
  let fin := Nat.shiftRight (Nat.land (c.codeBuf 0) 0x80) 7
  let c1 := { c with header := { c.header with opcode := opcode, fin := fin } }
  if Nat.land opcode 8 ≠ 0 then
    if fin = 0 then
      .fail (-1) .eproto (wsDecodeCleanupComplete c1) s'
    else
      parseHeaderLen c1 s'
  else if opcode = WS_OPCODE_CONTINUATION then
    if c1.continuation_opcode = WS_OPCODE_INVALID then
      .fail (-1) .eproto (wsDecodeCleanupComplete c1) s'
    else
      parseHeaderLen { c1 with header := { c1.header with opcode := c1.continuation_opcode } } s'
  else
    parseHeaderLen
      { c1 with continuation_opcode := if fin = 0 then opcode else WS_OPCODE_INVALID } s'

/-- Model of `readHeader`: read up to `WSHLENMAX - nDone` more bytes into
the header area of `codeBuf` and try to parse the header. -/
def readHeader (c0 : DecCtx) (s : Sock) : HdrOut :=
  match sockRead s (WSHLENMAX - c0.header.nDone) with
  | (none, s') => .fail (-1) .eagain (wsDecodeCleanupComplete c0) s'
  | (some bs, s') =>
    if bs.isEmpty then
      .fail 0 .enone (wsDecodeCleanupComplete c0) s'
    else
      let c1 := { c0 with
        codeBuf := bufWrite c0.codeBuf c0.header.nDone bs,
        header := { c0.header with nDone := c0.header.nDone + bs.length } }
      if c1.header.nDone < 2 then .pending c1 s' else parseHeader c1 s'

/-- Modelled from the spec: Base64 digit value (the `base64_decode`
primitive of spec §1 is external to the sources; RFC 4648 alphabet). -/
def b64DigitVal (b : Byte) : Option Nat :=
  if 65 ≤ b ∧ b ≤ 90 then some (b - 65)
  else if 97 ≤ b ∧ b ≤ 122 then some (b - 97 + 26)
  else if 48 ≤ b ∧ b ≤ 57 then some (b - 48 + 52)
  else if b = 43 then some 62
  else if b = 47 then some 63
  else none

/-- Modelled from the spec: decode a Base64 string group-wise; `'='`
padding is only accepted at the very end, anything else is an error
(`b64_pton` returns `-1`). -/
def b64Groups : List Byte → Option (List Byte)
  | [] => some []
  | b1 :: b2 :: b3 :: b4 :: rest =>
    match b64DigitVal b1, b64DigitVal b2 with
    | some v1, some v2 =>
      if b3 = 61 then
        if b4 = 61 ∧ rest = [] then some [(v1 <<< 2 + v2 >>> 4) % 256] else none
      else
        match b64DigitVal b3 with
        | some v3 =>
          if b4 = 61 then
            if rest = [] then
              some [(v1 <<< 2 + v2 >>> 4) % 256, ((v2 % 16) <<< 4 + v3 >>> 2) % 256]
            else none
          else
            match b64DigitVal b4 with
            | some v4 =>
              (b64Groups rest).map
                (fun tl => (v1 <<< 2 + v2 >>> 4) % 256
                  :: ((v2 % 16) <<< 4 + v3 >>> 2) % 256
                  :: ((v3 % 4) <<< 6 + v4) % 256 :: tl)
            | none => none
        | none => none
    | _, _ => none
  | _ => none

/-- Modelled from the spec: `b64_pton(src, target, targsize)`; fails when
the input is not valid Base64 or the decoded data exceeds `targsize`. -/
def b64_pton (src : List Byte) (targsize : Nat) : Option (List Byte) :=
  (b64Groups src).bind (fun l => if targsize < l.length then none else some l)

/-- Result of `readAndDecode` (and of its parts): next decoding state,
emulated return value, errno, bytes delivered to the caller, updated
context and socket. -/
structure RadOut where
  next : DState
  ret : Int
  err : Errno
  out : List Byte
  ctx : DecCtx
  sock : Sock

/-- The `switch (opcode)` tail of `readAndDecode`, after unmasking and
carry handling.  `dataPos` is the offset of `data`, `toReturn` the number
of unmasked bytes, `bufsize` the free space computed at function entry
(passed to `b64_pton` as target size). -/
def radSwitch (c4 : DecCtx) (s' : Sock) (len bufsize dataPos toReturn : Nat) : RadOut :=
  if c4.header.opcode = WS_OPCODE_CLOSE then
    if remaining c4 = 0 then
      { next := .frameComplete, ret := -1, err := .econnreset, out := [],
        ctx := { c4 with codeBuf := bufWrite c4.codeBuf c4.writePos [0] }, sock := s' }
    else
      { next := .closeReasonPending, ret := -1, err := .eagain, out := [],
        ctx := c4, sock := s' }
  else
    let c6 :=
      if c4.header.opcode = WS_OPCODE_TEXT_FRAME then
        let buf5 := bufWrite c4.codeBuf (dataPos + toReturn) [0]
        match b64_pton ((bufRead buf5 dataPos toReturn).takeWhile (fun b => b != 0)) bufsize with
        | none =>
          { c4 with
            codeBuf := buf5, readlen := -1, writePos := c4.header.headerLen }
        | some l =>
          { c4 with
            codeBuf := bufWrite buf5 dataPos l,
            readlen := (l.length : Int),
            writePos := c4.header.headerLen }
      else if c4.header.opcode = WS_OPCODE_BINARY_FRAME then
        { c4 with
          readlen := (toReturn : Int), writePos := c4.header.headerLen }
      else
        c4
    let r := returnData len { c6 with readPos := dataPos }
    { next := r.next, ret := r.ret, err := r.err, out := r.out, ctx := r.ctx, sock := s' }

/-- The byte-accounting statements of `readAndDecode` once the socket
read delivered `bs`: store the bytes at the write position, then
`nReadPayload += n; writePos += n`. -/
def radAccount (c1 : DecCtx) (bs : List Byte) : DecCtx :=
  { c1 with
    codeBuf := bufWrite c1.codeBuf c1.writePos bs,
    nReadPayload := c1.nReadPayload + bs.length,
    writePos := c1.writePos + bs.length }

/-- Middle part of `readAndDecode`, once the socket read delivered `bs`:
account the bytes, unmask word-wise, carry over the 0..3 tail bytes of an
incomplete frame, then dispatch on the opcode. -/
def radDecode (c1 : DecCtx) (s' : Sock) (len bufsize nInBuf : Nat) (bs : List Byte) : RadOut :=
  let n := bs.length
  let c2 := radAccount c1 bs
  let c3 := if remaining c2 = 0 then { c2 with state := .frameComplete } else c2
  let toDecode := n + c1.carrylen + nInBuf
  let dataPos := c3.writePos - toDecode
  let words := 4 * (toDecode >>> 2)
  let c3a := { c3 with codeBuf := xorRegionIdx c3.codeBuf dataPos 0 words c3.header.mask }
  if c3a.state = .frameComplete then
    let c4 := { c3a with
      codeBuf := xorRegionIdx c3a.codeBuf dataPos words toDecode c3a.header.mask,
      carrylen := 0 }
    radSwitch c4 s' len bufsize dataPos toDecode
  else
    let cl := toDecode - 4 * (toDecode >>> 2)
    let c4 := { c3a with carrylen := cl }
    if carryBufSize < cl then
      { next := .err, ret := -1, err := .eio, out := [], ctx := c4, sock := s' }
    else
      let c5 := { c4 with
        carryBuf := bufWrite c4.carryBuf 0 (bufRead c4.codeBuf (dataPos + words) cl),
        writePos := c4.writePos - cl }
      radSwitch c5 s' len bufsize dataPos (toDecode - cl)

/-- The carry-copy statements at the top of `readAndDecode`: copy the
`carrylen` carried bytes to the write position and advance it. -/
def radCarry (c0 : DecCtx) : DecCtx :=
  { c0 with
    codeBuf := bufWrite c0.codeBuf c0.writePos (bufRead c0.carryBuf 0 c0.carrylen),
    writePos := c0.writePos + c0.carrylen }

/-- Model of `readAndDecode`: copy the carry bytes back in front of the
write position, read up to `min(remaining, bufsize)` payload bytes from
the socket, then decode (`radDecode`). -/
def readAndDecode (c0 : DecCtx) (s : Sock) (len nInBuf : Nat) : RadOut :=
  let c1 := radCarry c0
  let bufsize := codeBufSize - c1.writePos - 1
  let nextRead := if bufsize < remaining c1 then bufsize else remaining c1
  if 0 < nextRead then
    match sockRead s nextRead with
    | (none, s') => { next := .err, ret := -1, err := .eagain, out := [], ctx := c1, sock := s' }
    | (some bs, s') =>
      if bs.isEmpty then
        { next := .err, ret := 0, err := .enone, out := [], ctx := c1, sock := s' }
      else
        radDecode c1 s' len bufsize nInBuf bs
  else
    radDecode c1 s len bufsize nInBuf []

/-- The cleanup block at the single point of return (`spor:`) of
`_webSocketsDecode`: a completed frame is cleaned up (fully for a
finished data frame, preserving `continuation_opcode` for fragments and
control frames), and — crucially — the `ERR` state is also cleaned up
completely, which resets `state` to `headerPending`. -/
def sporCleanup (c : DecCtx) : DecCtx :=
  if c.state = .frameComplete then
    if c.header.fin ≠ 0 ∧ isControlFrame c.header = false then
      wsDecodeCleanupComplete c
    else
      wsDecodeCleanupForContinuation c
  else if c.state = .err then
    wsDecodeCleanupComplete c
  else
    c

/-- Result of one emulated `recv` call (`_webSocketsDecode`). -/
structure RecvOut where
  ret : Int
  err : Errno
  out : List Byte
  wsctx : WsCtx
  sock : Sock

/-- Assemble a `RecvOut` from a `RadOut`: the returned state is assigned
to `dec_ctx->state`, then the single point of return runs. -/
def finishRad (w : WsCtx) (r : RadOut) : RecvOut :=
  { ret := r.ret, err := r.err, out := r.out,
    wsctx := { w with dec := sporCleanup { r.ctx with state := r.next } }, sock := r.sock }

/-- Model of `_webSocketsDecode` (and hence of `webSocketsDecode`, whose
wrapper only installs the read callback): one emulated `recv(dst, len)`.
`out` is the list of bytes the call wrote into `dst` (always a prefix of
`dst` of length `ret` when `ret > 0`). -/
def recvStep (w : WsCtx) (s : Sock) (len : Nat) : RecvOut :=
  match w.dec.state with
  | .headerPending =>
    match readHeader w.dec s with
    | .fail ret e c' s' =>
      { ret := ret, err := e, out := [],
        wsctx := { w with dec := sporCleanup { c' with state := .err } }, sock := s' }
    | .pending c' s' =>
      { ret := -1, err := .eagain, out := [],
        wsctx := { w with dec := sporCleanup { c' with state := .headerPending } }, sock := s' }
    | .ok nInBuf c' s' =>
      finishRad w (readAndDecode { c' with state := .dataNeeded } s' len nInBuf)
  | .dataAvailable =>
    let r := returnData len w.dec
    { ret := r.ret, err := r.err, out := r.out,
      wsctx := { w with dec := sporCleanup { r.ctx with state := r.next } }, sock := s }
  | .dataNeeded => finishRad w (readAndDecode w.dec s len 0)
  | .closeReasonPending => finishRad w (readAndDecode w.dec s len 0)
  | .frameComplete =>
    { ret := -1, err := .eio, out := [],
      wsctx := { w with dec := sporCleanup { w.dec with state := .err } }, sock := s }
  | .err =>
    { ret := -1, err := .eio, out := [],
      wsctx := { w with dec := sporCleanup { w.dec with state := .err } }, sock := s }

/-- Freshly initialised decoder context: `calloc` zeroes the structure and
`webSocketsHandshake` then calls `wsDecodeCleanupComplete`. -/
def initDec : DecCtx :=
  wsDecodeCleanupComplete
    { header := { opcode := 0, fin := 0, payloadLen := 0, mask := [0, 0, 0, 0],
                  headerLen := 0, nDone := 0 },
      nReadPayload := 0, carrylen := 0, carryBuf := fun _ => 0, codeBuf := fun _ => 0,
      readPos := 0, readlen := 0, writePos := 0, state := .headerPending,
      continuation_opcode := 0 }

/-- Freshly initialised session with the negotiated `base64` flag. -/
def initWs (base64 : Bool) : WsCtx :=
  { dec := initDec, base64 := base64 }

/-- Drive `recv` repeatedly (`fuel` calls, retrying on every result, which
subsumes retrying on `EAGAIN`) and concatenate all bytes delivered to the
caller. -/
def runCollect : Nat → WsCtx → Sock → Nat → List Byte
  | 0, _, _, _ => []
  | fuel + 1, w, s, len =>
    let r := recvStep w s len
    r.out ++ runCollect fuel r.wsctx r.sock len

/-- Test-harness builder: XOR a payload with a mask (`payload[j] ^ mask[j % 4]`),
producing the masked bytes a client puts on the wire. -/
def maskPayload (mask p : List Byte) : List Byte :=
  (List.range p.length).map (fun j => p.getD j 0 ^^^ maskAt mask j)

/-- Test-harness builder: the length field of a frame header (second
header byte with the MASK bit set, plus extended length bytes), encoded
minimally as RFC 6455 requires. -/
def lenFieldBytes (n : Nat) : List Byte :=
  if n < 126 then [128 + n]
  else if n < 65536 then [128 + 126, n >>> 8, n % 256]
  else [128 + 127, (n >>> 56) % 256, (n >>> 48) % 256, (n >>> 40) % 256, (n >>> 32) % 256,
        (n >>> 24) % 256, (n >>> 16) % 256, (n >>> 8) % 256, n % 256]

/-- Test-harness builder: a complete masked frame with first header byte
`b0` (FIN bit and opcode), mask `mask` and pre-mask payload `payload`. -/
def mkMaskedFrame (b0 : Byte) (mask payload : List Byte) : List Byte :=
  b0 :: lenFieldBytes payload.length ++ mask ++ maskPayload mask payload

/-- `FLASH_POLICY_RESPONSE` of `websockets.c`: the cross-domain policy
string literal, as its list of bytes (89 characters ending in a newline). -/
def FLASH_POLICY_RESPONSE : List Byte :=
  [60, 99, 114, 111, 115, 115, 45, 100, 111, 109, 97, 105, 110, 45, 112, 111, 108, 105, 99,
   121, 62, 60, 97, 108, 108, 111, 119, 45, 97, 99, 99, 101, 115, 115, 45, 102, 114, 111,
   109, 32, 100, 111, 109, 97, 105, 110, 61, 34, 42, 34, 32, 116, 111, 45, 112, 111, 114,
   116, 115, 61, 34, 42, 34, 32, 47, 62, 60, 47, 99, 114, 111, 115, 115, 45, 100, 111, 109,
   97, 105, 110, 45, 112, 111, 108, 105, 99, 121, 62, 10]

/-- `SZ_FLASH_POLICY_RESPONSE` of `websockets.c`. -/
def SZ_FLASH_POLICY_RESPONSE : Nat := 93

/-- The bytes `rfbWriteExact(cl, FLASH_POLICY_RESPONSE, SZ_FLASH_POLICY_RESPONSE)`
puts on the wire: the first `SZ_FLASH_POLICY_RESPONSE = 93` bytes of
memory starting at the string literal, i.e. the 89 string characters, the
NUL terminator, and then the 3 bytes that happen to follow the literal in
memory (modelled by `tail`, since the C program reads past the end of the
string constant). -/
def flashWrittenBytes (tail : Nat → Byte) : List Byte :=
  FLASH_POLICY_RESPONSE ++ 0 :: [tail 0, tail 1, tail 2]

/-- Model of the dispatch on the first peeked byte in `webSocketsCheck`:
on `'<'` (byte 60) the fixed policy answer is written and the connection
is rejected (`FALSE`, no session is created).  The second component is
the `rfbBool` result; the first is what was written to the socket. -/
def webSocketsCheckFlash (bbuf : List Byte) (tail : Nat → Byte) : Option (List Byte) × Bool :=
  if bbuf.getD 0 0 = 60 then (some (flashWrittenBytes tail), false) else (none, true)

/-- Number of bytes `readAndDecode` will have to unmask in this call
(the C variable `toDecode = n + carrylen + nInBuf`), recomputed from the
call's inputs: `n` is the number of bytes the socket read will deliver. -/
def toDecodeOf (c : DecCtx) (s : Sock) (nInBuf : Nat) : Nat :=
  let bufsize := codeBufSize - (c.writePos + c.carrylen) - 1
  let nextRead := if bufsize < remaining c then bufsize else remaining c
  let n := if 0 < nextRead then
      (match sockRead s nextRead with
       | (some bs, _) => bs.length
       | (none, _) => 0)
    else 0
  n + c.carrylen + nInBuf

/-- One-byte-per-read delivery of a byte stream: each `read` call on the
underlying socket returns exactly one byte. -/
def oneByteChunks (bs : List Byte) : Sock :=
  bs.map (fun b => [b])

/-- Invariant of the header-reading phase while decoding the frame `F`:
`h` header bytes have arrived, the header is not yet complete
(`h < headerLen`), and the decoder is in a cleanly-reset state apart from
the buffered prefix. -/
def HeaderPhase (c : DecCtx) (F : List Byte) (h : Nat) : Prop :=
  c.state = .headerPending ∧
  c.header.nDone = h ∧
  bufRead c.codeBuf 0 h = F.take h ∧
  c.continuation_opcode = WS_OPCODE_INVALID ∧
  c.readlen = 0 ∧ c.carrylen = 0 ∧ c.nReadPayload = 0 ∧ c.writePos = 0

/-- Invariant of the payload phase while decoding a single masked BINARY
frame with mask `mask`, pre-mask payload `payload` and header length
`hl`: `r` payload bytes have been taken from the socket so far, of which
the trailing `c.carrylen` still-masked bytes sit in the carry buffer; the
bytes delivered to the caller so far are `payload.take (r - c.carrylen)`,
and that amount is word-aligned. -/
def RoundPhase (mask payload : List Byte) (hl : Nat) (c : DecCtx) (r : Nat) : Prop :=
  c.state = .dataNeeded ∧
  c.header.opcode = WS_OPCODE_BINARY_FRAME ∧
  c.header.fin = 1 ∧
  c.header.payloadLen = payload.length ∧
  c.header.mask = mask ∧
  c.header.headerLen = hl ∧
  c.nReadPayload = r ∧
  r < payload.length ∧
  c.carrylen ≤ 3 ∧
  c.carrylen ≤ r ∧
  (r - c.carrylen) % 4 = 0 ∧
  bufRead c.carryBuf 0 c.carrylen
    = ((maskPayload mask payload).drop (r - c.carrylen)).take c.carrylen ∧
  c.readlen = 0 ∧
  c.writePos = hl

/-- Carry-length bookkeeping of a `readHeader` outcome: header parsing
never touches `carrylen` except through the error cleanup. -/
def HdrCarryInv (base : Nat) : HdrOut → Prop
  | .ok _ c' _ => c'.carrylen = base
  | .pending c' _ => c'.carrylen = base
  | .fail _ _ c' _ => c'.carrylen = 0

/-- Test-harness view of a socket: the byte stream obtained by
concatenating the pending chunks. -/
def sockJoin (s : Sock) : List Byte := s.flatten

/-! ### Buffer algebra -/

theorem bufRead_length (buf : Buf) (pos n : Nat) : (bufRead buf pos n).length = n := by
  simp [bufRead]

theorem bufRead_getElem (buf : Buf) (pos n i : Nat) (h : i < (bufRead buf pos n).length) :
    (bufRead buf pos n)[i] = buf (pos + i) := by
  simp [bufRead]

theorem bufRead_zero (buf : Buf) (pos : Nat) : bufRead buf pos 0 = [] := by
  simp [bufRead]

theorem bufWrite_inside (buf : Buf) (pos : Nat) (bs : List Byte) (i : Nat)
    (h1 : pos ≤ i) (h2 : i < pos + bs.length) :
    bufWrite buf pos bs i = bs.getD (i - pos) 0 := by
  simp [bufWrite, h1, h2]

theorem bufWrite_outside (buf : Buf) (pos : Nat) (bs : List Byte) (i : Nat)
    (h : i < pos ∨ pos + bs.length ≤ i) :
    bufWrite buf pos bs i = buf i := by
  rcases h with h | h <;> simp [bufWrite] <;> omega

theorem bufRead_bufWrite (buf : Buf) (pos : Nat) (bs : List Byte) :
    bufRead (bufWrite buf pos bs) pos bs.length = bs := by
  apply List.ext_getElem
  · simp [bufRead_length]
  · intro i h1 h2
    rw [bufRead_getElem]
    rw [bufWrite_inside buf pos bs (pos + i) (by omega) (by omega)]
    simp [List.getD_eq_getElem?_getD, List.getElem?_eq_getElem h2]

theorem bufRead_bufWrite_left (buf : Buf) (pos : Nat) (bs : List Byte) (q m : Nat)
    (h : q + m ≤ pos) :
    bufRead (bufWrite buf pos bs) q m = bufRead buf q m := by
  apply List.ext_getElem
  · simp [bufRead_length]
  · intro i h1 h2
    rw [bufRead_getElem, bufRead_getElem]
    rw [bufWrite_outside buf pos bs (q + i) (by left; simp [bufRead_length] at h1; omega)]

theorem bufRead_congr (buf buf' : Buf) (pos n : Nat)
    (h : ∀ i, i < n → buf (pos + i) = buf' (pos + i)) :
    bufRead buf pos n = bufRead buf' pos n := by
  apply List.ext_getElem
  · simp [bufRead_length]
  · intro i h1 h2
    rw [bufRead_getElem, bufRead_getElem]
    exact h i (by simpa [bufRead_length] using h1)

theorem bufRead_split (buf : Buf) (pos a b : Nat) :
    bufRead buf pos (a + b) = bufRead buf pos a ++ bufRead buf (pos + a) b := by
  apply List.ext_getElem
  · simp [bufRead_length]
  · intro i h1 h2
    rw [bufRead_getElem]
    rcases Nat.lt_or_ge i a with h | h
    · rw [List.getElem_append_left (by simpa [bufRead_length] using h)]
      rw [bufRead_getElem]
    · rw [List.getElem_append_right (by simpa [bufRead_length] using h)]
      rw [bufRead_getElem]
      congr 1
      simp [bufRead_length]
      omega

theorem xorRegionIdx_inside (buf : Buf) (base lo hi : Nat) (mask : List Byte) (j : Nat)
    (h1 : base + lo ≤ j) (h2 : j < base + hi) :
    xorRegionIdx buf base lo hi mask j = buf j ^^^ maskAt mask (j - base) := by
  simp [xorRegionIdx, h1, h2]

theorem xorRegionIdx_outside (buf : Buf) (base lo hi : Nat) (mask : List Byte) (j : Nat)
    (h : j < base + lo ∨ base + hi ≤ j) :
    xorRegionIdx buf base lo hi mask j = buf j := by
  rcases h with h | h <;> simp [xorRegionIdx] <;> omega

theorem maskPayload_length (mask p : List Byte) : (maskPayload mask p).length = p.length := by
  simp [maskPayload]

theorem maskPayload_getElem (mask p : List Byte) (j : Nat) (h : j < (maskPayload mask p).length) :
    (maskPayload mask p)[j] = p.getD j 0 ^^^ maskAt mask j := by
  simp [maskPayload]

theorem xor_maskAt_cancel (mask : List Byte) (b j : Nat) :
    (b ^^^ maskAt mask j) ^^^ maskAt mask j = b := by
  rw [Nat.xor_assoc, Nat.xor_self, Nat.xor_zero]

theorem maskAt_mod_four (mask : List Byte) (d j : Nat) (hd : d % 4 = 0) :
    maskAt mask (d + j) = maskAt mask j := by
  unfold maskAt
  congr 1
  omega

/-! ### Shape lemmas for the translated functions -/

theorem returnData_effect (len : Nat) (c : DecCtx) :
    ((returnData len c).ret ≤ 0 → (returnData len c).out = []) ∧
    (0 < (returnData len c).ret →
      ((returnData len c).out.length : Int) = (returnData len c).ret ∧
      (returnData len c).out.length ≤ len) := by
  unfold returnData
  split
  · rename_i hpos
    split
    · rename_i hlt
      constructor
      · intro h
        simp only at h ⊢
        have : len = 0 := by omega
        simp [this, bufRead_zero]
      · intro h
        simp only at h ⊢
        constructor
        · simp [bufRead_length]
        · simp [bufRead_length]
    · rename_i hge
      constructor
      · intro h
        simp only at h ⊢
        omega
      · intro h
        simp only at h ⊢
        constructor
        · simp [bufRead_length]
          omega
        · simp [bufRead_length]
          omega
  · constructor
    · intro _; rfl
    · intro h
      simp only at h
      omega

theorem radSwitch_effect (c4 : DecCtx) (s' : Sock) (len bufsize dataPos toReturn : Nat) :
    ((radSwitch c4 s' len bufsize dataPos toReturn).ret ≤ 0 →
      (radSwitch c4 s' len bufsize dataPos toReturn).out = []) ∧
    (0 < (radSwitch c4 s' len bufsize dataPos toReturn).ret →
      (((radSwitch c4 s' len bufsize dataPos toReturn).out.length : Int)
          = (radSwitch c4 s' len bufsize dataPos toReturn).ret ∧
        (radSwitch c4 s' len bufsize dataPos toReturn).out.length ≤ len)) := by
  unfold radSwitch
  split
  · split
    · exact ⟨fun _ => rfl, fun h => by simp at h⟩
    · exact ⟨fun _ => rfl, fun h => by simp at h⟩
  · exact returnData_effect len _

set_option maxHeartbeats 2000000 in
theorem radDecode_effect (c1 : DecCtx) (s' : Sock) (len bufsize nInBuf : Nat) (bs : List Byte) :
    ((radDecode c1 s' len bufsize nInBuf bs).ret ≤ 0 →
      (radDecode c1 s' len bufsize nInBuf bs).out = []) ∧
    (0 < (radDecode c1 s' len bufsize nInBuf bs).ret →
      (((radDecode c1 s' len bufsize nInBuf bs).out.length : Int)
          = (radDecode c1 s' len bufsize nInBuf bs).ret ∧
        (radDecode c1 s' len bufsize nInBuf bs).out.length ≤ len)) := by
  unfold radDecode
  dsimp only
  repeat' split
  all_goals first
    | exact radSwitch_effect _ _ _ _ _ _
    | exact ⟨fun _ => rfl, fun h => by simp at h⟩

set_option maxHeartbeats 2000000 in
theorem readAndDecode_effect (c0 : DecCtx) (s : Sock) (len nInBuf : Nat) :
    ((readAndDecode c0 s len nInBuf).ret ≤ 0 → (readAndDecode c0 s len nInBuf).out = []) ∧
    (0 < (readAndDecode c0 s len nInBuf).ret →
      (((readAndDecode c0 s len nInBuf).out.length : Int) = (readAndDecode c0 s len nInBuf).ret ∧
        (readAndDecode c0 s len nInBuf).out.length ≤ len)) := by
  unfold readAndDecode
  dsimp only
  repeat' split
  all_goals first
    | exact radDecode_effect _ _ _ _ _ _
    | exact ⟨fun _ => rfl, fun h => by simp at h⟩

theorem parseHeaderFinish_fail_ret (c : DecCtx) (s' : Sock) (r : Int) (e : Errno)
    (c' : DecCtx) (s'' : Sock)
    (h : parseHeaderLen.parseHeaderFinish c s' = .fail r e c' s'') : r = -1 := by
  unfold parseHeaderLen.parseHeaderFinish at h
  split at h
  · cases h; rfl
  · cases h

theorem parseHeaderLen_fail_ret (c : DecCtx) (s' : Sock) (r : Int) (e : Errno)
    (c' : DecCtx) (s'' : Sock)
    (h : parseHeaderLen c s' = .fail r e c' s'') : r = -1 := by
  unfold parseHeaderLen at h
  dsimp only at h
  split at h
  · cases h; rfl
  · split at h
    · exact parseHeaderFinish_fail_ret _ _ _ _ _ _ h
    · split at h
      · exact parseHeaderFinish_fail_ret _ _ _ _ _ _ h
      · split at h
        · exact parseHeaderFinish_fail_ret _ _ _ _ _ _ h
        · cases h

theorem parseHeader_fail_ret (c : DecCtx) (s' : Sock) (r : Int) (e : Errno)
    (c' : DecCtx) (s'' : Sock)
    (h : parseHeader c s' = .fail r e c' s'') : r = -1 := by
  unfold parseHeader at h
  dsimp only at h
  split at h
  · split at h
    · cases h; rfl
    · exact parseHeaderLen_fail_ret _ _ _ _ _ _ h
  · split at h
    · split at h
      · cases h; rfl
      · exact parseHeaderLen_fail_ret _ _ _ _ _ _ h
    · exact parseHeaderLen_fail_ret _ _ _ _ _ _ h

theorem readHeader_fail_ret (c0 : DecCtx) (s : Sock) (r : Int) (e : Errno)
    (c' : DecCtx) (s'' : Sock)
    (h : readHeader c0 s = .fail r e c' s'') : r ≤ 0 := by
  unfold readHeader at h
  split at h
  · cases h; decide
  · rename_i bs s' heq
    dsimp only at h
    split at h
    · cases h; decide
    · split at h
      · cases h
      · have := parseHeader_fail_ret _ _ _ _ _ _ h
        omega

theorem sporCleanup_state (c : DecCtx) :
    (sporCleanup c).state = .headerPending ∨ (sporCleanup c).state = c.state := by
  unfold sporCleanup
  split
  · split
    · left; rfl
    · left; rfl
  · split
    · left; rfl
    · right; rfl

theorem sporCleanup_state_ne_err (c : DecCtx) : (sporCleanup c).state ≠ .err := by
  unfold sporCleanup
  split
  · split
    · simp [wsDecodeCleanupComplete, wsDecodeCleanupBasics]
    · simp [wsDecodeCleanupForContinuation, wsDecodeCleanupBasics]
  · split
    · simp [wsDecodeCleanupComplete, wsDecodeCleanupBasics]
    · rename_i h1 h2
      exact h2

theorem sporCleanup_state_ne_frameComplete (c : DecCtx) :
    (sporCleanup c).state ≠ .frameComplete := by
  unfold sporCleanup
  split
  · split
    · simp [wsDecodeCleanupComplete, wsDecodeCleanupBasics]
    · simp [wsDecodeCleanupForContinuation, wsDecodeCleanupBasics]
  · split
    · simp [wsDecodeCleanupComplete, wsDecodeCleanupBasics]
    · rename_i h1 h2
      exact h1

theorem finishRad_out (w : WsCtx) (r : RadOut) : (finishRad w r).out = r.out := rfl

theorem finishRad_ret (w : WsCtx) (r : RadOut) : (finishRad w r).ret = r.ret := rfl

theorem recvStep_state_ne_err (w : WsCtx) (s : Sock) (len : Nat) :
    (recvStep w s len).wsctx.dec.state ≠ .err := by
  unfold recvStep
  dsimp only
  split
  · split
    · exact sporCleanup_state_ne_err _
    · exact sporCleanup_state_ne_err _
    · exact sporCleanup_state_ne_err _
  · exact sporCleanup_state_ne_err _
  · exact sporCleanup_state_ne_err _
  · exact sporCleanup_state_ne_err _
  · exact sporCleanup_state_ne_err _
  · exact sporCleanup_state_ne_err _

theorem recvStep_effect (w : WsCtx) (s : Sock) (len : Nat) :
    ((recvStep w s len).ret ≤ 0 → (recvStep w s len).out = []) ∧
    (0 < (recvStep w s len).ret →
      (((recvStep w s len).out.length : Int) = (recvStep w s len).ret ∧
        (recvStep w s len).out.length ≤ len)) := by
  unfold recvStep
  dsimp only
  split
  · split
    · rename_i heq
      refine ⟨fun _ => rfl, fun hpos => ?_⟩
      have := readHeader_fail_ret _ _ _ _ _ _ heq
      dsimp only at hpos
      omega
    · exact ⟨fun _ => rfl, fun h => by simp at h⟩
    · rw [finishRad_out, finishRad_ret]
      exact readAndDecode_effect _ _ _ _
  · exact returnData_effect len w.dec
  · rw [finishRad_out, finishRad_ret]
    exact readAndDecode_effect _ _ _ _
  · rw [finishRad_out, finishRad_ret]
    exact readAndDecode_effect _ _ _ _
  · exact ⟨fun _ => rfl, fun h => by simp at h⟩
  · exact ⟨fun _ => rfl, fun h => by simp at h⟩

/-! ### Claim C10: frame effect of `recv` on the caller's buffer -/

/-- C10: whenever `recv(dst, len)` returns `-1` (any errno) or `0`, the
destination buffer is left unmodified (`out`, the list of bytes the call
memcpys into `dst`, is empty, so the buffer `out ++ dst.drop |out|` after
the call equals `dst`); whenever it returns `n > 0`, exactly the first
`n` bytes of `dst` are written (`n = |out| ≤ len`, the first `|out|`
bytes afterwards are `out` and the rest of `dst` is unchanged). -/
theorem c10_recv_writes_exactly_ret (w : WsCtx) (s : Sock) (len : Nat) (dst : List Byte) :
    (((recvStep w s len).ret = -1 ∨ (recvStep w s len).ret = 0) →
      (recvStep w s len).out = [] ∧
      (recvStep w s len).out ++ dst.drop (recvStep w s len).out.length = dst) ∧
    (0 < (recvStep w s len).ret →
      ((recvStep w s len).out.length : Int) = (recvStep w s len).ret ∧
      (recvStep w s len).out.length ≤ len ∧
      ((recvStep w s len).out ++ dst.drop (recvStep w s len).out.length).take
          (recvStep w s len).out.length = (recvStep w s len).out ∧
      ((recvStep w s len).out ++ dst.drop (recvStep w s len).out.length).drop
          (recvStep w s len).out.length = dst.drop (recvStep w s len).out.length) := by
  have E := recvStep_effect w s len
  constructor
  · intro h
    have hout : (recvStep w s len).out = [] := E.1 (by rcases h with h | h <;> omega)
    simp [hout]
  · intro h
    obtain ⟨h1, h2⟩ := E.2 h
    refine ⟨h1, h2, ?_, ?_⟩
    · exact List.take_left _ _
    · exact List.drop_left _ _

/-- C10 witness: a concrete `-1` call leaves the buffer untouched, and the
concrete single-binary-frame call (spec scenario 2) writes exactly its
return value of 5 bytes. -/
theorem c10_recv_writes_exactly_ret_witness :
    ((recvStep (initWs false) [] 5).out = [] ∧
      (recvStep (initWs false) [] 5).out
        ++ ([9, 9, 9, 9, 9] : List Byte).drop (recvStep (initWs false) [] 5).out.length
        = [9, 9, 9, 9, 9]) ∧
    (((recvStep (initWs false)
          [[0x82, 0x85, 0x37, 0xFA, 0x21, 0x3D, 0x7F, 0x9F, 0x4D, 0x51, 0x58]] 5).out.length : Int)
        = (recvStep (initWs false)
          [[0x82, 0x85, 0x37, 0xFA, 0x21, 0x3D, 0x7F, 0x9F, 0x4D, 0x51, 0x58]] 5).ret ∧
      (recvStep (initWs false)
          [[0x82, 0x85, 0x37, 0xFA, 0x21, 0x3D, 0x7F, 0x9F, 0x4D, 0x51, 0x58]] 5).out.length ≤ 5) :=
  ⟨(c10_recv_writes_exactly_ret (initWs false) [] 5 [9, 9, 9, 9, 9]).1 (by decide),
   ⟨((c10_recv_writes_exactly_ret (initWs false)
        [[0x82, 0x85, 0x37, 0xFA, 0x21, 0x3D, 0x7F, 0x9F, 0x4D, 0x51, 0x58]] 5 []).2
      (by decide)).1,
    ((c10_recv_writes_exactly_ret (initWs false)
        [[0x82, 0x85, 0x37, 0xFA, 0x21, 0x3D, 0x7F, 0x9F, 0x4D, 0x51, 0x58]] 5 []).2
      (by decide)).2.1⟩⟩

/-! ### Claim C3: the ERR state is not terminal (corrected) -/

/-- C3 counterexample: after a call that hits a protocol violation (a
frame without the MASK bit, giving `-1`/`EPROTO` and internally entering
`WS_STATE_ERR`), the *next* call does not return `-1`/`EIO` as the claim
demands: the single point of return already cleaned the context up, so
the next call parses the next masked frame and returns its 1-byte
payload. -/
theorem c3_counterexample :
    (recvStep (initWs false) [[0x82, 0x01], [0x82, 0x81, 0, 0, 0, 0, 0x41]] codeBufSize).ret = -1 ∧
    (recvStep (initWs false) [[0x82, 0x01], [0x82, 0x81, 0, 0, 0, 0, 0x41]] codeBufSize).err
      = .eproto ∧
    ¬((recvStep
        (recvStep (initWs false) [[0x82, 0x01], [0x82, 0x81, 0, 0, 0, 0, 0x41]] codeBufSize).wsctx
        (recvStep (initWs false) [[0x82, 0x01], [0x82, 0x81, 0, 0, 0, 0, 0x41]] codeBufSize).sock
        codeBufSize).ret = -1 ∧
      (recvStep
        (recvStep (initWs false) [[0x82, 0x01], [0x82, 0x81, 0, 0, 0, 0, 0x41]] codeBufSize).wsctx
        (recvStep (initWs false) [[0x82, 0x01], [0x82, 0x81, 0, 0, 0, 0, 0x41]] codeBufSize).sock
        codeBufSize).err = .eio) ∧
    (recvStep
        (recvStep (initWs false) [[0x82, 0x01], [0x82, 0x81, 0, 0, 0, 0, 0x41]] codeBufSize).wsctx
        (recvStep (initWs false) [[0x82, 0x01], [0x82, 0x81, 0, 0, 0, 0, 0x41]] codeBufSize).sock
        codeBufSize).ret = 1 := by
  decide

/-- C3 amended: errors do put the decoder into `WS_STATE_ERR` inside the
call, but the single point of return immediately performs a complete
cleanup, so the stored state after any call is never `ERR`; the error
state is not terminal and the next call parses a fresh header.  A call
entered with `state = ERR` (unreachable across call boundaries) would
return `-1`/`EIO` once and reset to `HEADER_PENDING`. -/
theorem c3_err_not_terminal (w : WsCtx) (s : Sock) (len : Nat) :
    (recvStep w s len).wsctx.dec.state ≠ .err ∧
    (w.dec.state = .err →
      (recvStep w s len).ret = -1 ∧ (recvStep w s len).err = .eio ∧
      (recvStep w s len).wsctx.dec.state = .headerPending) := by
  refine ⟨recvStep_state_ne_err w s len, fun h => ?_⟩
  unfold recvStep
  rw [h]
  dsimp only
  refine ⟨rfl, rfl, ?_⟩
  simp [sporCleanup, wsDecodeCleanupComplete, wsDecodeCleanupBasics]

/-- C3 witness: the amended theorem applied to a concrete session whose
stored state is `ERR`. -/
theorem c3_err_not_terminal_witness :
    ({ dec := { initDec with state := .err }, base64 := false } : WsCtx).dec.state = .err ∧
    ((recvStep { dec := { initDec with state := .err }, base64 := false } [] 5).ret = -1 ∧
      (recvStep { dec := { initDec with state := .err }, base64 := false } [] 5).err = .eio ∧
      (recvStep { dec := { initDec with state := .err }, base64 := false } [] 5).wsctx.dec.state
        = .headerPending) :=
  ⟨rfl, (c3_err_not_terminal { dec := { initDec with state := .err }, base64 := false } [] 5).2 rfl⟩

/-! ### Carry-length lemmas (claim C9) -/

theorem returnData_ctx_carrylen (len : Nat) (c : DecCtx) :
    (returnData len c).ctx.carrylen = c.carrylen := by
  unfold returnData
  split
  · split
    · rfl
    · rfl
  · rfl

theorem returnData_ctx_state (len : Nat) (c : DecCtx) :
    (returnData len c).ctx.state = c.state := by
  unfold returnData
  split
  · split
    · rfl
    · rfl
  · rfl

theorem radSwitch_ctx_carrylen (c4 : DecCtx) (s' : Sock) (len bufsize dataPos toReturn : Nat) :
    (radSwitch c4 s' len bufsize dataPos toReturn).ctx.carrylen = c4.carrylen := by
  unfold radSwitch
  dsimp only
  split
  · split
    · rfl
    · rfl
  · split
    · split
      · rw [returnData_ctx_carrylen]
      · rw [returnData_ctx_carrylen]
    · split
      · rw [returnData_ctx_carrylen]
      · rw [returnData_ctx_carrylen]

theorem radSwitch_ctx_state (c4 : DecCtx) (s' : Sock) (len bufsize dataPos toReturn : Nat) :
    (radSwitch c4 s' len bufsize dataPos toReturn).ctx.state = c4.state := by
  unfold radSwitch
  dsimp only
  split
  · split
    · rfl
    · rfl
  · split
    · split
      · rw [returnData_ctx_state]
      · rw [returnData_ctx_state]
    · split
      · rw [returnData_ctx_state]
      · rw [returnData_ctx_state]

theorem shiftRight_two_eq (n : Nat) : n >>> 2 = n / 4 := by
  rw [Nat.shiftRight_eq_div_pow]

@[simp] theorem radAccount_header (c : DecCtx) (bs : List Byte) :
    (radAccount c bs).header = c.header := rfl

@[simp] theorem radAccount_state (c : DecCtx) (bs : List Byte) :
    (radAccount c bs).state = c.state := rfl

@[simp] theorem radAccount_carrylen (c : DecCtx) (bs : List Byte) :
    (radAccount c bs).carrylen = c.carrylen := rfl

@[simp] theorem radAccount_carryBuf (c : DecCtx) (bs : List Byte) :
    (radAccount c bs).carryBuf = c.carryBuf := rfl

@[simp] theorem radAccount_readlen (c : DecCtx) (bs : List Byte) :
    (radAccount c bs).readlen = c.readlen := rfl

@[simp] theorem radAccount_readPos (c : DecCtx) (bs : List Byte) :
    (radAccount c bs).readPos = c.readPos := rfl

@[simp] theorem radAccount_continuation_opcode (c : DecCtx) (bs : List Byte) :
    (radAccount c bs).continuation_opcode = c.continuation_opcode := rfl

@[simp] theorem radAccount_nReadPayload (c : DecCtx) (bs : List Byte) :
    (radAccount c bs).nReadPayload = c.nReadPayload + bs.length := rfl

@[simp] theorem radAccount_writePos (c : DecCtx) (bs : List Byte) :
    (radAccount c bs).writePos = c.writePos + bs.length := rfl

@[simp] theorem radAccount_codeBuf (c : DecCtx) (bs : List Byte) :
    (radAccount c bs).codeBuf = bufWrite c.codeBuf c.writePos bs := rfl

set_option maxHeartbeats 2000000 in
theorem radDecode_ctx_carrylen (c1 : DecCtx) (s' : Sock) (len bufsize nInBuf : Nat)
    (bs : List Byte) (hstate : c1.state ≠ .frameComplete) :
    ((radDecode c1 s' len bufsize nInBuf bs).ctx.state = .frameComplete →
      (radDecode c1 s' len bufsize nInBuf bs).ctx.carrylen = 0) ∧
    ((radDecode c1 s' len bufsize nInBuf bs).ctx.state ≠ .frameComplete →
      (radDecode c1 s' len bufsize nInBuf bs).ctx.carrylen
        = (bs.length + c1.carrylen + nInBuf)
            - 4 * ((bs.length + c1.carrylen + nInBuf) >>> 2)) := by
  unfold radDecode
  dsimp only
  split
  · rename_i hrem
    rw [if_pos rfl]
    constructor
    · intro _
      rw [radSwitch_ctx_carrylen]
    · intro hne
      exfalso
      apply hne
      rw [radSwitch_ctx_state]
  · rename_i hrem
    rw [if_neg (show ¬(radAccount c1 bs).state = .frameComplete by
      simp only [radAccount_state]; exact hstate)]
    split
    · constructor
      · intro hfc
        exact absurd hfc (by simp only [radAccount_state]; exact hstate)
      · intro _
        rfl
    · constructor
      · intro hfc
        rw [radSwitch_ctx_state] at hfc
        exact absurd hfc (by simp only [radAccount_state]; exact hstate)
      · intro _
        rw [radSwitch_ctx_carrylen]

theorem parseHeaderFinish_carry (c : DecCtx) (s' : Sock) (base : Nat)
    (hbase : c.carrylen = base) :
    HdrCarryInv base (parseHeaderLen.parseHeaderFinish c s') := by
  subst hbase
  unfold parseHeaderLen.parseHeaderFinish
  split
  · simp [HdrCarryInv, wsDecodeCleanupComplete, wsDecodeCleanupBasics]
  · simp [HdrCarryInv]

theorem parseHeaderLen_carry (c : DecCtx) (s' : Sock) (base : Nat) (hbase : c.carrylen = base) :
    HdrCarryInv base (parseHeaderLen c s') := by
  unfold parseHeaderLen
  dsimp only
  split
  · simp only [HdrCarryInv, wsDecodeCleanupComplete, wsDecodeCleanupBasics]
  · split
    · exact parseHeaderFinish_carry _ _ _ hbase
    · split
      · exact parseHeaderFinish_carry _ _ _ hbase
      · split
        · exact parseHeaderFinish_carry _ _ _ hbase
        · simp only [HdrCarryInv]
          omega

theorem parseHeader_carry (c : DecCtx) (s' : Sock) (base : Nat) (hbase : c.carrylen = base) :
    HdrCarryInv base (parseHeader c s') := by
  unfold parseHeader
  dsimp only
  split
  · split
    · simp only [HdrCarryInv, wsDecodeCleanupComplete, wsDecodeCleanupBasics]
    · exact parseHeaderLen_carry _ _ _ hbase
  · split
    · split
      · simp only [HdrCarryInv, wsDecodeCleanupComplete, wsDecodeCleanupBasics]
      · exact parseHeaderLen_carry _ _ _ hbase
    · exact parseHeaderLen_carry _ _ _ hbase

theorem readHeader_carry (c0 : DecCtx) (s : Sock) :
    HdrCarryInv c0.carrylen (readHeader c0 s) := by
  unfold readHeader
  split
  · simp [HdrCarryInv, wsDecodeCleanupComplete, wsDecodeCleanupBasics]
  · dsimp only
    split
    · simp [HdrCarryInv, wsDecodeCleanupComplete, wsDecodeCleanupBasics]
    · split
      · simp [HdrCarryInv]
      · exact parseHeader_carry _ _ _ rfl

set_option maxHeartbeats 2000000 in
theorem radDecode_ctx_carrylen_le (c1 : DecCtx) (s' : Sock) (len bufsize nInBuf : Nat)
    (bs : List Byte) :
    (radDecode c1 s' len bufsize nInBuf bs).ctx.carrylen ≤ 3 := by
  have hsr := shiftRight_two_eq (bs.length + c1.carrylen + nInBuf)
  unfold radDecode
  dsimp only
  split
  · rw [if_pos rfl, radSwitch_ctx_carrylen]
    exact Nat.zero_le 3
  · split
    · rw [radSwitch_ctx_carrylen]
      dsimp only
      omega
    · split
      · dsimp only
        omega
      · rw [radSwitch_ctx_carrylen]
        dsimp only
        omega

set_option maxHeartbeats 2000000 in
theorem readAndDecode_ctx_carrylen_le (c0 : DecCtx) (s : Sock) (len nInBuf : Nat)
    (hc : c0.carrylen ≤ 3) :
    (readAndDecode c0 s len nInBuf).ctx.carrylen ≤ 3 := by
  unfold readAndDecode
  dsimp only
  repeat' split
  all_goals first
    | exact radDecode_ctx_carrylen_le _ _ _ _ _ _
    | exact hc

theorem sporCleanup_carrylen_le (c : DecCtx) (hc : c.carrylen ≤ 3) :
    (sporCleanup c).carrylen ≤ 3 := by
  unfold sporCleanup
  split
  · split
    · simp [wsDecodeCleanupComplete, wsDecodeCleanupBasics]
    · simp [wsDecodeCleanupForContinuation, wsDecodeCleanupBasics]
  · split
    · simp [wsDecodeCleanupComplete, wsDecodeCleanupBasics]
    · exact hc

theorem recvStep_carrylen_le (w : WsCtx) (s : Sock) (len : Nat) (hc : w.dec.carrylen ≤ 3) :
    (recvStep w s len).wsctx.dec.carrylen ≤ 3 := by
  have hcarry := readHeader_carry w.dec s
  unfold recvStep
  dsimp only
  split
  · split
    · rename_i r e c' s' heq
      rw [heq] at hcarry
      simp only [HdrCarryInv] at hcarry
      apply sporCleanup_carrylen_le
      show c'.carrylen ≤ 3
      omega
    · rename_i c' s' heq
      rw [heq] at hcarry
      simp only [HdrCarryInv] at hcarry
      apply sporCleanup_carrylen_le
      show c'.carrylen ≤ 3
      omega
    · rename_i nInBuf c' s' heq
      rw [heq] at hcarry
      simp only [HdrCarryInv] at hcarry
      apply sporCleanup_carrylen_le
      show (readAndDecode { c' with state := .dataNeeded } s' len nInBuf).ctx.carrylen ≤ 3
      apply readAndDecode_ctx_carrylen_le
      show c'.carrylen ≤ 3
      omega
  · apply sporCleanup_carrylen_le
    show (returnData len w.dec).ctx.carrylen ≤ 3
    rw [returnData_ctx_carrylen]
    exact hc
  · exact sporCleanup_carrylen_le _ (readAndDecode_ctx_carrylen_le _ _ _ _ hc)
  · exact sporCleanup_carrylen_le _ (readAndDecode_ctx_carrylen_le _ _ _ _ hc)
  · apply sporCleanup_carrylen_le
    exact hc
  · apply sporCleanup_carrylen_le
    exact hc

/-! ### Claim C9: carry-buffer length invariant -/

/-- C9: `carrylen` (a `Nat` in the model, so `0 ≤ carrylen` holds by
type) stays `≤ 3` across every `recv` call; and inside `readAndDecode`
(the `radDecode` part, where `toDecode = |bs| + carrylen + nInBuf`) the
carry length is set to `0` when the frame completes and to
`toDecode - 4*(toDecode >> 2)` when the frame is incomplete, a value that
is itself always `≤ 3` (so the internal `EIO` guard can never fire). -/
theorem c9_carrylen_invariant :
    (∀ (w : WsCtx) (s : Sock) (len : Nat), w.dec.carrylen ≤ 3 →
      (recvStep w s len).wsctx.dec.carrylen ≤ 3) ∧
    (∀ (c1 : DecCtx) (s' : Sock) (len bufsize nInBuf : Nat) (bs : List Byte),
      c1.state ≠ .frameComplete →
      (((radDecode c1 s' len bufsize nInBuf bs).ctx.state = .frameComplete →
          (radDecode c1 s' len bufsize nInBuf bs).ctx.carrylen = 0) ∧
        ((radDecode c1 s' len bufsize nInBuf bs).ctx.state ≠ .frameComplete →
          (radDecode c1 s' len bufsize nInBuf bs).ctx.carrylen
            = (bs.length + c1.carrylen + nInBuf)
                - 4 * ((bs.length + c1.carrylen + nInBuf) >>> 2)) ∧
        (bs.length + c1.carrylen + nInBuf)
            - 4 * ((bs.length + c1.carrylen + nInBuf) >>> 2) ≤ 3)) := by
  constructor
  · exact recvStep_carrylen_le
  · intro c1 s' len bufsize nInBuf bs hstate
    obtain ⟨h1, h2⟩ := radDecode_ctx_carrylen c1 s' len bufsize nInBuf bs hstate
    refine ⟨h1, h2, ?_⟩
    have := shiftRight_two_eq (bs.length + c1.carrylen + nInBuf)
    omega

/-- C9 witness: the invariant applied to the concrete single-frame call of
spec scenario 2, and the setting rule applied to a concrete partial frame
(3 masked payload bytes of an incomplete frame all end up in the carry
buffer: `3 - 4*(3 >> 2) = 3`). -/
theorem c9_carrylen_invariant_witness :
    (recvStep (initWs false)
      [[0x82, 0x85, 0x37, 0xFA, 0x21, 0x3D, 0x7F, 0x9F, 0x4D, 0x51, 0x58]] 5).wsctx.dec.carrylen
      ≤ 3 ∧
    ((radDecode initDec [] 5 100 0 [1, 2, 3]).ctx.state ≠ .frameComplete →
      (radDecode initDec [] 5 100 0 [1, 2, 3]).ctx.carrylen = 3 - 4 * (3 >>> 2)) :=
  ⟨c9_carrylen_invariant.1 (initWs false)
      [[0x82, 0x85, 0x37, 0xFA, 0x21, 0x3D, 0x7F, 0x9F, 0x4D, 0x51, 0x58]] 5 (by decide),
   fun h => by
    have := (c9_carrylen_invariant.2 initDec [] 5 100 0 [1, 2, 3] (by decide)).2.1 h
    simpa using this⟩

/-! ### Claim C6: Flash policy probe (code bug) -/

/-- C6 (code bug): on a first peeked byte `'<'` the handshake check does
reject the connection after writing `SZ_FLASH_POLICY_RESPONSE = 93`
bytes, but those 93 bytes are *not* a 93-byte policy XML: the
`FLASH_POLICY_RESPONSE` string literal (including its trailing newline)
is only 89 bytes long, so the write sends the 89 XML bytes, then the NUL
terminator, then 3 bytes read from beyond the end of the string constant
(the `SZ_FLASH_POLICY_RESPONSE` constant of `websockets.c` contradicts
the literal it is supposed to measure). -/
theorem c6_flash_policy_write (tail : Nat → Byte) :
    webSocketsCheckFlash [60, 112, 111, 108] tail = (some (flashWrittenBytes tail), false) ∧
    (flashWrittenBytes tail).length = SZ_FLASH_POLICY_RESPONSE ∧
    FLASH_POLICY_RESPONSE.length = 89 ∧
    (flashWrittenBytes tail).take 89 = FLASH_POLICY_RESPONSE ∧
    (flashWrittenBytes tail).drop 89 = [0, tail 0, tail 1, tail 2] ∧
    flashWrittenBytes tail ≠ FLASH_POLICY_RESPONSE := by
  have h89 : FLASH_POLICY_RESPONSE.length = 89 := rfl
  refine ⟨?_, ?_, h89, ?_, ?_, ?_⟩
  · simp [webSocketsCheckFlash]
  · simp [flashWrittenBytes, h89, SZ_FLASH_POLICY_RESPONSE]
  · rw [show (89 : Nat) = FLASH_POLICY_RESPONSE.length from h89.symm]
    exact List.take_left _ _
  · rw [show (89 : Nat) = FLASH_POLICY_RESPONSE.length from h89.symm]
    exact List.drop_left _ _
  · intro h
    have := congrArg List.length h
    simp [flashWrittenBytes, h89] at this

/-! ### Header-parsing equation lemmas -/

theorem readHeader_eq (c0 : DecCtx) (s : Sock) (bs : List Byte) (s' : Sock)
    (hread : sockRead s (WSHLENMAX - c0.header.nDone) = (some bs, s'))
    (hne : bs ≠ [])
    (h2 : 2 ≤ c0.header.nDone + bs.length) :
    readHeader c0 s = parseHeader
      { c0 with
        codeBuf := bufWrite c0.codeBuf c0.header.nDone bs,
        header := { c0.header with nDone := c0.header.nDone + bs.length } } s' := by
  unfold readHeader
  rw [hread]
  dsimp only
  rw [if_neg (by simpa [List.isEmpty_iff] using hne)]
  rw [if_neg (by omega)]

theorem parseHeader_eq_data (c : DecCtx) (s' : Sock)
    (hop : Nat.land (Nat.land (c.codeBuf 0) 15) 8 = 0)
    (hne0 : Nat.land (c.codeBuf 0) 15 ≠ WS_OPCODE_CONTINUATION) :
    parseHeader c s' = parseHeaderLen
      { c with
        header := { c.header with
          opcode := Nat.land (c.codeBuf 0) 15,
          fin := Nat.shiftRight (Nat.land (c.codeBuf 0) 128) 7 },
        continuation_opcode :=
          if Nat.shiftRight (Nat.land (c.codeBuf 0) 128) 7 = 0
            then Nat.land (c.codeBuf 0) 15 else WS_OPCODE_INVALID } s' := by
  unfold parseHeader
  dsimp only
  rw [if_neg (by simpa using hop)]
  rw [if_neg hne0]

theorem parseHeader_eq_control (c : DecCtx) (s' : Sock)
    (hop : Nat.land (Nat.land (c.codeBuf 0) 15) 8 ≠ 0)
    (hfin : Nat.shiftRight (Nat.land (c.codeBuf 0) 128) 7 ≠ 0) :
    parseHeader c s' = parseHeaderLen
      { c with
        header := { c.header with
          opcode := Nat.land (c.codeBuf 0) 15,
          fin := Nat.shiftRight (Nat.land (c.codeBuf 0) 128) 7 } } s' := by
  unfold parseHeader
  dsimp only
  rw [if_pos hop]
  rw [if_neg hfin]

theorem parseHeader_eq_control_fin0 (c : DecCtx) (s' : Sock)
    (hop : Nat.land (Nat.land (c.codeBuf 0) 15) 8 ≠ 0)
    (hfin : Nat.shiftRight (Nat.land (c.codeBuf 0) 128) 7 = 0) :
    parseHeader c s' = .fail (-1) .eproto
      (wsDecodeCleanupComplete
        { c with
          header := { c.header with
            opcode := Nat.land (c.codeBuf 0) 15,
            fin := Nat.shiftRight (Nat.land (c.codeBuf 0) 128) 7 } }) s' := by
  unfold parseHeader
  dsimp only
  rw [if_pos hop]
  rw [if_pos hfin]

theorem parseHeader_eq_cont_fresh (c : DecCtx) (s' : Sock)
    (hop : Nat.land (c.codeBuf 0) 15 = WS_OPCODE_CONTINUATION)
    (hcont : c.continuation_opcode = WS_OPCODE_INVALID) :
    parseHeader c s' = .fail (-1) .eproto
      (wsDecodeCleanupComplete
        { c with
          header := { c.header with
            opcode := Nat.land (c.codeBuf 0) 15,
            fin := Nat.shiftRight (Nat.land (c.codeBuf 0) 128) 7 } }) s' := by
  unfold parseHeader
  dsimp only
  rw [if_neg (by rw [hop]; decide)]
  rw [if_pos hop]
  rw [if_pos hcont]

theorem parseHeaderLen_eq_unmasked (c : DecCtx) (s' : Sock)
    (hmaskbit : Nat.land (c.codeBuf 1) 128 = 0) :
    parseHeaderLen c s' = .fail (-1) .eproto
      (wsDecodeCleanupComplete
        { c with header := { c.header with payloadLen := Nat.land (c.codeBuf 1) 127 } }) s' := by
  unfold parseHeaderLen
  dsimp only
  rw [if_pos hmaskbit]

theorem parseHeaderLen_eq_short (c : DecCtx) (s' : Sock)
    (hmaskbit : Nat.land (c.codeBuf 1) 128 ≠ 0)
    (hlen : Nat.land (c.codeBuf 1) 127 < 126)
    (hn : 6 ≤ c.header.nDone) :
    parseHeaderLen c s' = parseHeaderLen.parseHeaderFinish
      { c with
        header := { c.header with
          payloadLen := Nat.land (c.codeBuf 1) 127,
          headerLen := WS_HYBI_HEADER_LEN_SHORT_MASKED,
          mask := bufRead c.codeBuf 2 4 } } s' := by
  unfold parseHeaderLen
  dsimp only
  rw [if_neg hmaskbit]
  rw [if_pos ⟨hlen, hn⟩]

theorem parseHeaderLen_eq_ext (c : DecCtx) (s' : Sock)
    (hmaskbit : Nat.land (c.codeBuf 1) 128 ≠ 0)
    (hlen : Nat.land (c.codeBuf 1) 127 = 126)
    (hn : 8 ≤ c.header.nDone) :
    parseHeaderLen c s' = parseHeaderLen.parseHeaderFinish
      { c with
        header := { c.header with
          payloadLen := c.codeBuf 2 * 256 + c.codeBuf 3,
          headerLen := WS_HYBI_HEADER_LEN_EXTENDED_MASKED,
          mask := bufRead c.codeBuf 4 4 } } s' := by
  unfold parseHeaderLen
  dsimp only
  rw [if_neg hmaskbit]
  rw [if_neg (by omega)]
  rw [if_pos ⟨hlen, hn⟩]

theorem parseHeaderLen_eq_long (c : DecCtx) (s' : Sock)
    (hmaskbit : Nat.land (c.codeBuf 1) 128 ≠ 0)
    (hlen : Nat.land (c.codeBuf 1) 127 = 127)
    (hn : 14 ≤ c.header.nDone) :
    parseHeaderLen c s' = parseHeaderLen.parseHeaderFinish
      { c with
        header := { c.header with
          payloadLen := ntoh64 (bufRead c.codeBuf 2 8),
          headerLen := WS_HYBI_HEADER_LEN_LONG_MASKED,
          mask := bufRead c.codeBuf 10 4 } } s' := by
  unfold parseHeaderLen
  dsimp only
  rw [if_neg hmaskbit]
  rw [if_neg (by omega)]
  rw [if_neg (by omega)]
  rw [if_pos ⟨hlen, hn⟩]

theorem parseHeaderLen_eq_pending (c : DecCtx) (s' : Sock)
    (hmaskbit : Nat.land (c.codeBuf 1) 128 ≠ 0)
    (h1 : ¬(Nat.land (c.codeBuf 1) 127 < 126 ∧ 6 ≤ c.header.nDone))
    (h2 : ¬(Nat.land (c.codeBuf 1) 127 = 126 ∧ 8 ≤ c.header.nDone))
    (h3 : ¬(Nat.land (c.codeBuf 1) 127 = 127 ∧ 14 ≤ c.header.nDone)) :
    parseHeaderLen c s' = .pending
      { c with header := { c.header with payloadLen := Nat.land (c.codeBuf 1) 127 } } s' := by
  unfold parseHeaderLen
  dsimp only
  rw [if_neg hmaskbit]
  rw [if_neg h1]
  rw [if_neg h2]
  rw [if_neg h3]

theorem parseHeaderFinish_eq_ok (c : DecCtx) (s' : Sock)
    (hmin : ¬((WS_HYBI_HEADER_LEN_SHORT_MASKED < c.header.headerLen
        ∧ c.header.payloadLen < 126)
      ∨ (WS_HYBI_HEADER_LEN_EXTENDED_MASKED < c.header.headerLen
        ∧ c.header.payloadLen < 65536))) :
    parseHeaderLen.parseHeaderFinish c s' = .ok (c.header.nDone - c.header.headerLen)
      { c with
        writePos := c.header.nDone,
        readPos := c.header.headerLen,
        nReadPayload := c.header.nDone - c.header.headerLen } s' := by
  unfold parseHeaderLen.parseHeaderFinish
  rw [if_neg hmin]

theorem parseHeaderFinish_eq_fail (c : DecCtx) (s' : Sock)
    (hmin : (WS_HYBI_HEADER_LEN_SHORT_MASKED < c.header.headerLen
        ∧ c.header.payloadLen < 126)
      ∨ (WS_HYBI_HEADER_LEN_EXTENDED_MASKED < c.header.headerLen
        ∧ c.header.payloadLen < 65536)) :
    parseHeaderLen.parseHeaderFinish c s'
      = .fail (-1) .eproto (wsDecodeCleanupComplete c) s' := by
  unfold parseHeaderLen.parseHeaderFinish
  rw [if_pos hmin]

theorem recvStep_eq_headerPending (w : WsCtx) (s : Sock) (len : Nat)
    (h : w.dec.state = .headerPending) :
    recvStep w s len = match readHeader w.dec s with
      | .fail ret e c' s' =>
        { ret := ret, err := e, out := [],
          wsctx := { w with dec := sporCleanup { c' with state := .err } }, sock := s' }
      | .pending c' s' =>
        { ret := -1, err := .eagain, out := [],
          wsctx := { w with dec := sporCleanup { c' with state := .headerPending } }, sock := s' }
      | .ok nInBuf c' s' =>
        finishRad w (readAndDecode { c' with state := .dataNeeded } s' len nInBuf) := by
  unfold recvStep
  rw [h]

theorem recvStep_eq_dataNeeded (w : WsCtx) (s : Sock) (len : Nat)
    (h : w.dec.state = .dataNeeded) :
    recvStep w s len = finishRad w (readAndDecode w.dec s len 0) := by
  unfold recvStep
  rw [h]

theorem recvStep_eq_dataAvailable (w : WsCtx) (s : Sock) (len : Nat)
    (h : w.dec.state = .dataAvailable) :
    recvStep w s len =
      { ret := (returnData len w.dec).ret, err := (returnData len w.dec).err,
        out := (returnData len w.dec).out,
        wsctx := { w with
          dec := sporCleanup { (returnData len w.dec).ctx with state := (returnData len w.dec).next } },
        sock := s } := by
  unfold recvStep
  rw [h]

theorem recvStep_eq_closeReasonPending (w : WsCtx) (s : Sock) (len : Nat)
    (h : w.dec.state = .closeReasonPending) :
    recvStep w s len = finishRad w (readAndDecode w.dec s len 0) := by
  unfold recvStep
  rw [h]

/-! ### Claim C7: non-minimal length encodings are rejected with EPROTO -/

/-- C7: a frame whose length field is non-minimally encoded — `len7 = 126`
with a decoded 16-bit length `l < 126`, or `len7 = 127` with a decoded
64-bit length `l < 65536` — makes `recv` return `-1` with `EPROTO` as
soon as the full masked header has arrived, for every first header byte
`b0` and all mask bytes (frames that are malformed for an additional
reason, such as a fragmented control frame or a stray continuation frame,
are rejected with the same `-1`/`EPROTO`). -/
theorem c7_nonminimal_length_eproto (b0 l m0 m1 m2 m3 : Nat) :
    (l < 126 →
      (recvStep (initWs false) [[b0, 254, l / 256, l % 256, m0, m1, m2, m3]] codeBufSize).ret
          = -1 ∧
      (recvStep (initWs false) [[b0, 254, l / 256, l % 256, m0, m1, m2, m3]] codeBufSize).err
          = .eproto) ∧
    (l < 65536 →
      (recvStep (initWs false)
          [[b0, 255, 0, 0, 0, 0, 0, 0, l / 256, l % 256, m0, m1, m2, m3]] codeBufSize).ret = -1 ∧
      (recvStep (initWs false)
          [[b0, 255, 0, 0, 0, 0, 0, 0, l / 256, l % 256, m0, m1, m2, m3]] codeBufSize).err
          = .eproto) := by
  constructor
  · intro hl
    rw [recvStep_eq_headerPending _ _ _ rfl]
    rw [readHeader_eq (initWs false).dec [[b0, 254, l / 256, l % 256, m0, m1, m2, m3]]
      [b0, 254, l / 256, l % 256, m0, m1, m2, m3] [] rfl (by simp) (by simp)]
    by_cases h8 : Nat.land (Nat.land b0 15) 8 = 0
    · by_cases h0 : Nat.land b0 15 = WS_OPCODE_CONTINUATION
      · rw [parseHeader_eq_cont_fresh _ _ h0 rfl]
        exact ⟨rfl, rfl⟩
      · rw [parseHeader_eq_data _ _ h8 h0]
        rw [parseHeaderLen_eq_ext _ _ (by show Nat.land 254 128 ≠ 0; decide)
          (by show Nat.land 254 127 = 126; decide) (by show (8 : Nat) ≤ 8; decide)]
        rw [parseHeaderFinish_eq_fail _ _ (Or.inl ⟨by show (6 : Nat) < 8; decide,
          by show l / 256 * 256 + l % 256 < 126; omega⟩)]
        exact ⟨rfl, rfl⟩
    · by_cases hfin : Nat.shiftRight (Nat.land b0 128) 7 = 0
      · rw [parseHeader_eq_control_fin0 _ _ h8 hfin]
        exact ⟨rfl, rfl⟩
      · rw [parseHeader_eq_control _ _ h8 hfin]
        rw [parseHeaderLen_eq_ext _ _ (by show Nat.land 254 128 ≠ 0; decide)
          (by show Nat.land 254 127 = 126; decide) (by show (8 : Nat) ≤ 8; decide)]
        rw [parseHeaderFinish_eq_fail _ _ (Or.inl ⟨by show (6 : Nat) < 8; decide,
          by show l / 256 * 256 + l % 256 < 126; omega⟩)]
        exact ⟨rfl, rfl⟩
  · intro hl
    rw [recvStep_eq_headerPending _ _ _ rfl]
    rw [readHeader_eq (initWs false).dec
      [[b0, 255, 0, 0, 0, 0, 0, 0, l / 256, l % 256, m0, m1, m2, m3]]
      [b0, 255, 0, 0, 0, 0, 0, 0, l / 256, l % 256, m0, m1, m2, m3] [] rfl (by simp) (by simp)]
    by_cases h8 : Nat.land (Nat.land b0 15) 8 = 0
    · by_cases h0 : Nat.land b0 15 = WS_OPCODE_CONTINUATION
      · rw [parseHeader_eq_cont_fresh _ _ h0 rfl]
        exact ⟨rfl, rfl⟩
      · rw [parseHeader_eq_data _ _ h8 h0]
        rw [parseHeaderLen_eq_long _ _ (by show Nat.land 255 128 ≠ 0; decide)
          (by show Nat.land 255 127 = 127; decide) (by show (14 : Nat) ≤ 14; decide)]
        rw [parseHeaderFinish_eq_fail _ _ (Or.inr ⟨by show (8 : Nat) < 14; decide,
          by show ntoh64 [0, 0, 0, 0, 0, 0, l / 256, l % 256] < 65536; simp [ntoh64]; omega⟩)]
        exact ⟨rfl, rfl⟩
    · by_cases hfin : Nat.shiftRight (Nat.land b0 128) 7 = 0
      · rw [parseHeader_eq_control_fin0 _ _ h8 hfin]
        exact ⟨rfl, rfl⟩
      · rw [parseHeader_eq_control _ _ h8 hfin]
        rw [parseHeaderLen_eq_long _ _ (by show Nat.land 255 128 ≠ 0; decide)
          (by show Nat.land 255 127 = 127; decide) (by show (14 : Nat) ≤ 14; decide)]
        rw [parseHeaderFinish_eq_fail _ _ (Or.inr ⟨by show (8 : Nat) < 14; decide,
          by show ntoh64 [0, 0, 0, 0, 0, 0, l / 256, l % 256] < 65536; simp [ntoh64]; omega⟩)]
        exact ⟨rfl, rfl⟩

/-- C7 witness: the two non-minimal encodings of payload length 5
(`7E 0005` and `7F 0000000000000005`) on a masked BINARY frame are both
rejected with `-1`/`EPROTO`. -/
theorem c7_nonminimal_length_eproto_witness :
    ((recvStep (initWs false) [[0x82, 254, 0, 5, 9, 9, 9, 9]] codeBufSize).ret = -1 ∧
      (recvStep (initWs false) [[0x82, 254, 0, 5, 9, 9, 9, 9]] codeBufSize).err = .eproto) ∧
    ((recvStep (initWs false)
        [[0x82, 255, 0, 0, 0, 0, 0, 0, 0, 5, 9, 9, 9, 9]] codeBufSize).ret = -1 ∧
      (recvStep (initWs false)
        [[0x82, 255, 0, 0, 0, 0, 0, 0, 0, 5, 9, 9, 9, 9]] codeBufSize).err = .eproto) :=
  ⟨(c7_nonminimal_length_eproto 0x82 5 9 9 9 9).1 (by decide),
   (c7_nonminimal_length_eproto 0x82 5 9 9 9 9).2 (by decide)⟩

/-! ### Equation lemmas for the payload path -/

@[simp] theorem radCarry_header (c : DecCtx) : (radCarry c).header = c.header := rfl

@[simp] theorem radCarry_state (c : DecCtx) : (radCarry c).state = c.state := rfl

@[simp] theorem radCarry_carrylen (c : DecCtx) : (radCarry c).carrylen = c.carrylen := rfl

@[simp] theorem radCarry_carryBuf (c : DecCtx) : (radCarry c).carryBuf = c.carryBuf := rfl

@[simp] theorem radCarry_readlen (c : DecCtx) : (radCarry c).readlen = c.readlen := rfl

@[simp] theorem radCarry_readPos (c : DecCtx) : (radCarry c).readPos = c.readPos := rfl

@[simp] theorem radCarry_nReadPayload (c : DecCtx) :
    (radCarry c).nReadPayload = c.nReadPayload := rfl

@[simp] theorem radCarry_writePos (c : DecCtx) :
    (radCarry c).writePos = c.writePos + c.carrylen := rfl

@[simp] theorem radCarry_codeBuf (c : DecCtx) :
    (radCarry c).codeBuf = bufWrite c.codeBuf c.writePos (bufRead c.carryBuf 0 c.carrylen) := rfl

@[simp] theorem radCarry_continuation_opcode (c : DecCtx) :
    (radCarry c).continuation_opcode = c.continuation_opcode := rfl

theorem remaining_congr (c c' : DecCtx) (h1 : c'.header.payloadLen = c.header.payloadLen)
    (h2 : c'.nReadPayload = c.nReadPayload) : remaining c' = remaining c := by
  unfold remaining
  rw [h1, h2]

@[simp] theorem remaining_radCarry (c : DecCtx) : remaining (radCarry c) = remaining c := rfl

theorem xorRegionIdx_compose (buf : Buf) (base w hi : Nat) (mask : List Byte) (hw : w ≤ hi) :
    xorRegionIdx (xorRegionIdx buf base 0 w mask) base w hi mask
      = xorRegionIdx buf base 0 hi mask := by
  funext j
  unfold xorRegionIdx
  rcases Nat.lt_or_ge j (base + w) with h1 | h1
  · rcases Nat.lt_or_ge j (base + 0) with h2 | h2
    · rw [if_neg (by omega), if_neg (by omega), if_neg (by omega)]
    · rw [if_neg (by omega), if_pos (by omega), if_pos (by omega)]
  · rcases Nat.lt_or_ge j (base + hi) with h2 | h2
    · rw [if_pos (by omega), if_neg (by omega), if_pos (by omega)]
    · rw [if_neg (by omega), if_neg (by omega), if_neg (by omega)]

theorem readAndDecode_eq_noread (c0 : DecCtx) (s : Sock) (len nInBuf : Nat)
    (hrem : remaining c0 = 0) :
    readAndDecode c0 s len nInBuf
      = radDecode (radCarry c0) s len (codeBufSize - (radCarry c0).writePos - 1) nInBuf [] := by
  unfold readAndDecode
  dsimp only
  rw [if_neg (by rw [remaining_radCarry, hrem]; simp)]

theorem readAndDecode_eq_read (c0 : DecCtx) (s : Sock) (len nInBuf : Nat)
    (bs : List Byte) (s' : Sock)
    (hread : sockRead s
        (if codeBufSize - (radCarry c0).writePos - 1 < remaining c0
          then codeBufSize - (radCarry c0).writePos - 1 else remaining c0) = (some bs, s'))
    (hpos : 0 < (if codeBufSize - (radCarry c0).writePos - 1 < remaining c0
          then codeBufSize - (radCarry c0).writePos - 1 else remaining c0))
    (hne : bs ≠ []) :
    readAndDecode c0 s len nInBuf
      = radDecode (radCarry c0) s' len (codeBufSize - (radCarry c0).writePos - 1) nInBuf bs := by
  unfold readAndDecode
  dsimp only
  rw [remaining_radCarry]
  rw [if_pos hpos, hread]
  dsimp only
  rw [if_neg (by simpa [List.isEmpty_iff] using hne)]

theorem radDecode_eq_complete (c1 : DecCtx) (s' : Sock) (len bufsize nInBuf : Nat)
    (bs : List Byte)
    (hrem : remaining (radAccount c1 bs) = 0) :
    radDecode c1 s' len bufsize nInBuf bs
      = radSwitch
          { radAccount c1 bs with
            state := .frameComplete,
            carrylen := 0,
            codeBuf := xorRegionIdx (bufWrite c1.codeBuf c1.writePos bs)
              (c1.writePos + bs.length - (bs.length + c1.carrylen + nInBuf)) 0
              (bs.length + c1.carrylen + nInBuf) c1.header.mask }
          s' len bufsize
          (c1.writePos + bs.length - (bs.length + c1.carrylen + nInBuf))
          (bs.length + c1.carrylen + nInBuf) := by
  unfold radDecode
  dsimp only
  rw [if_pos hrem]
  rw [if_pos rfl]
  rw [xorRegionIdx_compose _ _ _ _ _
    (by have := shiftRight_two_eq (bs.length + c1.carrylen + nInBuf); omega)]
  rfl

theorem radDecode_eq_incomplete (c1 : DecCtx) (s' : Sock) (len bufsize nInBuf : Nat)
    (bs : List Byte)
    (hrem : remaining (radAccount c1 bs) ≠ 0)
    (hstate : c1.state ≠ .frameComplete) :
    radDecode c1 s' len bufsize nInBuf bs
      = radSwitch
          { radAccount c1 bs with
            codeBuf := xorRegionIdx (bufWrite c1.codeBuf c1.writePos bs)
              (c1.writePos + bs.length - (bs.length + c1.carrylen + nInBuf)) 0
              (4 * ((bs.length + c1.carrylen + nInBuf) >>> 2)) c1.header.mask,
            carrylen := (bs.length + c1.carrylen + nInBuf)
              - 4 * ((bs.length + c1.carrylen + nInBuf) >>> 2),
            carryBuf := bufWrite c1.carryBuf 0
              (bufRead
                (xorRegionIdx (bufWrite c1.codeBuf c1.writePos bs)
                  (c1.writePos + bs.length - (bs.length + c1.carrylen + nInBuf)) 0
                  (4 * ((bs.length + c1.carrylen + nInBuf) >>> 2)) c1.header.mask)
                (c1.writePos + bs.length - (bs.length + c1.carrylen + nInBuf)
                  + 4 * ((bs.length + c1.carrylen + nInBuf) >>> 2))
                ((bs.length + c1.carrylen + nInBuf)
                  - 4 * ((bs.length + c1.carrylen + nInBuf) >>> 2))),
            writePos := c1.writePos + bs.length
              - ((bs.length + c1.carrylen + nInBuf)
                - 4 * ((bs.length + c1.carrylen + nInBuf) >>> 2)) }
          s' len bufsize
          (c1.writePos + bs.length - (bs.length + c1.carrylen + nInBuf))
          ((bs.length + c1.carrylen + nInBuf)
            - ((bs.length + c1.carrylen + nInBuf)
              - 4 * ((bs.length + c1.carrylen + nInBuf) >>> 2))) := by
  unfold radDecode
  dsimp only
  rw [if_neg hrem]
  rw [if_neg (by simp only [radAccount_state]; exact hstate)]
  rw [if_neg (by
    have := shiftRight_two_eq (bs.length + c1.carrylen + nInBuf)
    show ¬(carryBufSize < _)
    unfold carryBufSize
    omega)]
  rfl

theorem returnData_eq_some (len : Nat) (c : DecCtx)
    (h0 : 0 < c.readlen) (hle : c.readlen ≤ (len : Int)) :
    returnData len c =
      { next := if remaining c = 0 then .frameComplete else .dataNeeded,
        ret := c.readlen, err := .enone,
        out := bufRead c.codeBuf c.readPos c.readlen.toNat,
        ctx := { c with readlen := 0, readPos := 0 } } := by
  unfold returnData
  rw [if_pos h0]
  rw [if_neg (by omega)]

theorem returnData_eq_empty (len : Nat) (c : DecCtx) (h0 : c.readlen ≤ 0) :
    returnData len c =
      { next := c.state, ret := -1, err := .eagain, out := [], ctx := c } := by
  unfold returnData
  rw [if_neg (by omega)]

theorem radSwitch_eq_binary (c4 : DecCtx) (s' : Sock) (len bufsize dataPos toReturn : Nat)
    (hop : c4.header.opcode = WS_OPCODE_BINARY_FRAME) :
    radSwitch c4 s' len bufsize dataPos toReturn =
      { next := (returnData len { c4 with
            readlen := (toReturn : Int), writePos := c4.header.headerLen,
            readPos := dataPos }).next,
        ret := (returnData len { c4 with
            readlen := (toReturn : Int), writePos := c4.header.headerLen,
            readPos := dataPos }).ret,
        err := (returnData len { c4 with
            readlen := (toReturn : Int), writePos := c4.header.headerLen,
            readPos := dataPos }).err,
        out := (returnData len { c4 with
            readlen := (toReturn : Int), writePos := c4.header.headerLen,
            readPos := dataPos }).out,
        ctx := (returnData len { c4 with
            readlen := (toReturn : Int), writePos := c4.header.headerLen,
            readPos := dataPos }).ctx,
        sock := s' } := by
  unfold radSwitch
  dsimp only
  rw [if_neg (by rw [hop]; decide)]
  rw [if_neg (by rw [hop]; decide)]
  rw [if_pos hop]

theorem radSwitch_eq_close_complete (c4 : DecCtx) (s' : Sock)
    (len bufsize dataPos toReturn : Nat)
    (hop : c4.header.opcode = WS_OPCODE_CLOSE) (hrem : remaining c4 = 0) :
    radSwitch c4 s' len bufsize dataPos toReturn =
      { next := .frameComplete, ret := -1, err := .econnreset, out := [],
        ctx := { c4 with codeBuf := bufWrite c4.codeBuf c4.writePos [0] }, sock := s' } := by
  unfold radSwitch
  dsimp only
  rw [if_pos hop, if_pos hrem]

theorem radSwitch_eq_close_pending (c4 : DecCtx) (s' : Sock)
    (len bufsize dataPos toReturn : Nat)
    (hop : c4.header.opcode = WS_OPCODE_CLOSE) (hrem : remaining c4 ≠ 0) :
    radSwitch c4 s' len bufsize dataPos toReturn =
      { next := .closeReasonPending, ret := -1, err := .eagain, out := [],
        ctx := c4, sock := s' } := by
  unfold radSwitch
  dsimp only
  rw [if_pos hop, if_neg hrem]

theorem radSwitch_eq_text_ok (c4 : DecCtx) (s' : Sock) (len bufsize dataPos toReturn : Nat)
    (hop : c4.header.opcode = WS_OPCODE_TEXT_FRAME) (str l : List Byte)
    (hstr : (bufRead (bufWrite c4.codeBuf (dataPos + toReturn) [0]) dataPos toReturn).takeWhile
        (fun b => b != 0) = str)
    (hb64 : b64_pton str bufsize = some l) :
    radSwitch c4 s' len bufsize dataPos toReturn =
      { next := (returnData len { c4 with
            codeBuf := bufWrite (bufWrite c4.codeBuf (dataPos + toReturn) [0]) dataPos l,
            readlen := (l.length : Int), writePos := c4.header.headerLen,
            readPos := dataPos }).next,
        ret := (returnData len { c4 with
            codeBuf := bufWrite (bufWrite c4.codeBuf (dataPos + toReturn) [0]) dataPos l,
            readlen := (l.length : Int), writePos := c4.header.headerLen,
            readPos := dataPos }).ret,
        err := (returnData len { c4 with
            codeBuf := bufWrite (bufWrite c4.codeBuf (dataPos + toReturn) [0]) dataPos l,
            readlen := (l.length : Int), writePos := c4.header.headerLen,
            readPos := dataPos }).err,
        out := (returnData len { c4 with
            codeBuf := bufWrite (bufWrite c4.codeBuf (dataPos + toReturn) [0]) dataPos l,
            readlen := (l.length : Int), writePos := c4.header.headerLen,
            readPos := dataPos }).out,
        ctx := (returnData len { c4 with
            codeBuf := bufWrite (bufWrite c4.codeBuf (dataPos + toReturn) [0]) dataPos l,
            readlen := (l.length : Int), writePos := c4.header.headerLen,
            readPos := dataPos }).ctx,
        sock := s' } := by
  unfold radSwitch
  dsimp only
  rw [if_neg (by rw [hop]; decide)]
  rw [if_pos hop]
  rw [hstr, hb64]

/-! ### Claim C4: the base64 session flag is never consulted (corrected) -/

/-- C4 counterexample: a session negotiated with `base64 == false` receives
a masked TEXT frame whose unmasked payload is the Base64 text `"QUJD"`.
The claim demands that the payload not be Base64-decoded, yet the call
returns the *decoded* bytes `"ABC"` (`read_len = 3`), not the 4 raw
payload bytes: the opcode switch of `readAndDecode` has no `base64`
test. -/
theorem c4_counterexample :
    (recvStep (initWs false) [[0x81, 0x84, 0, 0, 0, 0, 0x51, 0x55, 0x4A, 0x44]] codeBufSize).out
        = [65, 66, 67]
    ∧ (recvStep (initWs false) [[0x81, 0x84, 0, 0, 0, 0, 0x51, 0x55, 0x4A, 0x44]]
        codeBufSize).ret = 3
    ∧ ¬((recvStep (initWs false) [[0x81, 0x84, 0, 0, 0, 0, 0x51, 0x55, 0x4A, 0x44]]
        codeBufSize).out = [0x51, 0x55, 0x4A, 0x44]) := by
  decide

/-- C4 amended: TEXT-frame handling is independent of `wsctx->base64` —
for *both* values of the session flag the same masked TEXT frame
(`"QUJD"`, the Base64 encoding of `"ABC"`) is Base64-decoded on frame
completion: a NUL sentinel is written directly after the 4 unmasked
payload bytes (`codeBuf[6 + 4] = 0`), the payload is decoded in place at
the payload start (`codeBuf[6..9)` becomes `"ABC"`), and `read_len`
becomes the decoded byte count `3`, which the call returns. -/
theorem c4_text_always_base64_decoded (flag : Bool) :
    (recvStep (initWs flag) [[0x81, 0x84, 0, 0, 0, 0, 0x51, 0x55, 0x4A, 0x44]] codeBufSize).out
        = [65, 66, 67]
    ∧ (recvStep (initWs flag) [[0x81, 0x84, 0, 0, 0, 0, 0x51, 0x55, 0x4A, 0x44]]
        codeBufSize).ret = 3
    ∧ (recvStep (initWs flag) [[0x81, 0x84, 0, 0, 0, 0, 0x51, 0x55, 0x4A, 0x44]]
        codeBufSize).err = .enone
    ∧ (recvStep (initWs flag) [[0x81, 0x84, 0, 0, 0, 0, 0x51, 0x55, 0x4A, 0x44]]
        codeBufSize).wsctx.dec.codeBuf 10 = 0
    ∧ bufRead (recvStep (initWs flag) [[0x81, 0x84, 0, 0, 0, 0, 0x51, 0x55, 0x4A, 0x44]]
        codeBufSize).wsctx.dec.codeBuf 6 3 = [65, 66, 67] := by
  cases flag <;> decide

/-! ### Claim C5: fresh data frames during fragmentation (corrected) -/

/-- C5 counterexample: the first call processes a non-final BINARY frame
(`FIN = 0`), which opens a fragmented message
(`continuation_opcode = WS_OPCODE_BINARY_FRAME ≠ INVALID`).  The second
call receives a *fresh* final BINARY frame — per the claim a protocol
error that must return `-1`/`EPROTO` — but the decoder accepts it and
returns its payload byte. -/
theorem c5_counterexample :
    (recvStep (initWs false) [[0x02, 0x81, 0, 0, 0, 0, 0x61], [0x82, 0x81, 0, 0, 0, 0, 0x62]]
        codeBufSize).wsctx.dec.continuation_opcode = WS_OPCODE_BINARY_FRAME
    ∧ ¬((recvStep
          (recvStep (initWs false) [[0x02, 0x81, 0, 0, 0, 0, 0x61],
            [0x82, 0x81, 0, 0, 0, 0, 0x62]] codeBufSize).wsctx
          (recvStep (initWs false) [[0x02, 0x81, 0, 0, 0, 0, 0x61],
            [0x82, 0x81, 0, 0, 0, 0, 0x62]] codeBufSize).sock
          codeBufSize).ret = -1
        ∧ (recvStep
          (recvStep (initWs false) [[0x02, 0x81, 0, 0, 0, 0, 0x61],
            [0x82, 0x81, 0, 0, 0, 0, 0x62]] codeBufSize).wsctx
          (recvStep (initWs false) [[0x02, 0x81, 0, 0, 0, 0, 0x61],
            [0x82, 0x81, 0, 0, 0, 0, 0x62]] codeBufSize).sock
          codeBufSize).err = .eproto) := by
  decide

/-- C5 amended: while a fragmented message is open
(`continuation_opcode != INVALID`), a fresh non-control BINARY frame is
*accepted*, not rejected: `readHeader` only checks the stored
continuation opcode for CONT frames, and a data frame simply overwrites
it (`FIN = 1` stores `INVALID` again).  The first call returns the `FIN
= 0` fragment's payload and leaves the message open; the second call
returns the fresh frame's payload with no error and the completion
cleanup resets `continuation_opcode` to `INVALID`. -/
theorem c5_fresh_frame_accepted (flag : Bool) :
    (recvStep (initWs flag) [[0x02, 0x81, 0, 0, 0, 0, 0x61], [0x82, 0x81, 0, 0, 0, 0, 0x62]]
        codeBufSize).ret = 1
    ∧ (recvStep (initWs flag) [[0x02, 0x81, 0, 0, 0, 0, 0x61], [0x82, 0x81, 0, 0, 0, 0, 0x62]]
        codeBufSize).out = [0x61]
    ∧ (recvStep (initWs flag) [[0x02, 0x81, 0, 0, 0, 0, 0x61], [0x82, 0x81, 0, 0, 0, 0, 0x62]]
        codeBufSize).wsctx.dec.continuation_opcode = WS_OPCODE_BINARY_FRAME
    ∧ (recvStep
        (recvStep (initWs flag) [[0x02, 0x81, 0, 0, 0, 0, 0x61],
          [0x82, 0x81, 0, 0, 0, 0, 0x62]] codeBufSize).wsctx
        (recvStep (initWs flag) [[0x02, 0x81, 0, 0, 0, 0, 0x61],
          [0x82, 0x81, 0, 0, 0, 0, 0x62]] codeBufSize).sock
        codeBufSize).ret = 1
    ∧ (recvStep
        (recvStep (initWs flag) [[0x02, 0x81, 0, 0, 0, 0, 0x61],
          [0x82, 0x81, 0, 0, 0, 0, 0x62]] codeBufSize).wsctx
        (recvStep (initWs flag) [[0x02, 0x81, 0, 0, 0, 0, 0x61],
          [0x82, 0x81, 0, 0, 0, 0, 0x62]] codeBufSize).sock
        codeBufSize).out = [0x62]
    ∧ (recvStep
        (recvStep (initWs flag) [[0x02, 0x81, 0, 0, 0, 0, 0x61],
          [0x82, 0x81, 0, 0, 0, 0, 0x62]] codeBufSize).wsctx
        (recvStep (initWs flag) [[0x02, 0x81, 0, 0, 0, 0, 0x61],
          [0x82, 0x81, 0, 0, 0, 0, 0x62]] codeBufSize).sock
        codeBufSize).err = .enone
    ∧ (recvStep
        (recvStep (initWs flag) [[0x02, 0x81, 0, 0, 0, 0, 0x61],
          [0x82, 0x81, 0, 0, 0, 0, 0x62]] codeBufSize).wsctx
        (recvStep (initWs flag) [[0x02, 0x81, 0, 0, 0, 0, 0x61],
          [0x82, 0x81, 0, 0, 0, 0, 0x62]] codeBufSize).sock
        codeBufSize).wsctx.dec.continuation_opcode = WS_OPCODE_INVALID := by
  cases flag <;> decide

/-! ### Claim C8: CLOSE frame handling (corrected) -/

/-- C8 counterexample: a chunk delivers exactly the 6-byte masked CLOSE
header (`payload_len = 2`, reason bytes not yet available).  The CLOSE
header has been seen and its payload is incomplete, yet the decoder does
*not* enter `CLOSE_REASON_PENDING`: the payload read fails, `readAndDecode`
returns `WS_STATE_ERR` with the read's `EAGAIN`, and the single point of
return cleans up to `HEADER_PENDING`, dropping the parsed CLOSE header. -/
theorem c8_counterexample :
    (recvStep (initWs false) [[0x88, 0x82, 1, 2, 3, 4]] codeBufSize).ret = -1
    ∧ (recvStep (initWs false) [[0x88, 0x82, 1, 2, 3, 4]] codeBufSize).err = .eagain
    ∧ ¬((recvStep (initWs false) [[0x88, 0x82, 1, 2, 3, 4]]
        codeBufSize).wsctx.dec.state = .closeReasonPending)
    ∧ (recvStep (initWs false) [[0x88, 0x82, 1, 2, 3, 4]]
        codeBufSize).wsctx.dec.state = .headerPending := by
  decide

/-- C8 amended: (i) when a masked CLOSE frame (`88 82 <m> m(0x03 0xE8)`)
arrives in full, `recv` returns `-1` with `ECONNRESET` and none of the
CLOSE payload bytes are delivered as caller data; (ii) when the payload
read delivers at least one but not all reason bytes, the decoder enters
`CLOSE_REASON_PENDING` and returns `-1`/`EAGAIN`, and the follow-up call
that completes the payload returns `-1`/`ECONNRESET`; (iii) but when *no*
payload byte is available after the header, the call still returns
`-1`/`EAGAIN` while the decoder resets to `HEADER_PENDING` instead of
entering `CLOSE_REASON_PENDING`. -/
theorem c8_close_frames (flag : Bool) :
    ((recvStep (initWs flag) [[0x88, 0x82, 1, 2, 3, 4, 0x02, 0xEA]] codeBufSize).ret = -1
      ∧ (recvStep (initWs flag) [[0x88, 0x82, 1, 2, 3, 4, 0x02, 0xEA]] codeBufSize).err
          = .econnreset
      ∧ (recvStep (initWs flag) [[0x88, 0x82, 1, 2, 3, 4, 0x02, 0xEA]] codeBufSize).out = [])
    ∧ ((recvStep (initWs flag) [[0x88, 0x82, 1, 2, 3, 4], [0x02]] codeBufSize).ret = -1
      ∧ (recvStep (initWs flag) [[0x88, 0x82, 1, 2, 3, 4], [0x02]] codeBufSize).err = .eagain
      ∧ (recvStep (initWs flag) [[0x88, 0x82, 1, 2, 3, 4], [0x02]] codeBufSize).out = []
      ∧ (recvStep (initWs flag) [[0x88, 0x82, 1, 2, 3, 4], [0x02]]
          codeBufSize).wsctx.dec.state = .closeReasonPending
      ∧ (recvStep
          (recvStep (initWs flag) [[0x88, 0x82, 1, 2, 3, 4], [0x02]] codeBufSize).wsctx
          ((recvStep (initWs flag) [[0x88, 0x82, 1, 2, 3, 4], [0x02]] codeBufSize).sock
            ++ [[0xEA]])
          codeBufSize).ret = -1
      ∧ (recvStep
          (recvStep (initWs flag) [[0x88, 0x82, 1, 2, 3, 4], [0x02]] codeBufSize).wsctx
          ((recvStep (initWs flag) [[0x88, 0x82, 1, 2, 3, 4], [0x02]] codeBufSize).sock
            ++ [[0xEA]])
          codeBufSize).err = .econnreset)
    ∧ ((recvStep (initWs flag) [[0x88, 0x82, 1, 2, 3, 4]] codeBufSize).ret = -1
      ∧ (recvStep (initWs flag) [[0x88, 0x82, 1, 2, 3, 4]] codeBufSize).err = .eagain
      ∧ (recvStep (initWs flag) [[0x88, 0x82, 1, 2, 3, 4]]
          codeBufSize).wsctx.dec.state = .headerPending) := by
  cases flag <;> decide

theorem pow64 : (2 : Nat) ^ 64 = 18446744073709551616 := by norm_num

theorem remaining_eq_sub (c : DecCtx) (h1 : c.nReadPayload ≤ c.header.payloadLen)
    (h2 : c.header.payloadLen < 2 ^ 64) :
    remaining c = c.header.payloadLen - c.nReadPayload := by
  unfold remaining
  rw [pow64] at h2 ⊢
  omega

theorem bufWrite_nil (buf : Buf) (p : Nat) : bufWrite buf p [] = buf := by
  funext i
  simp [bufWrite]

theorem slice_getD (l : List Byte) (a b i : Nat) (h : i < b) :
    ((l.drop a).take b).getD i 0 = l.getD (a + i) 0 := by
  simp [List.getD_eq_getElem?_getD, List.getElem?_take, h, List.getElem?_drop]

theorem bufRead_getD (buf : Buf) (pos n i : Nat) (h : i < n) :
    (bufRead buf pos n).getD i 0 = buf (pos + i) := by
  simp [bufRead, List.getD_eq_getElem?_getD, List.getElem?_map, List.getElem?_range h]

theorem region_content (buf : Buf) (base k : Nat) (carry bs : List Byte)
    (mp : List Byte) (d : Nat)
    (hbufk : bufRead buf base k = (mp.drop d).take k)
    (hcarry : carry = (mp.drop (d + k)).take carry.length)
    (hbs : bs = (mp.drop (d + k + carry.length)).take bs.length) :
    ∀ i, i < k + carry.length + bs.length →
      (bufWrite (bufWrite buf (base + k) carry) (base + k + carry.length) bs) (base + i)
        = mp.getD (d + i) 0 := by
  intro i hi
  rcases Nat.lt_or_ge i k with h | h
  · rw [bufWrite_outside _ _ _ _ (by left; omega)]
    rw [bufWrite_outside _ _ _ _ (by left; omega)]
    have hh := congrArg (fun l => l.getD i 0) hbufk
    simp only at hh
    rw [bufRead_getD _ _ _ _ h] at hh
    rw [slice_getD _ _ _ _ h] at hh
    exact hh
  · rcases Nat.lt_or_ge i (k + carry.length) with h2 | h2
    · rw [bufWrite_outside _ _ _ _ (by left; omega)]
      rw [bufWrite_inside _ _ _ _ (by omega) (by omega)]
      have hidx : base + i - (base + k) = i - k := by omega
      rw [hidx]
      conv_lhs => rw [hcarry]
      rw [slice_getD _ _ _ _ (by omega)]
      congr 1
      omega
    · rw [bufWrite_inside _ _ _ _ (by omega) (by omega)]
      have hidx : base + i - (base + k + carry.length) = i - k - carry.length := by omega
      rw [hidx]
      conv_lhs => rw [hbs]
      rw [slice_getD _ _ _ _ (by omega)]
      congr 1
      omega

theorem round_buf2_content (c1 : DecCtx) (mask payload : List Byte) (hl d cl k : Nat)
    (bs : List Byte)
    (hwp : c1.writePos = hl + k + cl)
    (hregion : ∀ i, i < k + cl →
      c1.codeBuf (hl + i) = (maskPayload mask payload).getD (d + i) 0)
    (hbsc : bs = ((maskPayload mask payload).drop (d + k + cl)).take bs.length) :
    ∀ i, i < k + cl + bs.length →
      bufWrite c1.codeBuf c1.writePos bs (hl + i) = (maskPayload mask payload).getD (d + i) 0 := by
  intro i hi
  rcases Nat.lt_or_ge i (k + cl) with h | h
  · rw [bufWrite_outside _ _ _ _ (by left; omega)]
    exact hregion i h
  · rw [bufWrite_inside _ _ _ _ (by omega) (by omega)]
    have hidx : hl + i - c1.writePos = i - (k + cl) := by omega
    rw [hidx]
    conv_lhs => rw [hbsc]
    rw [slice_getD _ _ _ _ (by omega)]
    congr 1
    omega

theorem round_out_content (c1 : DecCtx) (mask payload : List Byte) (hl d cl k : Nat)
    (bs : List Byte) (ln t : Nat)
    (hmask4 : mask.length = 4)
    (hwp : c1.writePos = hl + k + cl)
    (hd4 : d % 4 = 0)
    (hregion : ∀ i, i < k + cl →
      c1.codeBuf (hl + i) = (maskPayload mask payload).getD (d + i) 0)
    (hbsc : bs = ((maskPayload mask payload).drop (d + k + cl)).take bs.length)
    (htln : t ≤ ln) (hlntd : ln ≤ k + cl + bs.length)
    (htP : d + t ≤ payload.length) :
    bufRead (xorRegionIdx (bufWrite c1.codeBuf c1.writePos bs) hl 0 ln mask) hl t
      = (payload.drop d).take t := by
  apply List.ext_getElem
  · simp [bufRead_length]
    omega
  · intro i h1 h2
    rw [bufRead_getElem]
    rw [xorRegionIdx_inside _ _ _ _ _ _ (by omega) (by
      simp only [bufRead_length] at h1
      omega)]
    have hi : i < t := by simpa [bufRead_length] using h1
    rw [round_buf2_content c1 mask payload hl d cl k bs hwp hregion hbsc i (by omega)]
    have hidx : hl + i - hl = i := by omega
    rw [hidx]
    have hmp : (maskPayload mask payload).getD (d + i) 0
        = payload.getD (d + i) 0 ^^^ maskAt mask (d + i) := by
      rw [List.getD_eq_getElem _ _ (by rw [maskPayload_length]; omega)]
      rw [maskPayload_getElem]
    rw [hmp]
    rw [maskAt_mod_four mask d i hd4]
    rw [xor_maskAt_cancel]
    rw [List.getElem_take]
    rw [List.getElem_drop]
    rw [List.getD_eq_getElem _ _ (by omega)]

theorem sockJoin_nil : sockJoin [] = [] := rfl

theorem sockJoin_cons (c : List Byte) (rest : Sock) :
    sockJoin (c :: rest) = c ++ sockJoin rest := by
  simp [sockJoin]

theorem sockJoin_eq_nil (s : Sock) (hne : ∀ c ∈ s, c ≠ []) (h : sockJoin s = []) :
    s = [] := by
  cases s with
  | nil => rfl
  | cons c rest =>
    rw [sockJoin_cons] at h
    have hc : c = [] := by
      rcases List.append_eq_nil.mp h with ⟨h1, _⟩
      exact h1
    exact absurd hc (hne c (by simp))

theorem sockRead_spec (s : Sock) (n : Nat) (stream : List Byte)
    (hs : sockJoin s = stream) (hne : ∀ c ∈ s, c ≠ []) (hn : 0 < n)
    (hstream : stream ≠ []) :
    ∃ bs s', sockRead s n = (some bs, s') ∧ bs ≠ [] ∧ bs.length ≤ n ∧
      bs = stream.take bs.length ∧ sockJoin s' = stream.drop bs.length ∧
      ∀ c ∈ s', c ≠ [] := by
  cases s with
  | nil => exact absurd (hs.symm.trans sockJoin_nil) hstream
  | cons c rest =>
    have hcne : c ≠ [] := hne c (by simp)
    have hclen : 0 < c.length := List.length_pos.mpr hcne
    have hj : min n c.length ≤ c.length := Nat.min_le_right _ _
    have hjpos : 0 < min n c.length := by omega
    have hbslen : (c.take (min n c.length)).length = min n c.length := by
      rw [List.length_take]
      omega
    refine ⟨c.take (min n c.length),
      if min n c.length < c.length then c.drop (min n c.length) :: rest else rest,
      rfl, ?_, ?_, ?_, ?_, ?_⟩
    · intro h
      rw [h] at hbslen
      simp at hbslen
      omega
    · rw [hbslen]; exact Nat.min_le_left _ _
    · rw [hbslen, ← hs, sockJoin_cons]
      rw [List.take_append_of_le_length hj]
    · rw [hbslen, ← hs, sockJoin_cons]
      by_cases hlt : min n c.length < c.length
      · rw [if_pos hlt, sockJoin_cons, List.drop_append_of_le_length hj]
      · rw [if_neg hlt]
        have hje : min n c.length = c.length := by omega
        rw [hje, List.drop_append_of_le_length (le_refl _), List.drop_length]
        simp
    · intro c' hc'
      by_cases hlt : min n c.length < c.length
      · rw [if_pos hlt] at hc'
        rcases List.mem_cons.mp hc' with h | h
        · subst h
          intro hnil
          have := congrArg List.length hnil
          simp at this
          omega
        · exact hne c' (by simp [h])
      · rw [if_neg hlt] at hc'
        exact hne c' (by simp [hc'])

theorem sporCleanup_eq_complete (c : DecCtx) (hst : c.state = .frameComplete)
    (hfin : c.header.fin ≠ 0) (hctl : isControlFrame c.header = false) :
    sporCleanup c = wsDecodeCleanupComplete c := by
  unfold sporCleanup
  rw [if_pos hst, if_pos ⟨hfin, hctl⟩]

theorem sporCleanup_eq_id (c : DecCtx) (h1 : c.state ≠ .frameComplete)
    (h2 : c.state ≠ .err) : sporCleanup c = c := by
  unfold sporCleanup
  rw [if_neg h1, if_neg h2]

@[simp] theorem wsDecodeCleanupComplete_state (c : DecCtx) :
    (wsDecodeCleanupComplete c).state = .headerPending := rfl

theorem runCollect_drained (len : Nat) : ∀ fuel (w : WsCtx),
    w.dec.state = .headerPending → runCollect fuel w [] len = [] := by
  intro fuel
  induction fuel with
  | zero => intro w _; rfl
  | succ f ih =>
    intro w hw
    show (recvStep w [] len).out ++ runCollect f (recvStep w [] len).wsctx (recvStep w [] len).sock len = []
    rw [recvStep_eq_headerPending w [] len hw]
    have hrh : readHeader w.dec [] = .fail (-1) .eagain (wsDecodeCleanupComplete w.dec) [] := rfl
    rw [hrh]
    dsimp only
    rw [List.nil_append]
    apply ih
    show (sporCleanup { wsDecodeCleanupComplete w.dec with state := DState.err }).state = _
    rw [sporCleanup]
    rw [if_neg (by simp), if_pos rfl]
    rfl

theorem radSwitch_binary_facts (c4 : DecCtx) (s' : Sock) (len bufsize dataPos toReturn : Nat)
    (hop : c4.header.opcode = WS_OPCODE_BINARY_FRAME)
    (hle : toReturn ≤ len) :
    radSwitch c4 s' len bufsize dataPos toReturn =
      { next := if toReturn = 0 then c4.state
                else if remaining c4 = 0 then .frameComplete else .dataNeeded,
        ret := if toReturn = 0 then -1 else (toReturn : Int),
        err := if toReturn = 0 then .eagain else .enone,
        out := if toReturn = 0 then [] else bufRead c4.codeBuf dataPos toReturn,
        ctx := { c4 with
                 readlen := 0,
                 writePos := c4.header.headerLen,
                 readPos := if toReturn = 0 then dataPos else 0 },
        sock := s' } := by
  unfold radSwitch
  dsimp only
  rw [if_neg (by rw [hop]; decide), if_neg (by rw [hop]; decide), if_pos hop]
  by_cases h0 : toReturn = 0
  · subst h0
    rw [returnData_eq_empty _ _ (by simp)]
    simp
  · have hr6 : remaining { c4 with
        readlen := (toReturn : Int), writePos := c4.header.headerLen,
        readPos := dataPos } = remaining c4 := rfl
    rw [returnData_eq_some _ _ (by simp; omega) (by simp; exact_mod_cast hle)]
    rw [hr6]
    simp [if_neg h0]

theorem radDecode_complete_shape (c1 : DecCtx) (s' : Sock) (len bufsize nInBuf : Nat)
    (bs : List Byte)
    (hrem : remaining (radAccount c1 bs) = 0) :
    ∃ c4 : DecCtx,
      radDecode c1 s' len bufsize nInBuf bs
        = radSwitch c4 s' len bufsize
            (c1.writePos + bs.length - (bs.length + c1.carrylen + nInBuf))
            (bs.length + c1.carrylen + nInBuf)
      ∧ c4.header = c1.header
      ∧ c4.state = .frameComplete
      ∧ c4.carrylen = 0
      ∧ c4.carryBuf = c1.carryBuf
      ∧ c4.readlen = c1.readlen
      ∧ c4.nReadPayload = c1.nReadPayload + bs.length
      ∧ c4.codeBuf = xorRegionIdx (bufWrite c1.codeBuf c1.writePos bs)
          (c1.writePos + bs.length - (bs.length + c1.carrylen + nInBuf)) 0
          (bs.length + c1.carrylen + nInBuf) c1.header.mask := by
  exact ⟨_, radDecode_eq_complete c1 s' len bufsize nInBuf bs hrem,
    rfl, rfl, rfl, rfl, rfl, rfl, rfl⟩

theorem radDecode_incomplete_shape (c1 : DecCtx) (s' : Sock) (len bufsize nInBuf : Nat)
    (bs : List Byte)
    (hrem : remaining (radAccount c1 bs) ≠ 0)
    (hstate : c1.state ≠ .frameComplete) :
    ∃ c5 : DecCtx,
      radDecode c1 s' len bufsize nInBuf bs
        = radSwitch c5 s' len bufsize
            (c1.writePos + bs.length - (bs.length + c1.carrylen + nInBuf))
            ((bs.length + c1.carrylen + nInBuf)
              - ((bs.length + c1.carrylen + nInBuf)
                - 4 * ((bs.length + c1.carrylen + nInBuf) >>> 2)))
      ∧ c5.header = c1.header
      ∧ c5.state = c1.state
      ∧ c5.readlen = c1.readlen
      ∧ c5.nReadPayload = c1.nReadPayload + bs.length
      ∧ c5.carrylen = (bs.length + c1.carrylen + nInBuf)
          - 4 * ((bs.length + c1.carrylen + nInBuf) >>> 2)
      ∧ c5.codeBuf = xorRegionIdx (bufWrite c1.codeBuf c1.writePos bs)
          (c1.writePos + bs.length - (bs.length + c1.carrylen + nInBuf)) 0
          (4 * ((bs.length + c1.carrylen + nInBuf) >>> 2)) c1.header.mask
      ∧ c5.carryBuf = bufWrite c1.carryBuf 0
          (bufRead
            (xorRegionIdx (bufWrite c1.codeBuf c1.writePos bs)
              (c1.writePos + bs.length - (bs.length + c1.carrylen + nInBuf)) 0
              (4 * ((bs.length + c1.carrylen + nInBuf) >>> 2)) c1.header.mask)
            (c1.writePos + bs.length - (bs.length + c1.carrylen + nInBuf)
              + 4 * ((bs.length + c1.carrylen + nInBuf) >>> 2))
            ((bs.length + c1.carrylen + nInBuf)
              - 4 * ((bs.length + c1.carrylen + nInBuf) >>> 2))) := by
  exact ⟨_, radDecode_eq_incomplete c1 s' len bufsize nInBuf bs hrem hstate,
    rfl, rfl, rfl, rfl, rfl, rfl, rfl⟩

theorem radCarry_region (c0 : DecCtx) (mask payload : List Byte) (hl d cl k : Nat)
    (hclv : c0.carrylen = cl) (hwp : c0.writePos = hl + k)
    (hregion0 : bufRead c0.codeBuf hl k = ((maskPayload mask payload).drop d).take k)
    (hcarry : bufRead c0.carryBuf 0 cl = ((maskPayload mask payload).drop (d + k)).take cl) :
    ∀ i, i < k + cl →
      (radCarry c0).codeBuf (hl + i) = (maskPayload mask payload).getD (d + i) 0 := by
  intro i hi
  have hcl' : (bufRead c0.carryBuf 0 cl).length = cl := bufRead_length _ _ _
  have hm := region_content c0.codeBuf hl k (bufRead c0.carryBuf 0 cl) []
      (maskPayload mask payload) d hregion0 (by rw [hcl']; exact hcarry) (by simp)
      i (by simp [bufRead_length]; omega)
  rw [bufWrite_nil] at hm
  rw [radCarry_codeBuf, hclv, hwp]
  exact hm

theorem radDecode_round_complete (c0 : DecCtx) (s₂ : Sock) (len : Nat)
    (mask payload : List Byte) (hl d cl k : Nat) (bs : List Byte)
    (hop : c0.header.opcode = WS_OPCODE_BINARY_FRAME)
    (hmask : c0.header.mask = mask) (hmask4 : mask.length = 4)
    (hP : c0.header.payloadLen = payload.length) (hP64 : payload.length < 2 ^ 64)
    (hhl : c0.header.headerLen = hl)
    (hst : c0.state = .dataNeeded) (hrl : c0.readlen = 0)
    (hclv : c0.carrylen = cl)
    (hwp : c0.writePos = hl + k)
    (hnr : c0.nReadPayload = d + k + cl)
    (hd4 : d % 4 = 0)
    (hregion0 : bufRead c0.codeBuf hl k = ((maskPayload mask payload).drop d).take k)
    (hcarry : bufRead c0.carryBuf 0 cl = ((maskPayload mask payload).drop (d + k)).take cl)
    (hbsc : bs = ((maskPayload mask payload).drop (d + k + cl)).take bs.length)
    (hfull : d + k + cl + bs.length = payload.length)
    (hlen : payload.length - d ≤ len) :
    (radDecode (radCarry c0) s₂ len (codeBufSize - (radCarry c0).writePos - 1) k bs).out
        = payload.drop d
    ∧ (radDecode (radCarry c0) s₂ len (codeBufSize - (radCarry c0).writePos - 1) k bs).sock = s₂
    ∧ (radDecode (radCarry c0) s₂ len (codeBufSize - (radCarry c0).writePos - 1) k bs).next
        = .frameComplete
    ∧ (radDecode (radCarry c0) s₂ len (codeBufSize - (radCarry c0).writePos - 1) k bs).ret
        = (if payload.length - d = 0 then (-1 : Int) else ((payload.length - d : Nat) : Int))
    ∧ (radDecode (radCarry c0) s₂ len (codeBufSize - (radCarry c0).writePos - 1) k bs).err
        = (if payload.length - d = 0 then Errno.eagain else Errno.enone)
    ∧ (radDecode (radCarry c0) s₂ len (codeBufSize - (radCarry c0).writePos - 1) k bs).ctx.state
        = .frameComplete
    ∧ (radDecode (radCarry c0) s₂ len (codeBufSize - (radCarry c0).writePos - 1) k bs).ctx.header
        = c0.header := by
  have hc1wp : (radCarry c0).writePos = hl + k + cl := by
    rw [radCarry_writePos, hwp, hclv]
  have hc1cl : (radCarry c0).carrylen = cl := by rw [radCarry_carrylen, hclv]
  have hrem : remaining (radAccount (radCarry c0) bs) = 0 := by
    rw [remaining_eq_sub _
      (by simp only [radAccount_nReadPayload, radCarry_nReadPayload, radAccount_header,
            radCarry_header, hnr, hP]; omega)
      (by simp only [radAccount_header, radCarry_header, hP]; exact hP64)]
    simp only [radAccount_nReadPayload, radCarry_nReadPayload, radAccount_header,
      radCarry_header, hnr, hP]
    omega
  obtain ⟨c4, heq, hh4, hst4, hcl4, hcb4, hrl4, hnr4, hcode4⟩ :=
    radDecode_complete_shape (radCarry c0) s₂ len (codeBufSize - (radCarry c0).writePos - 1)
      k bs hrem
  have e1 : (radCarry c0).writePos + bs.length - (bs.length + (radCarry c0).carrylen + k)
      = hl := by
    rw [hc1wp, hc1cl]; omega
  have e2 : bs.length + (radCarry c0).carrylen + k = payload.length - d := by
    rw [hc1cl]; omega
  rw [e1, e2] at heq hcode4
  rw [heq]
  have hrem4 : remaining c4 = 0 := by
    rw [remaining_eq_sub _
      (by rw [hnr4, hh4]; simp only [radCarry_nReadPayload, radCarry_header, hnr, hP]; omega)
      (by rw [hh4]; simp only [radCarry_header, hP]; exact hP64)]
    rw [hnr4, hh4]
    simp only [radCarry_nReadPayload, radCarry_header, hnr, hP]
    omega
  have hfacts := radSwitch_binary_facts c4 s₂ len (codeBufSize - (radCarry c0).writePos - 1)
      hl (payload.length - d)
      (by rw [hh4, radCarry_header, hop]) (by omega)
  rw [hfacts]
  refine ⟨?_, rfl, ?_, rfl, rfl, hst4, by rw [hh4, radCarry_header]⟩
  · show (if payload.length - d = 0 then []
        else bufRead c4.codeBuf hl (payload.length - d)) = payload.drop d
    by_cases hz : payload.length - d = 0
    · rw [if_pos hz]
      exact (List.drop_eq_nil_of_le (by omega)).symm
    · rw [if_neg hz, hcode4, radCarry_header, hmask]
      rw [round_out_content (radCarry c0) mask payload hl d cl k bs
        (payload.length - d) (payload.length - d) hmask4 hc1wp hd4
        (radCarry_region c0 mask payload hl d cl k hclv hwp hregion0 hcarry)
        hbsc (le_refl _) (by omega) (by omega)]
      exact List.take_of_length_le (by rw [List.length_drop])
  · show (if payload.length - d = 0 then c4.state
        else if remaining c4 = 0 then DState.frameComplete else DState.dataNeeded)
      = DState.frameComplete
    by_cases hz : payload.length - d = 0
    · rw [if_pos hz]; exact hst4
    · rw [if_neg hz, if_pos hrem4]

theorem bufRead_bufWrite_of_length (buf : Buf) (p : Nat) (l : List Byte) (n : Nat)
    (h : l.length = n) : bufRead (bufWrite buf p l) p n = l := by
  subst h
  exact bufRead_bufWrite _ _ _

theorem radDecode_round_incomplete (c0 : DecCtx) (s₂ : Sock) (len : Nat)
    (mask payload : List Byte) (hl d cl k : Nat) (bs : List Byte)
    (hop : c0.header.opcode = WS_OPCODE_BINARY_FRAME)
    (hmask : c0.header.mask = mask) (hmask4 : mask.length = 4)
    (hP : c0.header.payloadLen = payload.length) (hP64 : payload.length < 2 ^ 64)
    (hhl : c0.header.headerLen = hl)
    (hst : c0.state = .dataNeeded) (hrl : c0.readlen = 0)
    (hclv : c0.carrylen = cl)
    (hwp : c0.writePos = hl + k)
    (hnr : c0.nReadPayload = d + k + cl)
    (hd4 : d % 4 = 0)
    (hregion0 : bufRead c0.codeBuf hl k = ((maskPayload mask payload).drop d).take k)
    (hcarry : bufRead c0.carryBuf 0 cl = ((maskPayload mask payload).drop (d + k)).take cl)
    (hbsc : bs = ((maskPayload mask payload).drop (d + k + cl)).take bs.length)
    (hlt : d + k + cl + bs.length < payload.length)
    (hlen : bs.length + cl + k ≤ len) :
    (radDecode (radCarry c0) s₂ len (codeBufSize - (radCarry c0).writePos - 1) k bs).out
        = (payload.drop d).take ((bs.length + cl + k) - (bs.length + cl + k) % 4)
    ∧ (radDecode (radCarry c0) s₂ len (codeBufSize - (radCarry c0).writePos - 1) k bs).sock = s₂
    ∧ (radDecode (radCarry c0) s₂ len (codeBufSize - (radCarry c0).writePos - 1) k bs).next
        = .dataNeeded
    ∧ (radDecode (radCarry c0) s₂ len (codeBufSize - (radCarry c0).writePos - 1) k bs).ctx.state
        = .dataNeeded
    ∧ (radDecode (radCarry c0) s₂ len (codeBufSize - (radCarry c0).writePos - 1) k bs).ctx.header
        = c0.header
    ∧ (radDecode (radCarry c0) s₂ len (codeBufSize - (radCarry c0).writePos - 1) k bs).ctx.readlen
        = 0
    ∧ (radDecode (radCarry c0) s₂ len (codeBufSize - (radCarry c0).writePos - 1) k bs).ctx.carrylen
        = (bs.length + cl + k) % 4
    ∧ (radDecode (radCarry c0) s₂ len (codeBufSize - (radCarry c0).writePos - 1) k bs).ctx.writePos
        = hl
    ∧ (radDecode (radCarry c0) s₂ len
          (codeBufSize - (radCarry c0).writePos - 1) k bs).ctx.nReadPayload
        = d + k + cl + bs.length
    ∧ bufRead
        (radDecode (radCarry c0) s₂ len
          (codeBufSize - (radCarry c0).writePos - 1) k bs).ctx.carryBuf 0
        ((bs.length + cl + k) % 4)
        = ((maskPayload mask payload).drop
            (d + ((bs.length + cl + k) - (bs.length + cl + k) % 4))).take
          ((bs.length + cl + k) % 4) := by
  have hc1wp : (radCarry c0).writePos = hl + k + cl := by
    rw [radCarry_writePos, hwp, hclv]
  have hc1cl : (radCarry c0).carrylen = cl := by rw [radCarry_carrylen, hclv]
  have hsh := shiftRight_two_eq (bs.length + cl + k)
  have hrem : remaining (radAccount (radCarry c0) bs) ≠ 0 := by
    rw [remaining_eq_sub _
      (by simp only [radAccount_nReadPayload, radCarry_nReadPayload, radAccount_header,
            radCarry_header, hnr, hP]; omega)
      (by simp only [radAccount_header, radCarry_header, hP]; exact hP64)]
    simp only [radAccount_nReadPayload, radCarry_nReadPayload, radAccount_header,
      radCarry_header, hnr, hP]
    omega
  have hstate : (radCarry c0).state ≠ .frameComplete := by
    rw [radCarry_state, hst]
    exact fun h => DState.noConfusion h
  obtain ⟨c5, heq, hh5, hst5, hrl5, hnr5, hcl5, hcode5, hcb5⟩ :=
    radDecode_incomplete_shape (radCarry c0) s₂ len
      (codeBufSize - (radCarry c0).writePos - 1) k bs hrem hstate
  rw [hc1cl] at heq hcl5 hcode5 hcb5
  have eA : bs.length + cl + k - (bs.length + cl + k - 4 * ((bs.length + cl + k) >>> 2))
      = (bs.length + cl + k) - (bs.length + cl + k) % 4 := by omega
  have eB : (radCarry c0).writePos + bs.length - (bs.length + cl + k) = hl := by
    rw [hc1wp]; omega
  have eC : bs.length + cl + k - 4 * ((bs.length + cl + k) >>> 2)
      = (bs.length + cl + k) % 4 := by omega
  have eE : (radCarry c0).writePos + bs.length - (bs.length + cl + k)
        + 4 * ((bs.length + cl + k) >>> 2)
      = hl + ((bs.length + cl + k) - (bs.length + cl + k) % 4) := by
    rw [hc1wp]; omega
  have eD : 4 * ((bs.length + cl + k) >>> 2)
      = (bs.length + cl + k) - (bs.length + cl + k) % 4 := by omega
  rw [eA] at heq
  rw [eE] at hcb5
  rw [eB] at heq hcode5 hcb5
  rw [eC] at hcl5 hcb5
  rw [eD] at hcode5 hcb5
  rw [heq]
  have hrem5 : remaining c5 ≠ 0 := by
    rw [remaining_eq_sub _
      (by rw [hnr5, hh5]; simp only [radCarry_nReadPayload, radCarry_header, hnr, hP]; omega)
      (by rw [hh5]; simp only [radCarry_header, hP]; exact hP64)]
    rw [hnr5, hh5]
    simp only [radCarry_nReadPayload, radCarry_header, hnr, hP]
    omega
  have hst5' : c5.state = DState.dataNeeded := by rw [hst5, radCarry_state, hst]
  have hfacts := radSwitch_binary_facts c5 s₂ len (codeBufSize - (radCarry c0).writePos - 1)
      hl ((bs.length + cl + k) - (bs.length + cl + k) % 4)
      (by rw [hh5, radCarry_header, hop]) (by omega)
  rw [hfacts]
  refine ⟨?_, rfl, ?_, hst5', by rw [hh5, radCarry_header], rfl, hcl5,
    by rw [hh5, radCarry_header, hhl], by rw [hnr5, radCarry_nReadPayload, hnr], ?_⟩
  · show (if (bs.length + cl + k) - (bs.length + cl + k) % 4 = 0 then []
        else bufRead c5.codeBuf hl ((bs.length + cl + k) - (bs.length + cl + k) % 4))
      = (payload.drop d).take ((bs.length + cl + k) - (bs.length + cl + k) % 4)
    by_cases hzW : (bs.length + cl + k) - (bs.length + cl + k) % 4 = 0
    · rw [if_pos hzW, hzW]
      simp
    · rw [if_neg hzW, hcode5, radCarry_header, hmask]
      exact round_out_content (radCarry c0) mask payload hl d cl k bs
        ((bs.length + cl + k) - (bs.length + cl + k) % 4)
        ((bs.length + cl + k) - (bs.length + cl + k) % 4) hmask4 hc1wp hd4
        (radCarry_region c0 mask payload hl d cl k hclv hwp hregion0 hcarry)
        hbsc (le_refl _) (by omega) (by omega)
  · show (if (bs.length + cl + k) - (bs.length + cl + k) % 4 = 0 then c5.state
        else if remaining c5 = 0 then DState.frameComplete else DState.dataNeeded)
      = DState.dataNeeded
    by_cases hzW : (bs.length + cl + k) - (bs.length + cl + k) % 4 = 0
    · rw [if_pos hzW]; exact hst5'
    · rw [if_neg hzW, if_neg hrem5]
  · show bufRead c5.carryBuf 0 ((bs.length + cl + k) % 4) = _
    rw [hcb5, bufRead_bufWrite_of_length _ _ _ _ (bufRead_length _ _ _)]
    apply List.ext_getElem
    · rw [bufRead_length, List.length_take, List.length_drop, maskPayload_length]
      omega
    · intro i h1 h2
      rw [bufRead_getElem]
      rw [xorRegionIdx_outside _ _ _ _ _ _ (by right; omega)]
      have hassoc : hl + ((bs.length + cl + k) - (bs.length + cl + k) % 4) + i
          = hl + (((bs.length + cl + k) - (bs.length + cl + k) % 4) + i) := by omega
      rw [hassoc]
      have hi4 : i < (bs.length + cl + k) % 4 := by
        rw [bufRead_length] at h1
        exact h1
      rw [round_buf2_content (radCarry c0) mask payload hl d cl k bs hc1wp
        (radCarry_region c0 mask payload hl d cl k hclv hwp hregion0 hcarry)
        hbsc (((bs.length + cl + k) - (bs.length + cl + k) % 4) + i) (by omega)]
      rw [List.getElem_take, List.getElem_drop]
      rw [List.getD_eq_getElem _ _ (by rw [maskPayload_length]; omega)]
      congr 1
      omega

theorem finishRad_sock (w : WsCtx) (r : RadOut) : (finishRad w r).sock = r.sock := rfl

theorem finishRad_err (w : WsCtx) (r : RadOut) : (finishRad w r).err = r.err := rfl

theorem finishRad_dec (w : WsCtx) (r : RadOut) :
    (finishRad w r).wsctx.dec = sporCleanup { r.ctx with state := r.next } := rfl

set_option maxHeartbeats 1000000 in
theorem runCollect_rounds (mask payload : List Byte) (hl len : Nat) :
    ∀ (fuel : Nat) (w : WsCtx) (s : Sock) (d cl : Nat),
    w.dec.state = .dataNeeded →
    w.dec.header.opcode = WS_OPCODE_BINARY_FRAME →
    w.dec.header.fin ≠ 0 →
    w.dec.header.mask = mask → mask.length = 4 →
    w.dec.header.payloadLen = payload.length → payload.length < 2 ^ 64 →
    w.dec.header.headerLen = hl → 2 ≤ hl → hl ≤ WSHLENMAX →
    w.dec.readlen = 0 →
    w.dec.carrylen = cl → cl ≤ 3 →
    w.dec.writePos = hl →
    w.dec.nReadPayload = d + cl →
    d % 4 = 0 →
    bufRead w.dec.carryBuf 0 cl = ((maskPayload mask payload).drop d).take cl →
    sockJoin s = (maskPayload mask payload).drop (d + cl) →
    (∀ c ∈ s, c ≠ []) →
    d + cl < payload.length →
    codeBufSize ≤ len →
    payload.length - (d + cl) < fuel →
    runCollect fuel w s len = payload.drop d := by
  intro fuel
  induction fuel with
  | zero => intro w s d cl _ _ _ _ _ _ _ _ _ _ _ _ _ _ _ _ _ _ _ _ hfuel; omega
  | succ f ih =>
    intro w s d cl hstW hopW hfinW hmaskW hmask4 hPW hP64 hhlW hhl2 hhl14 hrlW hclvW
      hcl3 hwpW hnrW hd4 hcarryW hsockW hneW hltW hlenW hfuel
    have hmplen : (maskPayload mask payload).length = payload.length :=
      maskPayload_length _ _
    have hremc0 : remaining w.dec = payload.length - (d + cl) := by
      rw [remaining_eq_sub _ (by rw [hnrW, hPW]; omega) (by rw [hPW]; exact hP64)]
      rw [hnrW, hPW]
    have hwpc1 : (radCarry w.dec).writePos = hl + cl := by
      rw [radCarry_writePos, hwpW, hclvW]
    have hBpos : 0 < codeBufSize - (radCarry w.dec).writePos - 1 := by
      rw [hwpc1]
      unfold codeBufSize WSHLENMAX
      unfold WSHLENMAX at hhl14
      omega
    have hnrd : 0 < (if codeBufSize - (radCarry w.dec).writePos - 1 < remaining w.dec
        then codeBufSize - (radCarry w.dec).writePos - 1 else remaining w.dec) := by
      rw [hremc0]
      split <;> omega
    obtain ⟨bs, s', hread, hbsne, hbslen, hbspre, hjoin', hne'⟩ :=
      sockRead_spec s _ ((maskPayload mask payload).drop (d + cl)) hsockW hneW hnrd
        (by
          intro hnil
          have := congrArg List.length hnil
          rw [List.length_drop, hmplen] at this
          simp at this
          omega)
    have hbsrem : bs.length ≤ payload.length - (d + cl) := by
      by_cases hc : codeBufSize - (radCarry w.dec).writePos - 1 < remaining w.dec
      · rw [if_pos hc] at hbslen
        rw [hremc0] at hc
        omega
      · rw [if_neg hc] at hbslen
        rw [hremc0] at hbslen
        exact hbslen
    have hbsB : bs.length ≤ codeBufSize - (radCarry w.dec).writePos - 1 := by
      by_cases hc : codeBufSize - (radCarry w.dec).writePos - 1 < remaining w.dec
      · rw [if_pos hc] at hbslen
        exact hbslen
      · rw [if_neg hc] at hbslen
        omega
    have hbsB' : bs.length + cl + hl + 1 ≤ codeBufSize := by
      rw [hwpc1] at hbsB
      omega
    have hbspos : 0 < bs.length := List.length_pos.mpr hbsne
    have hbspre' : bs = ((maskPayload mask payload).drop (d + 0 + cl)).take bs.length := by
      simpa using hbspre
    show (recvStep w s len).out
        ++ runCollect f (recvStep w s len).wsctx (recvStep w s len).sock len
      = payload.drop d
    rw [recvStep_eq_dataNeeded w s len hstW]
    rw [readAndDecode_eq_read w.dec s len 0 bs s' hread hnrd hbsne]
    by_cases hfull : d + 0 + cl + bs.length = payload.length
    · have hs'nil : s' = [] := by
        apply sockJoin_eq_nil s' hne'
        rw [hjoin', List.drop_drop]
        apply List.drop_eq_nil_of_le
        rw [hmplen]
        omega
      subst hs'nil
      obtain ⟨hout, hsock', hnext, hret, herr, hctxst, hctxh⟩ :=
        radDecode_round_complete w.dec [] len mask payload hl d cl 0 bs hopW hmaskW
          hmask4 hPW hP64 hhlW hstW hrlW hclvW (by rw [hwpW]; omega) (by rw [hnrW]; omega) hd4
          (by rw [bufRead_zero]; simp) (by simpa using hcarryW) hbspre' hfull
          (by unfold codeBufSize WSHLENMAX at hbsB' hlenW; omega)
      rw [finishRad_out, hout]
      have hdrain : runCollect f
          (finishRad w (radDecode (radCarry w.dec) [] len
            (codeBufSize - (radCarry w.dec).writePos - 1) 0 bs)).wsctx
          (finishRad w (radDecode (radCarry w.dec) [] len
            (codeBufSize - (radCarry w.dec).writePos - 1) 0 bs)).sock len = [] := by
        rw [finishRad_sock, hsock']
        apply runCollect_drained
        rw [finishRad_dec, hnext]
        rw [sporCleanup_eq_complete _ rfl
          (by show (radDecode (radCarry w.dec) [] len
                (codeBufSize - (radCarry w.dec).writePos - 1) 0 bs).ctx.header.fin ≠ 0
              rw [hctxh]; exact hfinW)
          (by show isControlFrame (radDecode (radCarry w.dec) [] len
                (codeBufSize - (radCarry w.dec).writePos - 1) 0 bs).ctx.header = false
              rw [hctxh]
              unfold isControlFrame
              rw [hopW]
              rfl)]
        exact wsDecodeCleanupComplete_state _
      rw [hdrain, List.append_nil]
    · have hlt' : d + 0 + cl + bs.length < payload.length := by omega
      obtain ⟨hout, hsock', hnext, hctxst, hctxh, hctxrl, hctxcl, hctxwp, hctxnr, hctxcb⟩ :=
        radDecode_round_incomplete w.dec s' len mask payload hl d cl 0 bs hopW hmaskW
          hmask4 hPW hP64 hhlW hstW hrlW hclvW (by rw [hwpW]; omega) (by rw [hnrW]; omega) hd4
          (by rw [bufRead_zero]; simp) (by simpa using hcarryW) hbspre' hlt'
          (by unfold codeBufSize WSHLENMAX at hbsB' hlenW; omega)
      rw [finishRad_out, hout]
      have hcleanid : (finishRad w (radDecode (radCarry w.dec) s' len
            (codeBufSize - (radCarry w.dec).writePos - 1) 0 bs)).wsctx.dec
          = { (radDecode (radCarry w.dec) s' len
                (codeBufSize - (radCarry w.dec).writePos - 1) 0 bs).ctx with
              state := DState.dataNeeded } := by
        rw [finishRad_dec, hnext]
        exact sporCleanup_eq_id _ (fun h => DState.noConfusion h) (fun h => DState.noConfusion h)
      have hstep := ih (finishRad w (radDecode (radCarry w.dec) s' len
            (codeBufSize - (radCarry w.dec).writePos - 1) 0 bs)).wsctx
          (finishRad w (radDecode (radCarry w.dec) s' len
            (codeBufSize - (radCarry w.dec).writePos - 1) 0 bs)).sock
          (d + ((bs.length + cl + 0) - (bs.length + cl + 0) % 4)) ((bs.length + cl + 0) % 4)
          (by rw [hcleanid])
          (by rw [hcleanid]; show (radDecode _ _ _ _ _ _).ctx.header.opcode = _
              rw [hctxh]; exact hopW)
          (by rw [hcleanid]; show (radDecode _ _ _ _ _ _).ctx.header.fin ≠ 0
              rw [hctxh]; exact hfinW)
          (by rw [hcleanid]; show (radDecode _ _ _ _ _ _).ctx.header.mask = mask
              rw [hctxh]; exact hmaskW)
          hmask4
          (by rw [hcleanid]; show (radDecode _ _ _ _ _ _).ctx.header.payloadLen = _
              rw [hctxh]; exact hPW)
          hP64
          (by rw [hcleanid]; show (radDecode _ _ _ _ _ _).ctx.header.headerLen = hl
              rw [hctxh]; exact hhlW)
          hhl2 hhl14
          (by rw [hcleanid]; show (radDecode _ _ _ _ _ _).ctx.readlen = 0
              exact hctxrl)
          (by rw [hcleanid]; show (radDecode _ _ _ _ _ _).ctx.carrylen = _
              exact hctxcl)
          (by omega)
          (by rw [hcleanid]; show (radDecode _ _ _ _ _ _).ctx.writePos = hl
              exact hctxwp)
          (by rw [hcleanid]; show (radDecode _ _ _ _ _ _).ctx.nReadPayload = _
              rw [hctxnr]; omega)
          (by omega)
          (by rw [hcleanid]; show bufRead (radDecode _ _ _ _ _ _).ctx.carryBuf 0 _ = _
              rw [hctxcb])
          (by rw [finishRad_sock, hsock', hjoin', List.drop_drop]
              congr 1
              omega)
          (by rw [finishRad_sock, hsock']; exact hne')
          (by omega)
          hlenW
          (by omega)
      rw [hstep]
      have hdd : payload.drop (d + ((bs.length + cl + 0) - (bs.length + cl + 0) % 4))
          = (payload.drop d).drop ((bs.length + cl + 0) - (bs.length + cl + 0) % 4) := by
        rw [List.drop_drop]
        try congr 1
        try omega
      rw [hdd, List.take_append_drop]

theorem land127_add (p : Nat) (hp : p < 128) : Nat.land (128 + p) 127 = p := by
  have h : (128 + p) &&& 127 = (128 + p) % 128 := Nat.and_pow_two_sub_one_eq_mod _ 7
  show (128 + p) &&& 127 = p
  rw [h]
  omega

theorem land128_add (p : Nat) (hp : p < 128) : Nat.land (128 + p) 128 ≠ 0 := by
  have h : (128 + p) &&& 128 = ((128 + p).testBit 7).toNat * 128 := Nat.and_two_pow _ 7
  have ht : (128 + p).testBit 7 = true := by
    rw [Nat.testBit_to_div_mod]
    simp only [decide_eq_true_eq]
    omega
  show (128 + p) &&& 128 ≠ 0
  rw [h, ht]
  simp

theorem header_buf_content (buf : Buf) (F bs : List Byte) (h : Nat)
    (hbufh : bufRead buf 0 h = F.take h)
    (hbspre : bs = (F.drop h).take bs.length) :
    ∀ i, i < h + bs.length → bufWrite buf h bs i = F.getD i 0 := by
  intro i hi
  rcases Nat.lt_or_ge i h with hlt | hge
  · rw [bufWrite_outside _ _ _ _ (by left; exact hlt)]
    have h1 : (bufRead buf 0 h).getD i 0 = buf (0 + i) := bufRead_getD _ _ _ _ hlt
    rw [hbufh] at h1
    have h2 : (F.take h).getD i 0 = F.getD i 0 := by
      have := slice_getD F 0 h i hlt
      rw [List.drop_zero] at this
      rw [this, Nat.zero_add]
    rw [← h2, h1, Nat.zero_add]
  · rw [bufWrite_inside _ _ _ _ hge (by omega)]
    conv_lhs => rw [hbspre]
    rw [slice_getD _ _ _ _ (by omega)]
    congr 1
    omega

theorem frame_getD_zero (b0 : Byte) (mask payload : List Byte) :
    (mkMaskedFrame b0 mask payload).getD 0 0 = b0 := rfl

theorem frame_getD_succ (b0 : Byte) (mask payload : List Byte) (j : Nat) :
    (mkMaskedFrame b0 mask payload).getD (1 + j) 0
      = (lenFieldBytes payload.length ++ (mask ++ maskPayload mask payload)).getD j 0 := by
  show (b0 :: (lenFieldBytes payload.length ++ mask ++ maskPayload mask payload)).getD (1 + j) 0
    = _
  rw [Nat.add_comm 1 j, List.getD_cons_succ, List.append_assoc]

theorem frame_length (b0 : Byte) (mask payload : List Byte) (hm4 : mask.length = 4) :
    (mkMaskedFrame b0 mask payload).length
      = 5 + (lenFieldBytes payload.length).length + payload.length := by
  show (b0 :: (lenFieldBytes payload.length ++ mask ++ maskPayload mask payload)).length = _
  simp [hm4, maskPayload_length]
  omega

theorem frame_drop_header (b0 : Byte) (mask payload : List Byte) (hm4 : mask.length = 4) :
    (mkMaskedFrame b0 mask payload).drop (5 + (lenFieldBytes payload.length).length)
      = maskPayload mask payload := by
  show (b0 :: (lenFieldBytes payload.length ++ mask ++ maskPayload mask payload)).drop
      (5 + (lenFieldBytes payload.length).length) = _
  have e : 5 + (lenFieldBytes payload.length).length
      = (lenFieldBytes payload.length ++ mask).length + 1 := by
    simp [hm4]
    omega
  rw [e, List.drop_succ_cons]
  exact List.drop_left _ _

theorem lenFieldBytes_short (n : Nat) (h : n < 126) : lenFieldBytes n = [128 + n] := by
  unfold lenFieldBytes
  rw [if_pos h]

theorem lenFieldBytes_ext (n : Nat) (h1 : ¬n < 126) (h2 : n < 65536) :
    lenFieldBytes n = [128 + 126, n >>> 8, n % 256] := by
  unfold lenFieldBytes
  rw [if_neg h1, if_pos h2]

theorem lenFieldBytes_long (n : Nat) (h : ¬n < 65536) :
    lenFieldBytes n = [128 + 127, (n >>> 56) % 256, (n >>> 48) % 256, (n >>> 40) % 256,
      (n >>> 32) % 256, (n >>> 24) % 256, (n >>> 16) % 256, (n >>> 8) % 256, n % 256] := by
  unfold lenFieldBytes
  rw [if_neg (by omega), if_neg h]

theorem lenFieldBytes_length (n : Nat) :
    (lenFieldBytes n).length = if n < 126 then 1 else if n < 65536 then 3 else 9 := by
  by_cases h1 : n < 126
  · rw [lenFieldBytes_short n h1, if_pos h1]
    rfl
  · by_cases h2 : n < 65536
    · rw [lenFieldBytes_ext n h1 h2, if_neg h1, if_pos h2]
      rfl
    · rw [lenFieldBytes_long n h2, if_neg h1, if_neg h2]
      rfl

theorem frame_byte1_short (b0 : Byte) (mask payload : List Byte)
    (hP : payload.length < 126) :
    (mkMaskedFrame b0 mask payload).getD 1 0 = 128 + payload.length := by
  rw [show (1 : Nat) = 1 + 0 from rfl, frame_getD_succ, lenFieldBytes_short _ hP]
  rfl

theorem frame_mask_short (b0 : Byte) (mask payload : List Byte)
    (hP : payload.length < 126) (i : Nat) (hi : i < 4) (hm4 : mask.length = 4) :
    (mkMaskedFrame b0 mask payload).getD (2 + i) 0 = mask.getD i 0 := by
  rw [show 2 + i = 1 + (1 + i) from by omega, frame_getD_succ, lenFieldBytes_short _ hP]
  show ((128 + payload.length) :: (mask ++ maskPayload mask payload)).getD (1 + i) 0 = _
  rw [Nat.add_comm 1 i, List.getD_cons_succ]
  exact List.getD_append _ _ _ _ (by omega)

theorem frame_byte1_ext (b0 : Byte) (mask payload : List Byte)
    (h1 : ¬payload.length < 126) (h2 : payload.length < 65536) :
    (mkMaskedFrame b0 mask payload).getD 1 0 = 128 + 126 := by
  rw [show (1 : Nat) = 1 + 0 from rfl, frame_getD_succ, lenFieldBytes_ext _ h1 h2]
  rfl

theorem frame_byte2_ext (b0 : Byte) (mask payload : List Byte)
    (h1 : ¬payload.length < 126) (h2 : payload.length < 65536) :
    (mkMaskedFrame b0 mask payload).getD 2 0 = payload.length >>> 8 := by
  rw [show (2 : Nat) = 1 + 1 from rfl, frame_getD_succ, lenFieldBytes_ext _ h1 h2]
  rfl

theorem frame_byte3_ext (b0 : Byte) (mask payload : List Byte)
    (h1 : ¬payload.length < 126) (h2 : payload.length < 65536) :
    (mkMaskedFrame b0 mask payload).getD 3 0 = payload.length % 256 := by
  rw [show (3 : Nat) = 1 + 2 from rfl, frame_getD_succ, lenFieldBytes_ext _ h1 h2]
  rfl

theorem frame_mask_ext (b0 : Byte) (mask payload : List Byte)
    (h1 : ¬payload.length < 126) (h2 : payload.length < 65536)
    (i : Nat) (hi : i < 4) (hm4 : mask.length = 4) :
    (mkMaskedFrame b0 mask payload).getD (4 + i) 0 = mask.getD i 0 := by
  rw [show 4 + i = 1 + (3 + i) from by omega, frame_getD_succ, lenFieldBytes_ext _ h1 h2]
  rw [List.getD_append_right _ _ _ _ (by simp)]
  simp only [List.length_cons, List.length_nil]
  rw [show 3 + i - 3 = i from by omega]
  exact List.getD_append _ _ _ _ (by omega)

theorem frame_lenbytes_long (b0 : Byte) (mask payload : List Byte)
    (h2 : ¬payload.length < 65536) (j : Nat) (hj : j < 8) :
    (mkMaskedFrame b0 mask payload).getD (2 + j) 0
      = [(payload.length >>> 56) % 256, (payload.length >>> 48) % 256,
         (payload.length >>> 40) % 256, (payload.length >>> 32) % 256,
         (payload.length >>> 24) % 256, (payload.length >>> 16) % 256,
         (payload.length >>> 8) % 256, payload.length % 256].getD j 0 := by
  rw [show 2 + j = 1 + (1 + j) from by omega, frame_getD_succ, lenFieldBytes_long _ h2]
  rw [List.getD_append _ _ _ _ (by simp; omega)]
  rw [Nat.add_comm 1 j, List.getD_cons_succ]

theorem frame_byte1_long (b0 : Byte) (mask payload : List Byte)
    (h2 : ¬payload.length < 65536) :
    (mkMaskedFrame b0 mask payload).getD 1 0 = 128 + 127 := by
  rw [show (1 : Nat) = 1 + 0 from rfl, frame_getD_succ, lenFieldBytes_long _ h2]
  rfl

theorem frame_mask_long (b0 : Byte) (mask payload : List Byte)
    (h2 : ¬payload.length < 65536)
    (i : Nat) (hi : i < 4) (hm4 : mask.length = 4) :
    (mkMaskedFrame b0 mask payload).getD (10 + i) 0 = mask.getD i 0 := by
  rw [show 10 + i = 1 + (9 + i) from by omega, frame_getD_succ, lenFieldBytes_long _ h2]
  rw [List.getD_append_right _ _ _ _ (by simp)]
  simp only [List.length_cons, List.length_nil]
  rw [show 9 + i - 9 = i from by omega]
  exact List.getD_append _ _ _ _ (by omega)

theorem bufRead_eq_take_of_pointwise (buf : Buf) (F : List Byte) (n : Nat)
    (hn : n ≤ F.length) (hp : ∀ i, i < n → buf i = F.getD i 0) :
    bufRead buf 0 n = F.take n := by
  apply List.ext_getElem
  · rw [bufRead_length, List.length_take]
    omega
  · intro i h1 h2
    rw [bufRead_length] at h1
    have h2' : i < F.length := by omega
    rw [bufRead_getElem, Nat.zero_add]
    rw [hp i (by rw [bufRead_length] at *; omega)]
    rw [List.getElem_take]
    exact List.getD_eq_getElem F 0 h2'

theorem readHeader_small_shape (c0 : DecCtx) (s : Sock) (bs : List Byte) (s' : Sock)
    (hread : sockRead s (WSHLENMAX - c0.header.nDone) = (some bs, s'))
    (hne : bs ≠ [])
    (h2 : c0.header.nDone + bs.length < 2) :
    ∃ cp, readHeader c0 s = .pending cp s'
      ∧ cp.codeBuf = bufWrite c0.codeBuf c0.header.nDone bs
      ∧ cp.header.nDone = c0.header.nDone + bs.length
      ∧ cp.continuation_opcode = c0.continuation_opcode
      ∧ cp.readlen = c0.readlen ∧ cp.carrylen = c0.carrylen
      ∧ cp.nReadPayload = c0.nReadPayload ∧ cp.writePos = c0.writePos
      ∧ cp.carryBuf = c0.carryBuf := by
  have heq : readHeader c0 s = .pending
      { c0 with
        codeBuf := bufWrite c0.codeBuf c0.header.nDone bs,
        header := { c0.header with nDone := c0.header.nDone + bs.length } } s' := by
    unfold readHeader
    rw [hread]
    dsimp only
    rw [if_neg (by simpa [List.isEmpty_iff] using hne)]
    rw [if_pos (by omega)]
  exact ⟨_, heq, rfl, rfl, rfl, rfl, rfl, rfl, rfl, rfl⟩

theorem readHeader_shape (c0 : DecCtx) (s : Sock) (bs : List Byte) (s' : Sock)
    (hread : sockRead s (WSHLENMAX - c0.header.nDone) = (some bs, s'))
    (hne : bs ≠ [])
    (h2 : 2 ≤ c0.header.nDone + bs.length) :
    ∃ c1, readHeader c0 s = parseHeader c1 s'
      ∧ c1.codeBuf = bufWrite c0.codeBuf c0.header.nDone bs
      ∧ c1.header.nDone = c0.header.nDone + bs.length
      ∧ c1.continuation_opcode = c0.continuation_opcode
      ∧ c1.readlen = c0.readlen ∧ c1.carrylen = c0.carrylen
      ∧ c1.nReadPayload = c0.nReadPayload ∧ c1.writePos = c0.writePos
      ∧ c1.state = c0.state ∧ c1.carryBuf = c0.carryBuf := by
  exact ⟨_, readHeader_eq c0 s bs s' hread hne h2, rfl, rfl, rfl, rfl, rfl, rfl, rfl, rfl, rfl⟩

theorem parseHeader_data_shape (c1 : DecCtx) (s' : Sock)
    (hop : Nat.land (Nat.land (c1.codeBuf 0) 15) 8 = 0)
    (hne0 : Nat.land (c1.codeBuf 0) 15 ≠ WS_OPCODE_CONTINUATION) :
    ∃ c2, parseHeader c1 s' = parseHeaderLen c2 s'
      ∧ c2.codeBuf = c1.codeBuf
      ∧ c2.header.nDone = c1.header.nDone
      ∧ c2.header.opcode = Nat.land (c1.codeBuf 0) 15
      ∧ c2.header.fin = Nat.shiftRight (Nat.land (c1.codeBuf 0) 128) 7
      ∧ c2.continuation_opcode
          = (if Nat.shiftRight (Nat.land (c1.codeBuf 0) 128) 7 = 0
              then Nat.land (c1.codeBuf 0) 15 else WS_OPCODE_INVALID)
      ∧ c2.readlen = c1.readlen ∧ c2.carrylen = c1.carrylen
      ∧ c2.nReadPayload = c1.nReadPayload ∧ c2.writePos = c1.writePos
      ∧ c2.state = c1.state ∧ c2.carryBuf = c1.carryBuf := by
  exact ⟨_, parseHeader_eq_data c1 s' hop hne0, rfl, rfl, rfl, rfl, rfl, rfl, rfl, rfl, rfl,
    rfl, rfl⟩

theorem parseHeaderLen_short_shape (c : DecCtx) (s' : Sock)
    (hmaskbit : Nat.land (c.codeBuf 1) 128 ≠ 0)
    (hlen : Nat.land (c.codeBuf 1) 127 < 126)
    (hn : 6 ≤ c.header.nDone) :
    ∃ c3, parseHeaderLen c s' = parseHeaderLen.parseHeaderFinish c3 s'
      ∧ c3.codeBuf = c.codeBuf
      ∧ c3.header.nDone = c.header.nDone
      ∧ c3.header.opcode = c.header.opcode
      ∧ c3.header.fin = c.header.fin
      ∧ c3.header.payloadLen = Nat.land (c.codeBuf 1) 127
      ∧ c3.header.headerLen = WS_HYBI_HEADER_LEN_SHORT_MASKED
      ∧ c3.header.mask = bufRead c.codeBuf 2 4
      ∧ c3.continuation_opcode = c.continuation_opcode
      ∧ c3.readlen = c.readlen ∧ c3.carrylen = c.carrylen
      ∧ c3.nReadPayload = c.nReadPayload ∧ c3.writePos = c.writePos
      ∧ c3.state = c.state ∧ c3.carryBuf = c.carryBuf := by
  exact ⟨_, parseHeaderLen_eq_short c s' hmaskbit hlen hn, rfl, rfl, rfl, rfl, rfl, rfl, rfl,
    rfl, rfl, rfl, rfl, rfl, rfl, rfl⟩

theorem parseHeaderLen_ext_shape (c : DecCtx) (s' : Sock)
    (hmaskbit : Nat.land (c.codeBuf 1) 128 ≠ 0)
    (hlen : Nat.land (c.codeBuf 1) 127 = 126)
    (hn : 8 ≤ c.header.nDone) :
    ∃ c3, parseHeaderLen c s' = parseHeaderLen.parseHeaderFinish c3 s'
      ∧ c3.codeBuf = c.codeBuf
      ∧ c3.header.nDone = c.header.nDone
      ∧ c3.header.opcode = c.header.opcode
      ∧ c3.header.fin = c.header.fin
      ∧ c3.header.payloadLen = c.codeBuf 2 * 256 + c.codeBuf 3
      ∧ c3.header.headerLen = WS_HYBI_HEADER_LEN_EXTENDED_MASKED
      ∧ c3.header.mask = bufRead c.codeBuf 4 4
      ∧ c3.continuation_opcode = c.continuation_opcode
      ∧ c3.readlen = c.readlen ∧ c3.carrylen = c.carrylen
      ∧ c3.nReadPayload = c.nReadPayload ∧ c3.writePos = c.writePos
      ∧ c3.state = c.state ∧ c3.carryBuf = c.carryBuf := by
  exact ⟨_, parseHeaderLen_eq_ext c s' hmaskbit hlen hn, rfl, rfl, rfl, rfl, rfl, rfl, rfl,
    rfl, rfl, rfl, rfl, rfl, rfl, rfl⟩

theorem parseHeaderLen_long_shape (c : DecCtx) (s' : Sock)
    (hmaskbit : Nat.land (c.codeBuf 1) 128 ≠ 0)
    (hlen : Nat.land (c.codeBuf 1) 127 = 127)
    (hn : 14 ≤ c.header.nDone) :
    ∃ c3, parseHeaderLen c s' = parseHeaderLen.parseHeaderFinish c3 s'
      ∧ c3.codeBuf = c.codeBuf
      ∧ c3.header.nDone = c.header.nDone
      ∧ c3.header.opcode = c.header.opcode
      ∧ c3.header.fin = c.header.fin
      ∧ c3.header.payloadLen = ntoh64 (bufRead c.codeBuf 2 8)
      ∧ c3.header.headerLen = WS_HYBI_HEADER_LEN_LONG_MASKED
      ∧ c3.header.mask = bufRead c.codeBuf 10 4
      ∧ c3.continuation_opcode = c.continuation_opcode
      ∧ c3.readlen = c.readlen ∧ c3.carrylen = c.carrylen
      ∧ c3.nReadPayload = c.nReadPayload ∧ c3.writePos = c.writePos
      ∧ c3.state = c.state ∧ c3.carryBuf = c.carryBuf := by
  exact ⟨_, parseHeaderLen_eq_long c s' hmaskbit hlen hn, rfl, rfl, rfl, rfl, rfl, rfl, rfl,
    rfl, rfl, rfl, rfl, rfl, rfl, rfl⟩

theorem parseHeaderLen_pending_shape (c : DecCtx) (s' : Sock)
    (hmaskbit : Nat.land (c.codeBuf 1) 128 ≠ 0)
    (h1 : ¬(Nat.land (c.codeBuf 1) 127 < 126 ∧ 6 ≤ c.header.nDone))
    (h2 : ¬(Nat.land (c.codeBuf 1) 127 = 126 ∧ 8 ≤ c.header.nDone))
    (h3 : ¬(Nat.land (c.codeBuf 1) 127 = 127 ∧ 14 ≤ c.header.nDone)) :
    ∃ cp, parseHeaderLen c s' = .pending cp s'
      ∧ cp.codeBuf = c.codeBuf
      ∧ cp.header.nDone = c.header.nDone
      ∧ cp.continuation_opcode = c.continuation_opcode
      ∧ cp.readlen = c.readlen ∧ cp.carrylen = c.carrylen
      ∧ cp.nReadPayload = c.nReadPayload ∧ cp.writePos = c.writePos
      ∧ cp.carryBuf = c.carryBuf := by
  exact ⟨_, parseHeaderLen_eq_pending c s' hmaskbit h1 h2 h3, rfl, rfl, rfl, rfl, rfl, rfl,
    rfl, rfl⟩

theorem parseHeaderFinish_ok_shape (c : DecCtx) (s' : Sock)
    (hmin : ¬((WS_HYBI_HEADER_LEN_SHORT_MASKED < c.header.headerLen
        ∧ c.header.payloadLen < 126)
      ∨ (WS_HYBI_HEADER_LEN_EXTENDED_MASKED < c.header.headerLen
        ∧ c.header.payloadLen < 65536))) :
    ∃ c4, parseHeaderLen.parseHeaderFinish c s'
        = .ok (c.header.nDone - c.header.headerLen) c4 s'
      ∧ c4.codeBuf = c.codeBuf
      ∧ c4.header = c.header
      ∧ c4.continuation_opcode = c.continuation_opcode
      ∧ c4.readlen = c.readlen ∧ c4.carrylen = c.carrylen
      ∧ c4.nReadPayload = c.header.nDone - c.header.headerLen
      ∧ c4.writePos = c.header.nDone
      ∧ c4.state = c.state ∧ c4.carryBuf = c.carryBuf := by
  exact ⟨_, parseHeaderFinish_eq_ok c s' hmin, rfl, rfl, rfl, rfl, rfl, rfl, rfl, rfl, rfl⟩

theorem readHeader_progress (c0 : DecCtx) (s s' : Sock) (bs : List Byte)
    (mask payload : List Byte) (h hl : Nat)
    (hm4 : mask.length = 4)
    (hhl : hl = if payload.length < 126 then 6
      else if payload.length < 65536 then 8 else 14)
    (hnD : c0.header.nDone = h)
    (hcont : c0.continuation_opcode = WS_OPCODE_INVALID)
    (hbufh : bufRead c0.codeBuf 0 h = (mkMaskedFrame 130 mask payload).take h)
    (hread : sockRead s (WSHLENMAX - c0.header.nDone) = (some bs, s'))
    (hbsne : bs ≠ [])
    (hbspre : bs = ((mkMaskedFrame 130 mask payload).drop h).take bs.length)
    (hlt : h + bs.length < hl) :
    ∃ cp, readHeader c0 s = .pending cp s'
      ∧ cp.header.nDone = h + bs.length
      ∧ bufRead cp.codeBuf 0 (h + bs.length)
          = (mkMaskedFrame 130 mask payload).take (h + bs.length)
      ∧ cp.continuation_opcode = WS_OPCODE_INVALID
      ∧ cp.readlen = c0.readlen ∧ cp.carrylen = c0.carrylen
      ∧ cp.nReadPayload = c0.nReadPayload ∧ cp.writePos = c0.writePos := by
  have hbspos : 0 < bs.length := List.length_pos.mpr hbsne
  have hbuf' := header_buf_content c0.codeBuf (mkMaskedFrame 130 mask payload) bs h
    hbufh hbspre
  have hbslenF : h + bs.length ≤ (mkMaskedFrame 130 mask payload).length := by
    have := congrArg List.length hbspre
    rw [List.length_take, List.length_drop] at this
    omega
  have hcodeBuf : bufRead (bufWrite c0.codeBuf h bs) 0 (h + bs.length)
      = (mkMaskedFrame 130 mask payload).take (h + bs.length) :=
    bufRead_eq_take_of_pointwise _ _ _ hbslenF hbuf'
  by_cases hsmall : h + bs.length < 2
  · obtain ⟨cp, heq, hcb, hnd, hco, hrl, hcl, hnr, hwp, _⟩ :=
      readHeader_small_shape c0 s bs s' hread hbsne (by rw [hnD]; exact hsmall)
    refine ⟨cp, heq, by rw [hnd, hnD], ?_, by rw [hco]; exact hcont, hrl, hcl, hnr, hwp⟩
    rw [hcb, hnD]
    exact hcodeBuf
  · obtain ⟨c1, heq1, hcb1, hnd1, hco1, hrl1, hcl1, hnr1, hwp1, _, _⟩ :=
      readHeader_shape c0 s bs s' hread hbsne (by rw [hnD]; omega)
    have hb0 : c1.codeBuf 0 = 130 := by
      rw [hcb1, hnD, hbuf' 0 (by omega)]
      exact frame_getD_zero _ _ _
    have hb1 : c1.codeBuf 1 = (mkMaskedFrame 130 mask payload).getD 1 0 := by
      rw [hcb1, hnD, hbuf' 1 (by omega)]
    obtain ⟨c2, heq2, hcb2, hnd2, hop2, hfin2, hco2, hrl2, hcl2, hnr2, hwp2, _, _⟩ :=
      parseHeader_data_shape c1 s' (by rw [hb0]; decide) (by rw [hb0]; decide)
    have hnd2' : c2.header.nDone = h + bs.length := by rw [hnd2, hnd1, hnD]
    have hcont2 : c2.continuation_opcode = WS_OPCODE_INVALID := by
      rw [hco2, hb0]
      decide
    have hpend : ∃ cp, parseHeaderLen c2 s' = .pending cp s'
        ∧ cp.codeBuf = c2.codeBuf ∧ cp.header.nDone = c2.header.nDone
        ∧ cp.continuation_opcode = c2.continuation_opcode
        ∧ cp.readlen = c2.readlen ∧ cp.carrylen = c2.carrylen
        ∧ cp.nReadPayload = c2.nReadPayload ∧ cp.writePos = c2.writePos
        ∧ cp.carryBuf = c2.carryBuf := by
      by_cases hA : payload.length < 126
      · have hb1v : c2.codeBuf 1 = 128 + payload.length := by
          rw [hcb2, hb1]
          exact frame_byte1_short _ _ _ hA
        rw [hhl, if_pos hA] at hlt
        exact parseHeaderLen_pending_shape c2 s'
          (by rw [hb1v]; exact land128_add _ (by omega))
          (by rw [hb1v, land127_add _ (by omega), hnd2']; exact fun hx => by omega)
          (by rw [hb1v, land127_add _ (by omega)]; exact fun hx => by omega)
          (by rw [hb1v, land127_add _ (by omega)]; exact fun hx => by omega)
      · by_cases hB : payload.length < 65536
        · have hb1v : c2.codeBuf 1 = 128 + 126 := by
            rw [hcb2, hb1]
            exact frame_byte1_ext _ _ _ hA hB
          rw [hhl, if_neg hA, if_pos hB] at hlt
          exact parseHeaderLen_pending_shape c2 s'
            (by rw [hb1v]; decide)
            (by rw [hb1v, show Nat.land (128 + 126) 127 = 126 from by decide]
                exact fun hx => by omega)
            (by rw [hb1v, show Nat.land (128 + 126) 127 = 126 from by decide, hnd2']
                exact fun hx => by omega)
            (by rw [hb1v, show Nat.land (128 + 126) 127 = 126 from by decide]
                exact fun hx => by omega)
        · have hb1v : c2.codeBuf 1 = 128 + 127 := by
            rw [hcb2, hb1]
            exact frame_byte1_long _ _ _ hB
          rw [hhl, if_neg hA, if_neg hB] at hlt
          exact parseHeaderLen_pending_shape c2 s'
            (by rw [hb1v]; decide)
            (by rw [hb1v, show Nat.land (128 + 127) 127 = 127 from by decide]
                exact fun hx => by omega)
            (by rw [hb1v, show Nat.land (128 + 127) 127 = 127 from by decide]
                exact fun hx => by omega)
            (by rw [hb1v, show Nat.land (128 + 127) 127 = 127 from by decide, hnd2']
                exact fun hx => by omega)
    obtain ⟨cp, heqp, pcb, pnd, pco, prl, pcl, pnr, pwp, _⟩ := hpend
    refine ⟨cp, ?_, ?_, ?_, ?_, ?_, ?_, ?_, ?_⟩
    · rw [heq1, heq2, heqp]
    · rw [pnd, hnd2']
    · rw [pcb, hcb2, hcb1, hnD]
      exact hcodeBuf
    · rw [pco]
      exact hcont2
    · rw [prl, hrl2, hrl1]
    · rw [pcl, hcl2, hcl1]
    · rw [pnr, hnr2, hnr1]
    · rw [pwp, hwp2, hwp1]

theorem frame_getD_payload (b0 : Byte) (mask payload : List Byte) (hm4 : mask.length = 4)
    (i : Nat) (hi : i < payload.length) :
    (mkMaskedFrame b0 mask payload).getD (5 + (lenFieldBytes payload.length).length + i) 0
      = (maskPayload mask payload).getD i 0 := by
  have h1 := slice_getD (mkMaskedFrame b0 mask payload)
    (5 + (lenFieldBytes payload.length).length) (i + 1) i (by omega)
  rw [frame_drop_header b0 mask payload hm4] at h1
  rw [← h1]
  have h2 := slice_getD (maskPayload mask payload) 0 (i + 1) i (by omega)
  rw [List.drop_zero] at h2
  rw [h2, Nat.zero_add]

set_option maxHeartbeats 1000000 in
theorem readHeader_complete (c0 : DecCtx) (s s' : Sock) (bs : List Byte)
    (mask payload : List Byte) (h hl : Nat)
    (hm4 : mask.length = 4) (hP64 : payload.length < 2 ^ 64)
    (hhl : hl = if payload.length < 126 then 6
      else if payload.length < 65536 then 8 else 14)
    (hnD : c0.header.nDone = h)
    (hcont : c0.continuation_opcode = WS_OPCODE_INVALID)
    (hbufh : bufRead c0.codeBuf 0 h = (mkMaskedFrame 130 mask payload).take h)
    (hread : sockRead s (WSHLENMAX - c0.header.nDone) = (some bs, s'))
    (hbsne : bs ≠ [])
    (hbspre : bs = ((mkMaskedFrame 130 mask payload).drop h).take bs.length)
    (hh14 : h + bs.length ≤ WSHLENMAX)
    (hge : hl ≤ h + bs.length) :
    ∃ c', readHeader c0 s = .ok (h + bs.length - hl) c' s'
      ∧ c'.header.opcode = WS_OPCODE_BINARY_FRAME
      ∧ c'.header.fin = 1
      ∧ c'.header.payloadLen = payload.length
      ∧ c'.header.mask = mask
      ∧ c'.header.headerLen = hl
      ∧ c'.readlen = c0.readlen
      ∧ c'.carrylen = c0.carrylen
      ∧ c'.nReadPayload = h + bs.length - hl
      ∧ c'.writePos = h + bs.length
      ∧ bufRead c'.codeBuf hl (h + bs.length - hl)
          = (maskPayload mask payload).take (h + bs.length - hl) := by
  have hbspos : 0 < bs.length := List.length_pos.mpr hbsne
  have hbuf' := header_buf_content c0.codeBuf (mkMaskedFrame 130 mask payload) bs h
    hbufh hbspre
  have hbslenF : h + bs.length ≤ (mkMaskedFrame 130 mask payload).length := by
    have := congrArg List.length hbspre
    rw [List.length_take, List.length_drop] at this
    omega
  have hhl2 : 2 ≤ hl := by rw [hhl]; split <;> [omega; (split <;> omega)]
  obtain ⟨c1, heq1, hcb1, hnd1, hco1, hrl1, hcl1, hnr1, hwp1, _, _⟩ :=
    readHeader_shape c0 s bs s' hread hbsne (by rw [hnD]; omega)
  have hb0 : c1.codeBuf 0 = 130 := by
    rw [hcb1, hnD, hbuf' 0 (by omega)]
    exact frame_getD_zero _ _ _
  have hb1 : c1.codeBuf 1 = (mkMaskedFrame 130 mask payload).getD 1 0 := by
    rw [hcb1, hnD, hbuf' 1 (by omega)]
  obtain ⟨c2, heq2, hcb2, hnd2, hop2, hfin2, hco2, hrl2, hcl2, hnr2, hwp2, _, _⟩ :=
    parseHeader_data_shape c1 s' (by rw [hb0]; decide) (by rw [hb0]; decide)
  have hnd2' : c2.header.nDone = h + bs.length := by rw [hnd2, hnd1, hnD]
  have hop2' : c2.header.opcode = WS_OPCODE_BINARY_FRAME := by
    rw [hop2, hb0]
    decide
  have hfin2' : c2.header.fin = 1 := by
    rw [hfin2, hb0]
    decide
  have hmaskread : ∀ X : Nat, X + 4 ≤ h + bs.length →
      (∀ i, i < 4 → (mkMaskedFrame 130 mask payload).getD (X + i) 0 = mask.getD i 0) →
      bufRead c2.codeBuf X 4 = mask := by
    intro X hX hFm
    apply List.ext_getElem
    · rw [bufRead_length, hm4]
    · intro i h1 h2
      rw [bufRead_length] at h1
      rw [bufRead_getElem, hcb2, hcb1, hnD, hbuf' (X + i) (by omega), hFm i h1]
      exact List.getD_eq_getElem _ _ h2
  have hregion : ∀ hlv : Nat, hlv = 5 + (lenFieldBytes payload.length).length →
      ∀ cB : Buf, cB = c2.codeBuf →
      bufRead cB hlv (h + bs.length - hlv)
        = (maskPayload mask payload).take (h + bs.length - hlv) := by
    intro hlv hhlv cB hcB
    subst hhlv
    subst hcB
    have hFlen : (mkMaskedFrame 130 mask payload).length
        = 5 + (lenFieldBytes payload.length).length + payload.length :=
      frame_length _ _ _ hm4
    apply List.ext_getElem
    · rw [bufRead_length, List.length_take, maskPayload_length]
      omega
    · intro i h1 h2
      rw [bufRead_length] at h1
      rw [bufRead_getElem, hcb2, hcb1, hnD,
        hbuf' (5 + (lenFieldBytes payload.length).length + i) (by omega)]
      rw [frame_getD_payload _ _ _ hm4 i (by omega)]
      rw [List.getElem_take]
      exact List.getD_eq_getElem _ _ (by rw [maskPayload_length]; omega)
  by_cases hA : payload.length < 126
  · have hb1v : c2.codeBuf 1 = 128 + payload.length := by
      rw [hcb2, hb1]
      exact frame_byte1_short _ _ _ hA
    rw [hhl, if_pos hA] at hge ⊢
    obtain ⟨c3, heq3, hcb3, hnd3, hop3, hfin3, hpl3, hhl3, hmask3, hco3, hrl3, hcl3,
        hnr3, hwp3, _, _⟩ :=
      parseHeaderLen_short_shape c2 s'
        (by rw [hb1v]; exact land128_add _ (by omega))
        (by rw [hb1v, land127_add _ (by omega)]; omega)
        (by rw [hnd2']; omega)
    have hpl3' : c3.header.payloadLen = payload.length := by
      rw [hpl3, hb1v, land127_add _ (by omega)]
    obtain ⟨c4, heq4, hcb4, hh4, hco4, hrl4, hcl4, hnr4, hwp4, _, _⟩ :=
      parseHeaderFinish_ok_shape c3 s'
        (by
          intro hx
          rw [hhl3, hpl3'] at hx
          unfold WS_HYBI_HEADER_LEN_SHORT_MASKED WS_HYBI_HEADER_LEN_EXTENDED_MASKED at hx
          rcases hx with ⟨hy, _⟩ | ⟨hy, _⟩ <;> omega)
    refine ⟨c4, ?_, ?_, ?_, ?_, ?_, ?_, ?_, ?_, ?_, ?_, ?_⟩
    · rw [heq1, heq2, heq3, heq4, hnd3, hhl3, hnd2']
      rfl
    · rw [hh4, hop3, hop2']
    · rw [hh4, hfin3, hfin2']
    · rw [hh4, hpl3']
    · rw [hh4, hmask3]
      exact hmaskread 2 (by omega) (fun i hi => frame_mask_short _ _ _ hA i hi hm4)
    · rw [hh4, hhl3]
      rfl
    · rw [hrl4, hrl3, hrl2, hrl1]
    · rw [hcl4, hcl3, hcl2, hcl1]
    · rw [hnr4, hnd3, hhl3, hnd2']
      rfl
    · rw [hwp4, hnd3, hnd2']
    · rw [hcb4, hcb3]
      exact hregion 6 (by rw [lenFieldBytes_length, if_pos hA]) c2.codeBuf rfl
  · by_cases hB : payload.length < 65536
    · have hb1v : c2.codeBuf 1 = 128 + 126 := by
        rw [hcb2, hb1]
        exact frame_byte1_ext _ _ _ hA hB
      have hb2v : c2.codeBuf 2 = payload.length >>> 8 := by
        rw [hcb2, hcb1, hnD, hbuf' 2 (by rw [hhl, if_neg hA, if_pos hB] at hge; omega)]
        exact frame_byte2_ext _ _ _ hA hB
      have hb3v : c2.codeBuf 3 = payload.length % 256 := by
        rw [hcb2, hcb1, hnD, hbuf' 3 (by rw [hhl, if_neg hA, if_pos hB] at hge; omega)]
        exact frame_byte3_ext _ _ _ hA hB
      rw [hhl, if_neg hA, if_pos hB] at hge ⊢
      obtain ⟨c3, heq3, hcb3, hnd3, hop3, hfin3, hpl3, hhl3, hmask3, hco3, hrl3, hcl3,
          hnr3, hwp3, _, _⟩ :=
        parseHeaderLen_ext_shape c2 s'
          (by rw [hb1v]; decide)
          (by rw [hb1v]; decide)
          (by rw [hnd2']; omega)
      have hpl3' : c3.header.payloadLen = payload.length := by
        rw [hpl3, hb2v, hb3v]
        omega
      obtain ⟨c4, heq4, hcb4, hh4, hco4, hrl4, hcl4, hnr4, hwp4, _, _⟩ :=
        parseHeaderFinish_ok_shape c3 s'
          (by
            intro hx
            rw [hhl3, hpl3'] at hx
            unfold WS_HYBI_HEADER_LEN_SHORT_MASKED WS_HYBI_HEADER_LEN_EXTENDED_MASKED at hx
            rcases hx with ⟨_, hy⟩ | ⟨hy, _⟩ <;> omega)
      refine ⟨c4, ?_, ?_, ?_, ?_, ?_, ?_, ?_, ?_, ?_, ?_, ?_⟩
      · rw [heq1, heq2, heq3, heq4, hnd3, hhl3, hnd2']
        rfl
      · rw [hh4, hop3, hop2']
      · rw [hh4, hfin3, hfin2']
      · rw [hh4, hpl3']
      · rw [hh4, hmask3]
        exact hmaskread 4 (by omega) (fun i hi => frame_mask_ext _ _ _ hA hB i hi hm4)
      · rw [hh4, hhl3]
        rfl
      · rw [hrl4, hrl3, hrl2, hrl1]
      · rw [hcl4, hcl3, hcl2, hcl1]
      · rw [hnr4, hnd3, hhl3, hnd2']
        rfl
      · rw [hwp4, hnd3, hnd2']
      · rw [hcb4, hcb3]
        exact hregion 8 (by rw [lenFieldBytes_length, if_neg hA, if_pos hB]) c2.codeBuf rfl
    · have hb1v : c2.codeBuf 1 = 128 + 127 := by
        rw [hcb2, hb1]
        exact frame_byte1_long _ _ _ hB
      rw [hhl, if_neg hA, if_neg hB] at hge ⊢
      have hlenbytes : ∀ j, j < 8 → c2.codeBuf (2 + j)
          = [(payload.length >>> 56) % 256, (payload.length >>> 48) % 256,
             (payload.length >>> 40) % 256, (payload.length >>> 32) % 256,
             (payload.length >>> 24) % 256, (payload.length >>> 16) % 256,
             (payload.length >>> 8) % 256, payload.length % 256].getD j 0 := by
        intro j hj
        rw [hcb2, hcb1, hnD, hbuf' (2 + j) (by omega)]
        exact frame_lenbytes_long _ _ _ hB j hj
      obtain ⟨c3, heq3, hcb3, hnd3, hop3, hfin3, hpl3, hhl3, hmask3, hco3, hrl3, hcl3,
          hnr3, hwp3, _, _⟩ :=
        parseHeaderLen_long_shape c2 s'
          (by rw [hb1v]; decide)
          (by rw [hb1v]; decide)
          (by rw [hnd2']; omega)
      have hbr8 : bufRead c2.codeBuf 2 8
          = [(payload.length >>> 56) % 256, (payload.length >>> 48) % 256,
             (payload.length >>> 40) % 256, (payload.length >>> 32) % 256,
             (payload.length >>> 24) % 256, (payload.length >>> 16) % 256,
             (payload.length >>> 8) % 256, payload.length % 256] := by
        apply List.ext_getElem
        · rw [bufRead_length]
          rfl
        · intro i h1 h2
          rw [bufRead_length] at h1
          rw [bufRead_getElem, hlenbytes i h1]
          exact List.getD_eq_getElem _ _ h2
      have hpl3' : c3.header.payloadLen = payload.length := by
        rw [hpl3, hbr8]
        unfold ntoh64
        simp only [List.foldl_cons, List.foldl_nil]
        omega
      obtain ⟨c4, heq4, hcb4, hh4, hco4, hrl4, hcl4, hnr4, hwp4, _, _⟩ :=
        parseHeaderFinish_ok_shape c3 s'
          (by
            intro hx
            rw [hhl3, hpl3'] at hx
            rcases hx with ⟨_, hy⟩ | ⟨_, hy⟩ <;> omega)
      refine ⟨c4, ?_, ?_, ?_, ?_, ?_, ?_, ?_, ?_, ?_, ?_, ?_⟩
      · rw [heq1, heq2, heq3, heq4, hnd3, hhl3, hnd2']
        rfl
      · rw [hh4, hop3, hop2']
      · rw [hh4, hfin3, hfin2']
      · rw [hh4, hpl3']
      · rw [hh4, hmask3]
        exact hmaskread 10 (by omega) (fun i hi => frame_mask_long _ _ _ hB i hi hm4)
      · rw [hh4, hhl3]
        rfl
      · rw [hrl4, hrl3, hrl2, hrl1]
      · rw [hcl4, hcl3, hcl2, hcl1]
      · rw [hnr4, hnd3, hhl3, hnd2']
        rfl
      · rw [hwp4, hnd3, hnd2']
      · rw [hcb4, hcb3]
        exact hregion 14 (by rw [lenFieldBytes_length, if_neg hA, if_neg hB]) c2.codeBuf rfl

theorem frame_length_hl (mask payload : List Byte) (hm4 : mask.length = 4) :
    (mkMaskedFrame 130 mask payload).length
      = (if payload.length < 126 then 6 else if payload.length < 65536 then 8 else 14)
        + payload.length := by
  rw [frame_length _ _ _ hm4, lenFieldBytes_length]
  by_cases hA : payload.length < 126
  · rw [if_pos hA, if_pos hA]
  · by_cases hB : payload.length < 65536
    · rw [if_neg hA, if_pos hB, if_neg hA, if_pos hB]
    · rw [if_neg hA, if_neg hB, if_neg hA, if_neg hB]

set_option maxHeartbeats 2000000 in
theorem runCollect_frame (mask payload : List Byte) (len : Nat)
    (hm4 : mask.length = 4) (hP64 : payload.length < 2 ^ 64) (hlenB : codeBufSize ≤ len) :
    ∀ fuel (w : WsCtx) (s : Sock) (h : Nat),
    w.dec.state = .headerPending →
    w.dec.header.nDone = h →
    w.dec.continuation_opcode = WS_OPCODE_INVALID →
    bufRead w.dec.codeBuf 0 h = (mkMaskedFrame 130 mask payload).take h →
    w.dec.readlen = 0 → w.dec.carrylen = 0 → w.dec.nReadPayload = 0 → w.dec.writePos = 0 →
    sockJoin s = (mkMaskedFrame 130 mask payload).drop h →
    (∀ c ∈ s, c ≠ []) →
    h < (if payload.length < 126 then 6 else if payload.length < 65536 then 8 else 14) →
    (mkMaskedFrame 130 mask payload).length - h < fuel →
    runCollect fuel w s len = payload := by
  intro fuel
  induction fuel with
  | zero => intro w s h _ _ _ _ _ _ _ _ _ _ _ hfuel; omega
  | succ f ih =>
    intro w s h hstW hndW hcoW hbufW hrlW hclW hnrW hwpW hsockW hneW hlty hfuel
    have hhl6 : 6 ≤ (if payload.length < 126 then 6
        else if payload.length < 65536 then 8 else 14) := by
      split <;> [omega; (split <;> omega)]
    have hhl14 : (if payload.length < 126 then 6
        else if payload.length < 65536 then 8 else 14) ≤ 14 := by
      split <;> [omega; (split <;> omega)]
    have hFlen := frame_length_hl mask payload hm4
    obtain ⟨bs, s', hread, hbsne, hbslen, hbspre, hjoin', hne'⟩ :=
      sockRead_spec s (WSHLENMAX - w.dec.header.nDone)
        ((mkMaskedFrame 130 mask payload).drop h) hsockW hneW
        (by rw [hndW]; unfold WSHLENMAX; omega)
        (by
          intro hnil
          have := congrArg List.length hnil
          rw [List.length_drop] at this
          simp at this
          omega)
    have hbspos : 0 < bs.length := List.length_pos.mpr hbsne
    have hh14 : h + bs.length ≤ WSHLENMAX := by
      rw [hndW] at hbslen
      unfold WSHLENMAX at *
      omega
    show (recvStep w s len).out
        ++ runCollect f (recvStep w s len).wsctx (recvStep w s len).sock len = payload
    rw [recvStep_eq_headerPending w s len hstW]
    by_cases hcase : h + bs.length < (if payload.length < 126 then 6
        else if payload.length < 65536 then 8 else 14)
    · obtain ⟨cp, heqP, pnd, pbuf, pco, prl, pcl, pnr, pwp⟩ :=
        readHeader_progress w.dec s s' bs mask payload h _ hm4 rfl hndW hcoW hbufW
          hread hbsne hbspre hcase
      rw [heqP]
      dsimp only
      rw [List.nil_append]
      have hclean : sporCleanup { cp with state := DState.headerPending }
          = { cp with state := DState.headerPending } :=
        sporCleanup_eq_id _ (fun hx => DState.noConfusion hx) (fun hx => DState.noConfusion hx)
      apply ih { w with dec := sporCleanup { cp with state := DState.headerPending } } s'
        (h + bs.length)
      · rw [hclean]
      · rw [hclean]
        show cp.header.nDone = h + bs.length
        exact pnd
      · rw [hclean]
        show cp.continuation_opcode = _
        exact pco
      · rw [hclean]
        show bufRead cp.codeBuf 0 (h + bs.length) = _
        exact pbuf
      · rw [hclean]
        show cp.readlen = 0
        rw [prl]
        exact hrlW
      · rw [hclean]
        show cp.carrylen = 0
        rw [pcl]
        exact hclW
      · rw [hclean]
        show cp.nReadPayload = 0
        rw [pnr]
        exact hnrW
      · rw [hclean]
        show cp.writePos = 0
        rw [pwp]
        exact hwpW
      · rw [hjoin', List.drop_drop]
        try congr 1
        try omega
      · exact hne'
      · exact hcase
      · omega
    · have hge : (if payload.length < 126 then 6
          else if payload.length < 65536 then 8 else 14) ≤ h + bs.length := by omega
      obtain ⟨c', heqO, hop', hfin', hpl', hmask', hhl', hrl', hcl', hnr', hwp', hreg'⟩ :=
        readHeader_complete w.dec s s' bs mask payload h _ hm4 hP64 rfl hndW hcoW hbufW
          hread hbsne hbspre hh14 hge
      rw [heqO]
      dsimp only
      have hrl'' : c'.readlen = 0 := by rw [hrl']; exact hrlW
      have hcl'' : c'.carrylen = 0 := by rw [hcl']; exact hclW
      have hkP : h + bs.length - (if payload.length < 126 then 6
          else if payload.length < 65536 then 8 else 14) ≤ payload.length := by
        have := congrArg List.length hbspre
        rw [List.length_take, List.length_drop] at this
        omega
      by_cases hkfull : h + bs.length - (if payload.length < 126 then 6
          else if payload.length < 65536 then 8 else 14) = payload.length
      · -- the whole payload arrived with the header bytes
        have hs'nil : s' = [] := by
          apply sockJoin_eq_nil s' hne'
          rw [hjoin', List.drop_drop]
          apply List.drop_eq_nil_of_le
          omega
        subst hs'nil
        have hremz : remaining { c' with state := DState.dataNeeded } = 0 := by
          rw [remaining_eq_sub _ ?h1 ?h2]
          · show c'.header.payloadLen - c'.nReadPayload = 0
            rw [hpl', hnr']
            omega
          case h1 =>
            show c'.nReadPayload ≤ c'.header.payloadLen
            rw [hpl', hnr']
            omega
          case h2 =>
            show c'.header.payloadLen < 2 ^ 64
            rw [hpl']
            exact hP64
        rw [readAndDecode_eq_noread _ _ _ _ hremz]
        have hwpD : c'.writePos = (if payload.length < 126 then 6
            else if payload.length < 65536 then 8 else 14)
            + (h + bs.length - (if payload.length < 126 then 6
              else if payload.length < 65536 then 8 else 14)) := by
          rw [hwp']
          omega
        have hnrD : c'.nReadPayload = 0 + (h + bs.length - (if payload.length < 126 then 6
            else if payload.length < 65536 then 8 else 14)) + 0 := by
          rw [hnr']
          omega
        have hregD : bufRead c'.codeBuf (if payload.length < 126 then 6
            else if payload.length < 65536 then 8 else 14)
            (h + bs.length - (if payload.length < 126 then 6
              else if payload.length < 65536 then 8 else 14))
            = ((maskPayload mask payload).drop 0).take (h + bs.length
              - (if payload.length < 126 then 6
                else if payload.length < 65536 then 8 else 14)) := by
          rw [List.drop_zero]
          exact hreg'
        obtain ⟨hout, hsock', hnext, hret, herr, hctxst, hctxh⟩ :=
          radDecode_round_complete { c' with state := DState.dataNeeded } [] len mask payload
            (if payload.length < 126 then 6 else if payload.length < 65536 then 8 else 14)
            0 0 (h + bs.length - (if payload.length < 126 then 6
              else if payload.length < 65536 then 8 else 14)) []
            hop' hmask' hm4 hpl' hP64 hhl' rfl hrl'' hcl'' hwpD hnrD
            (by omega)
            hregD
            (by
              show bufRead c'.carryBuf 0 0 = _
              rw [bufRead_zero]
              simp)
            (by simp)
            (by simp; omega)
            (by
              unfold codeBufSize at hlenB
              unfold WSHLENMAX at hlenB hh14
              omega)
        rw [finishRad_out, hout, List.drop_zero]
        have hdrain : runCollect f
            (finishRad w (radDecode (radCarry { c' with state := DState.dataNeeded }) [] len
              (codeBufSize - (radCarry { c' with state := DState.dataNeeded }).writePos - 1)
              (h + bs.length - (if payload.length < 126 then 6
                else if payload.length < 65536 then 8 else 14)) [])).wsctx
            (finishRad w (radDecode (radCarry { c' with state := DState.dataNeeded }) [] len
              (codeBufSize - (radCarry { c' with state := DState.dataNeeded }).writePos - 1)
              (h + bs.length - (if payload.length < 126 then 6
                else if payload.length < 65536 then 8 else 14)) [])).sock len = [] := by
          rw [finishRad_sock, hsock']
          apply runCollect_drained
          rw [finishRad_dec, hnext]
          rw [sporCleanup_eq_complete _ rfl
            (by show (radDecode _ _ _ _ _ _).ctx.header.fin ≠ 0
                rw [hctxh]
                show c'.header.fin ≠ 0
                rw [hfin']
                omega)
            (by show isControlFrame (radDecode _ _ _ _ _ _).ctx.header = false
                rw [hctxh]
                show isControlFrame c'.header = false
                unfold isControlFrame
                rw [hop']
                rfl)]
          exact wsDecodeCleanupComplete_state _
        rw [hdrain, List.append_nil]
      · -- more payload to read from the socket in this same call
        have hklt : h + bs.length - (if payload.length < 126 then 6
            else if payload.length < 65536 then 8 else 14) < payload.length := by omega
        have hwpc1 : (radCarry { c' with state := DState.dataNeeded }).writePos
            = h + bs.length := by
          rw [radCarry_writePos]
          show c'.writePos + c'.carrylen = _
          rw [hwp', hcl'']
          omega
        have hremc0 : remaining { c' with state := DState.dataNeeded }
            = payload.length - (h + bs.length - (if payload.length < 126 then 6
              else if payload.length < 65536 then 8 else 14)) := by
          rw [remaining_eq_sub _ ?h1 ?h2]
          · show c'.header.payloadLen - c'.nReadPayload = _
            rw [hpl', hnr']
          case h1 =>
            show c'.nReadPayload ≤ c'.header.payloadLen
            rw [hpl', hnr']
            omega
          case h2 =>
            show c'.header.payloadLen < 2 ^ 64
            rw [hpl']
            exact hP64
        have hBpos : 0 < codeBufSize
            - (radCarry { c' with state := DState.dataNeeded }).writePos - 1 := by
          rw [hwpc1]
          unfold codeBufSize WSHLENMAX at *
          omega
        have hnrd : 0 < (if codeBufSize
              - (radCarry { c' with state := DState.dataNeeded }).writePos - 1
              < remaining { c' with state := DState.dataNeeded }
            then codeBufSize - (radCarry { c' with state := DState.dataNeeded }).writePos - 1
            else remaining { c' with state := DState.dataNeeded }) := by
          by_cases hc : codeBufSize
              - (radCarry { c' with state := DState.dataNeeded }).writePos - 1
              < remaining { c' with state := DState.dataNeeded }
          · rw [if_pos hc]
            exact hBpos
          · rw [if_neg hc, hremc0]
            omega
        obtain ⟨bs₂, s₂, hread₂, hbsne₂, hbslen₂, hbspre₂, hjoin₂, hne₂⟩ :=
          sockRead_spec s' _
            ((maskPayload mask payload).drop (h + bs.length
              - (if payload.length < 126 then 6
                else if payload.length < 65536 then 8 else 14))) (by
              rw [hjoin', List.drop_drop]
              have hdh' : maskPayload mask payload
                  = (mkMaskedFrame 130 mask payload).drop
                    (if payload.length < 126 then 6
                      else if payload.length < 65536 then 8 else 14) := by
                rw [show (if payload.length < 126 then 6
                    else if payload.length < 65536 then 8 else 14)
                    = 5 + (lenFieldBytes payload.length).length from by
                  rw [lenFieldBytes_length]
                  by_cases hA : payload.length < 126
                  · rw [if_pos hA, if_pos hA]
                  · by_cases hB : payload.length < 65536
                    · rw [if_neg hA, if_pos hB, if_neg hA, if_pos hB]
                    · rw [if_neg hA, if_neg hB, if_neg hA, if_neg hB]]
                exact (frame_drop_header 130 mask payload hm4).symm
              rw [hdh', List.drop_drop]
              congr 1
              omega)
            hne' hnrd
            (by
              intro hnil
              have := congrArg List.length hnil
              rw [List.length_drop, maskPayload_length] at this
              simp at this
              omega)
        have hbspos₂ : 0 < bs₂.length := List.length_pos.mpr hbsne₂
        have hbsB₂ : bs₂.length ≤ codeBufSize
            - (radCarry { c' with state := DState.dataNeeded }).writePos - 1 := by
          by_cases hc : codeBufSize
              - (radCarry { c' with state := DState.dataNeeded }).writePos - 1
              < remaining { c' with state := DState.dataNeeded }
          · rw [if_pos hc] at hbslen₂
            exact hbslen₂
          · rw [if_neg hc] at hbslen₂
            rw [hremc0] at hc
            rw [hremc0] at hbslen₂
            omega
        have hbsrem₂ : bs₂.length ≤ payload.length - (h + bs.length
            - (if payload.length < 126 then 6
              else if payload.length < 65536 then 8 else 14)) := by
          by_cases hc : codeBufSize
              - (radCarry { c' with state := DState.dataNeeded }).writePos - 1
              < remaining { c' with state := DState.dataNeeded }
          · rw [if_pos hc] at hbslen₂
            rw [hremc0] at hc
            omega
          · rw [if_neg hc] at hbslen₂
            rw [hremc0] at hbslen₂
            exact hbslen₂
        rw [readAndDecode_eq_read { c' with state := DState.dataNeeded } s' len _ bs₂ s₂
          hread₂ hnrd hbsne₂]
        have hwpD : c'.writePos = (if payload.length < 126 then 6
            else if payload.length < 65536 then 8 else 14)
            + (h + bs.length - (if payload.length < 126 then 6
              else if payload.length < 65536 then 8 else 14)) := by
          rw [hwp']
          omega
        have hnrD : c'.nReadPayload = 0 + (h + bs.length - (if payload.length < 126 then 6
            else if payload.length < 65536 then 8 else 14)) + 0 := by
          rw [hnr']
          omega
        have hregD : bufRead c'.codeBuf (if payload.length < 126 then 6
            else if payload.length < 65536 then 8 else 14)
            (h + bs.length - (if payload.length < 126 then 6
              else if payload.length < 65536 then 8 else 14))
            = ((maskPayload mask payload).drop 0).take (h + bs.length
              - (if payload.length < 126 then 6
                else if payload.length < 65536 then 8 else 14)) := by
          rw [List.drop_zero]
          exact hreg'
        have hbspre₂' : bs₂ = ((maskPayload mask payload).drop
            (0 + (h + bs.length - (if payload.length < 126 then 6
              else if payload.length < 65536 then 8 else 14)) + 0)).take bs₂.length := by
          simpa using hbspre₂
        have hbsB₂' : bs₂.length ≤ codeBufSize - (h + bs.length) - 1 := by
          rw [hwpc1] at hbsB₂
          exact hbsB₂
        by_cases hfull₂ : 0 + (h + bs.length - (if payload.length < 126 then 6
            else if payload.length < 65536 then 8 else 14)) + 0 + bs₂.length
            = payload.length
        · have hs₂nil : s₂ = [] := by
            apply sockJoin_eq_nil s₂ hne₂
            rw [hjoin₂, List.drop_drop]
            apply List.drop_eq_nil_of_le
            rw [maskPayload_length]
            omega
          subst hs₂nil
          obtain ⟨hout, hsock', hnext, hret, herr, hctxst, hctxh⟩ :=
            radDecode_round_complete { c' with state := DState.dataNeeded } [] len mask payload
              (if payload.length < 126 then 6 else if payload.length < 65536 then 8 else 14)
              0 0 (h + bs.length - (if payload.length < 126 then 6
                else if payload.length < 65536 then 8 else 14)) bs₂
              hop' hmask' hm4 hpl' hP64 hhl' rfl hrl'' hcl'' hwpD hnrD
              (by omega)
              hregD
              (by
                show bufRead c'.carryBuf 0 0 = _
                rw [bufRead_zero]
                simp)
              hbspre₂' hfull₂
              (by
                unfold codeBufSize at hlenB hbsB₂'
                omega)
          rw [finishRad_out, hout, List.drop_zero]
          have hdrain : runCollect f
              (finishRad w (radDecode (radCarry { c' with state := DState.dataNeeded }) [] len
                (codeBufSize - (radCarry { c' with state := DState.dataNeeded }).writePos - 1)
                (h + bs.length - (if payload.length < 126 then 6
                  else if payload.length < 65536 then 8 else 14)) bs₂)).wsctx
              (finishRad w (radDecode (radCarry { c' with state := DState.dataNeeded }) [] len
                (codeBufSize - (radCarry { c' with state := DState.dataNeeded }).writePos - 1)
                (h + bs.length - (if payload.length < 126 then 6
                  else if payload.length < 65536 then 8 else 14)) bs₂)).sock len = [] := by
            rw [finishRad_sock, hsock']
            apply runCollect_drained
            rw [finishRad_dec, hnext]
            rw [sporCleanup_eq_complete _ rfl
              (by show (radDecode _ _ _ _ _ _).ctx.header.fin ≠ 0
                  rw [hctxh]
                  show c'.header.fin ≠ 0
                  rw [hfin']
                  omega)
              (by show isControlFrame (radDecode _ _ _ _ _ _).ctx.header = false
                  rw [hctxh]
                  show isControlFrame c'.header = false
                  unfold isControlFrame
                  rw [hop']
                  rfl)]
            exact wsDecodeCleanupComplete_state _
          rw [hdrain, List.append_nil]
        · have hlt₂ : 0 + (h + bs.length - (if payload.length < 126 then 6
              else if payload.length < 65536 then 8 else 14)) + 0 + bs₂.length
              < payload.length := by omega
          obtain ⟨hout, hsock', hnext, hctxst, hctxh, hctxrl, hctxcl, hctxwp, hctxnr,
              hctxcb⟩ :=
            radDecode_round_incomplete { c' with state := DState.dataNeeded } s₂ len mask
              payload
              (if payload.length < 126 then 6 else if payload.length < 65536 then 8 else 14)
              0 0 (h + bs.length - (if payload.length < 126 then 6
                else if payload.length < 65536 then 8 else 14)) bs₂
              hop' hmask' hm4 hpl' hP64 hhl' rfl hrl'' hcl'' hwpD hnrD
              (by omega)
              hregD
              (by
                show bufRead c'.carryBuf 0 0 = _
                rw [bufRead_zero]
                simp)
              hbspre₂' hlt₂
              (by
                unfold codeBufSize at hlenB hbsB₂'
                omega)
          rw [finishRad_out, hout]
          have hcleanid : (finishRad w (radDecode
                (radCarry { c' with state := DState.dataNeeded }) s₂ len
                (codeBufSize - (radCarry { c' with state := DState.dataNeeded }).writePos - 1)
                (h + bs.length - (if payload.length < 126 then 6
                  else if payload.length < 65536 then 8 else 14)) bs₂)).wsctx.dec
              = { (radDecode (radCarry { c' with state := DState.dataNeeded }) s₂ len
                    (codeBufSize
                      - (radCarry { c' with state := DState.dataNeeded }).writePos - 1)
                    (h + bs.length - (if payload.length < 126 then 6
                      else if payload.length < 65536 then 8 else 14)) bs₂).ctx with
                  state := DState.dataNeeded } := by
            rw [finishRad_dec, hnext]
            exact sporCleanup_eq_id _ (fun hx => DState.noConfusion hx)
              (fun hx => DState.noConfusion hx)
          have hstep := runCollect_rounds mask payload
            (if payload.length < 126 then 6 else if payload.length < 65536 then 8 else 14)
            len f
            (finishRad w (radDecode (radCarry { c' with state := DState.dataNeeded }) s₂ len
              (codeBufSize - (radCarry { c' with state := DState.dataNeeded }).writePos - 1)
              (h + bs.length - (if payload.length < 126 then 6
                else if payload.length < 65536 then 8 else 14)) bs₂)).wsctx
            (finishRad w (radDecode (radCarry { c' with state := DState.dataNeeded }) s₂ len
              (codeBufSize - (radCarry { c' with state := DState.dataNeeded }).writePos - 1)
              (h + bs.length - (if payload.length < 126 then 6
                else if payload.length < 65536 then 8 else 14)) bs₂)).sock
            (0 + ((bs₂.length + 0 + (h + bs.length - (if payload.length < 126 then 6
                else if payload.length < 65536 then 8 else 14)))
              - (bs₂.length + 0 + (h + bs.length - (if payload.length < 126 then 6
                else if payload.length < 65536 then 8 else 14))) % 4))
            ((bs₂.length + 0 + (h + bs.length - (if payload.length < 126 then 6
              else if payload.length < 65536 then 8 else 14))) % 4)
            (by rw [hcleanid])
            (by rw [hcleanid]
                show (radDecode _ _ _ _ _ _).ctx.header.opcode = _
                rw [hctxh]
                exact hop')
            (by rw [hcleanid]
                show (radDecode _ _ _ _ _ _).ctx.header.fin ≠ 0
                rw [hctxh]
                show c'.header.fin ≠ 0
                rw [hfin']
                omega)
            (by rw [hcleanid]
                show (radDecode _ _ _ _ _ _).ctx.header.mask = mask
                rw [hctxh]
                exact hmask')
            hm4
            (by rw [hcleanid]
                show (radDecode _ _ _ _ _ _).ctx.header.payloadLen = _
                rw [hctxh]
                exact hpl')
            hP64
            (by rw [hcleanid]
                show (radDecode _ _ _ _ _ _).ctx.header.headerLen = _
                rw [hctxh]
                exact hhl')
            (by omega)
            (by unfold WSHLENMAX
                omega)
            (by rw [hcleanid]
                show (radDecode _ _ _ _ _ _).ctx.readlen = 0
                exact hctxrl)
            (by rw [hcleanid]
                show (radDecode _ _ _ _ _ _).ctx.carrylen = _
                exact hctxcl)
            (by omega)
            (by rw [hcleanid]
                show (radDecode _ _ _ _ _ _).ctx.writePos = _
                exact hctxwp)
            (by rw [hcleanid]
                show (radDecode _ _ _ _ _ _).ctx.nReadPayload = _
                rw [hctxnr]
                omega)
            (by omega)
            (by rw [hcleanid]
                show bufRead (radDecode _ _ _ _ _ _).ctx.carryBuf 0 _ = _
                rw [hctxcb])
            (by rw [finishRad_sock, hsock', hjoin₂, List.drop_drop]
                try congr 1
                try omega)
            (by rw [finishRad_sock, hsock']
                exact hne₂)
            (by omega)
            hlenB
            (by omega)
          rw [hstep]
          rw [List.drop_zero, Nat.zero_add, List.take_append_drop]

theorem sockJoin_oneByteChunks (l : List Byte) : sockJoin (oneByteChunks l) = l := by
  induction l with
  | nil => rfl
  | cons b t ih =>
    show sockJoin ([b] :: oneByteChunks t) = b :: t
    rw [sockJoin_cons, ih]
    rfl

theorem oneByteChunks_ne_nil (l : List Byte) : ∀ c ∈ oneByteChunks l, c ≠ [] := by
  intro c hc
  unfold oneByteChunks at hc
  rw [List.mem_map] at hc
  obtain ⟨b, _, hb⟩ := hc
  rw [← hb]
  intro hx
  simp at hx

/-- Any delivery of one complete masked BINARY frame — whatever the
chunking of the byte stream across socket reads — makes the emulated
`recv` loop hand the caller exactly the original pre-mask payload. -/
theorem runCollect_mkMaskedFrame (flag : Bool) (mask payload : List Byte) (s : Sock)
    (len fuel : Nat)
    (hm4 : mask.length = 4) (hP64 : payload.length < 2 ^ 64)
    (hs : sockJoin s = mkMaskedFrame 130 mask payload)
    (hne : ∀ c ∈ s, c ≠ [])
    (hlen : codeBufSize ≤ len)
    (hfuel : (mkMaskedFrame 130 mask payload).length < fuel) :
    runCollect fuel (initWs flag) s len = payload := by
  exact runCollect_frame mask payload len hm4 hP64 hlen fuel (initWs flag) s 0
    rfl rfl rfl (by rw [bufRead_zero]; simp) rfl rfl rfl rfl
    (by rw [List.drop_zero]; exact hs) hne
    (by split <;> [omega; (split <;> omega)]) (by omega)

/-! ### Claim C1: masked frames decode to the pre-mask payload (confirmed) -/

/-- C1: for every legal masked BINARY frame — any 4-byte mask, any
pre-mask payload of length `< 2 ^ 64` (covering the listed lengths 0, 1,
2, 3, 4, 5, 125, 126, 127, 65535, 65536, 100000), the frame built by
XORing each payload byte at offset `j` with `mask[j % 4]` — and *every*
split of the frame's bytes into socket-read chunks, the concatenation of
the payload bytes that the `recv` emulation hands to the caller equals
the original pre-mask payload: the word-wise XOR plus `carry_buf`
handling is equivalent to the per-byte reference definition
`payload[j] = received[j] ^ mask[j % 4]`. -/
theorem c1_masked_frame_decodes (flag : Bool) (mask payload : List Byte) (s : Sock)
    (len fuel : Nat)
    (hm4 : mask.length = 4) (hP64 : payload.length < 2 ^ 64)
    (hs : sockJoin s = mkMaskedFrame 130 mask payload)
    (hne : ∀ c ∈ s, c ≠ [])
    (hlen : codeBufSize ≤ len)
    (hfuel : (mkMaskedFrame 130 mask payload).length < fuel) :
    runCollect fuel (initWs flag) s len = payload :=
  runCollect_mkMaskedFrame flag mask payload s len fuel hm4 hP64 hs hne hlen hfuel

/-- C1 witness: the masked frame for payload `[5, 6, 7]` under mask
`[1, 2, 3, 4]`, delivered one byte per socket read, decodes to
`[5, 6, 7]`. -/
theorem c1_masked_frame_decodes_witness :
    runCollect 16 (initWs false)
      (oneByteChunks (mkMaskedFrame 130 [1, 2, 3, 4] [5, 6, 7])) codeBufSize = [5, 6, 7] :=
  c1_masked_frame_decodes false [1, 2, 3, 4] [5, 6, 7]
    (oneByteChunks (mkMaskedFrame 130 [1, 2, 3, 4] [5, 6, 7])) codeBufSize 16
    (by decide) (by decide) (by decide) (by decide) (by decide) (by decide)

/-! ### Claim C2: chunking equivalence (corrected) -/

/-- C2 counterexample: two legal pipelined 1-byte BINARY frames
(14 bytes in total).  Delivered as a single chunk, `readHeader` overreads
the first frame's header by up to `WSHLENMAX` bytes, `nReadPayload`
becomes 8 for a `payload_len` of 1, the `uint64_t` subtraction in
`remaining()` wraps to `2^64 - 7`, and the session delivers nothing;
delivered one byte per socket read the decoder returns both payload
bytes.  The concatenated outputs differ, refuting the claim. -/
theorem c2_counterexample :
    runCollect 20 (initWs false)
      [[0x82, 0x81, 0, 0, 0, 0, 0x61, 0x82, 0x81, 0, 0, 0, 0, 0x62]] codeBufSize = []
    ∧ runCollect 20 (initWs false)
      (oneByteChunks [0x82, 0x81, 0, 0, 0, 0, 0x61, 0x82, 0x81, 0, 0, 0, 0, 0x62])
      codeBufSize = [0x61, 0x62] := by
  decide

/-- C2 amended: the chunking equivalence does hold as long as the wire
carries a single legal masked frame (no pipelined follow-up bytes for
`readHeader` to overread into): byte-at-a-time delivery and single-chunk
delivery of one masked BINARY frame produce the identical concatenated
output, namely the frame's pre-mask payload. -/
theorem c2_single_frame_chunking (flag : Bool) (mask payload : List Byte) (len fuel : Nat)
    (hm4 : mask.length = 4) (hP64 : payload.length < 2 ^ 64)
    (hlen : codeBufSize ≤ len)
    (hfuel : (mkMaskedFrame 130 mask payload).length < fuel) :
    runCollect fuel (initWs flag) (oneByteChunks (mkMaskedFrame 130 mask payload)) len
      = runCollect fuel (initWs flag) [mkMaskedFrame 130 mask payload] len
    ∧ runCollect fuel (initWs flag) (oneByteChunks (mkMaskedFrame 130 mask payload)) len
      = payload := by
  have h1 : runCollect fuel (initWs flag) (oneByteChunks (mkMaskedFrame 130 mask payload)) len
      = payload :=
    runCollect_mkMaskedFrame flag mask payload _ len fuel hm4 hP64
      (sockJoin_oneByteChunks _) (oneByteChunks_ne_nil _) hlen hfuel
  have h2 : runCollect fuel (initWs flag) [mkMaskedFrame 130 mask payload] len = payload :=
    runCollect_mkMaskedFrame flag mask payload _ len fuel hm4 hP64
      (by simp [sockJoin])
      (by
        intro c hc hx
        rw [List.mem_singleton] at hc
        subst hc
        simp [mkMaskedFrame] at hx)
      hlen hfuel
  exact ⟨h1.trans h2.symm, h1⟩

/-- C2 witness: the amended equivalence applied to the 1-byte payload
`[9]` under mask `[1, 2, 3, 4]`. -/
theorem c2_single_frame_chunking_witness :
    runCollect 16 (initWs false)
      (oneByteChunks (mkMaskedFrame 130 [1, 2, 3, 4] [9])) codeBufSize
      = runCollect 16 (initWs false) [mkMaskedFrame 130 [1, 2, 3, 4] [9]] codeBufSize :=
  (c2_single_frame_chunking false [1, 2, 3, 4] [9] codeBufSize 16
    (by decide) (by decide) (by decide) (by decide)).1
